import Mathlib

/-!
# Entity-component store of turfwars (`src/src/ECS.hpp`)

A shallow embedding of the component registry, the two storage variants
(`ComponentStorage`, `SkiplistComponentStorage`), `Scene` and `SceneView`.

Conventions of the embedding

* `std::vector` is a `List`; a reference into a storage's byte buffer is the byte
  offset it points to.
* A failed `assert` and every access the C++ standard leaves undefined (indexing a
  vector at or past its size, constructing or reading an object outside the buffer)
  is a `Fault`; functions that can fault return `Except Fault _`.
* `size_t` subtraction and the `std::max<int64_t>` calls are computed with their
  64-bit wrap-around. Vector lengths, `sizeof` and the component counter are bounded
  by the address space, far below `2 ^ 64`, so sums and products of them are left
  as natural numbers.
* `assert` is taken to be enabled (no `NDEBUG`).
* The function-local `static size_t id` of `GetComponentID<T>` is one registry
  entry per component type; the registry is threaded through every operation that
  calls `GetComponentID`.
-/

namespace cs381

/-! ## Machine integers -/

/-- The value `std::numeric_limits<size_t>::max()`, which is also `size_t(-1)`. -/
def SIZE_MAX : Nat := 2 ^ 64 - 1

/-- Subtraction of two `size_t` values, wrapping modulo `2 ^ 64` when it underflows. -/
def subSizeT (a b : Nat) : Nat := if b ≤ a then a - b else a + 2 ^ 64 - b

/-- Addition of two `size_t` values, wrapping modulo `2 ^ 64`. -/
def addSizeT (a b : Nat) : Nat := (a + b) % 2 ^ 64

/-- The expression `std::max<int64_t>(x, 1)` for a `size_t` value `x`: `x` is read as a
two's-complement `int64_t` (negative from `2 ^ 63` on), and the maximum, which is
positive, is passed on as a `size_t`. -/
def maxInt64One (x : Nat) : Nat := if 1 ≤ x ∧ x < 2 ^ 63 then x else 1

/-- A `std::byte`. -/
abbrev Byte := Fin 256

/-- The handle `using Entity = uint8_t`. -/
abbrev Entity := Fin 256

/-- Conversion of a `size_t` to `Entity` (`uint8_t`): reduction modulo 256. -/
def toEntity (n : Nat) : Entity := ⟨n % 256, Nat.mod_lt _ (by decide)⟩

/-- Ways an operation can fail to return: the four assertions of the source and
undefined behaviour. -/
inductive Fault where
  /-- `assert(sizeof(Tcomponent) == elementSize)` -/
  | typeMismatch
  /-- `assert(e < ...size())` and `assert(indecies[e] != max)` in the storages' `Get` -/
  | outOfRange
  /-- `assert(count < 100)` -/
  | countLimit
  /-- `assert(entityMasks[e][id])` -/
  | missingComponent
  /-- An access with undefined behaviour (unchecked index past the end, ...) -/
  | undefinedBehaviour
  deriving DecidableEq, Repr

deriving instance DecidableEq for Except

/-! ## Component types and the registry -/

/-- A component type `Tcomponent`: its identity and the object representation of a
value-initialised `Tcomponent()`. `sizeof` is the length of that representation, which
C++ guarantees to be at least one byte and at most `PTRDIFF_MAX`. `isSizeT` marks the one
type that is `std::size_t` itself (eight bytes), for which the expression
`Storage(Tcomponent{})` selects the constructor `Storage(size_t elementSize)` instead of the
constructor template. -/
structure ComponentType where
  name : Nat
  init : List Byte
  init_ne : init ≠ []
  init_lt : init.length < 2 ^ 63
  isSizeT : Bool
  size_t_init : isSizeT = true → init = List.replicate 8 0
  deriving DecidableEq

/-- The value `sizeof(Tcomponent)`. -/
def ComponentType.sizeof (T : ComponentType) : Nat := T.init.length

/-- The global `globalComponentCounter` together with the function-local statics
`GetComponentID<T>::id` that have been initialised so far. -/
structure Registry where
  globalComponentCounter : Nat
  ids : List (ComponentType × Nat)
  deriving DecidableEq

/-- `GetComponentID<T>()`: the static `id` is initialised from `globalComponentCounter++`
on the first call for `T` and returned unchanged afterwards. -/
def GetComponentID (T : ComponentType) (r : Registry) : Nat × Registry :=
  match r.ids.lookup T with
  | some id => (id, r)
  | none => (r.globalComponentCounter,
      ⟨r.globalComponentCounter + 1, (T, r.globalComponentCounter) :: r.ids⟩)

/-! ## Raw byte buffers -/

/-- Writing the bytes `v` at byte offset `off` of a buffer (placement construction or
assignment through a reference); outside the buffer it is undefined behaviour. -/
def writeAt (data : List Byte) (off : Nat) (v : List Byte) : Except Fault (List Byte) :=
  if off + v.length ≤ data.length then
    .ok (data.take off ++ v ++ data.drop (off + v.length))
  else .error .undefinedBehaviour

/-- Reading `n` bytes at byte offset `off` of a buffer through a reference. -/
def readAt (data : List Byte) (off n : Nat) : Except Fault (List Byte) :=
  if off + n ≤ data.length then .ok ((data.drop off).take n)
  else .error .undefinedBehaviour

/-! ## Dense storage -/

/-- The struct `ComponentStorage`. -/
structure ComponentStorage where
  elementSize : Nat
  data : List Byte
  deriving DecidableEq

namespace ComponentStorage

/-- `ComponentStorage()`: `elementSize(-1), data(1, std::byte{0})`. -/
def default : ComponentStorage := ⟨SIZE_MAX, [0]⟩

/-- `ComponentStorage(size_t elementSize)`; `reserve` does not change the contents. -/
def ofSize (elementSize : Nat) : ComponentStorage := ⟨elementSize, []⟩

/-- The expression `ComponentStorage(Tcomponent{})`: the constructor template
`ComponentStorage(Tcomponent reference = {})`, which delegates to `ofSize (sizeof T)`.
When `Tcomponent` is `size_t` the argument `size_t{}` is an exact match for the
non-template constructor `ComponentStorage(size_t elementSize)`, which overload resolution
prefers: the element size is then the value `0`. -/
def ofType (T : ComponentType) : ComponentStorage :=
  if T.isSizeT then ofSize 0 else ofSize T.sizeof

/-- `Get<Tcomponent>(e)`: the offset `e * elementSize` behind the two assertions. -/
def Get (T : ComponentType) (e : Entity) (st : ComponentStorage) : Except Fault Nat :=
  if T.sizeof ≠ st.elementSize then .error .typeMismatch
  else if ¬ e.val < st.data.length / st.elementSize then .error .outOfRange
  else .ok (e.val * st.elementSize)

/-- The loop `for (i = 0; i < count - 1; i++) new (data.data() + originalEnd + i * elementSize) T()`,
with `n` iterations left and loop variable `i`. -/
def constructLoop (T : ComponentType) (originalEnd elementSize : Nat) :
    Nat → Nat → List Byte → Except Fault (List Byte)
  | 0, _, data => .ok data
  | n + 1, i, data =>
    match writeAt data (originalEnd + i * elementSize) T.init with
    | .error f => .error f
    | .ok data1 => constructLoop T originalEnd elementSize n (i + 1) data1

/-- `Allocate<Tcomponent>(count)`: the new storage, the offset of the returned
reference (the last slot) and the returned `data.size() / elementSize`. -/
def Allocate (T : ComponentType) (count : Nat) (st : ComponentStorage) :
    Except Fault (ComponentStorage × Nat × Nat) :=
  if T.sizeof ≠ st.elementSize then .error .typeMismatch
  else if ¬ count < 100 then .error .countLimit
  else
    let originalEnd := st.data.length
    let data1 := st.data ++ List.replicate (st.elementSize * count) (0 : Byte)
    match constructLoop T originalEnd st.elementSize (subSizeT count 1) 0 data1 with
    | .error f => .error f
    | .ok data2 =>
      match writeAt data2 (subSizeT data2.length st.elementSize) T.init with
      | .error f => .error f
      | .ok data3 =>
        .ok (⟨st.elementSize, data3⟩, subSizeT data3.length st.elementSize,
          data3.length / st.elementSize)

/-- `GetOrAllocate<Tcomponent>(e)`: the storage afterwards and the offset returned
by the final `Get`. -/
def GetOrAllocate (T : ComponentType) (e : Entity) (st : ComponentStorage) :
    Except Fault (ComponentStorage × Nat) :=
  if T.sizeof ≠ st.elementSize then .error .typeMismatch
  else
    let size := st.data.length / st.elementSize
    if size ≤ e.val then
      match Allocate T (maxInt64One (addSizeT (subSizeT e.val size) 1)) st with
      | .error f => .error f
      | .ok (st1, _, _) =>
        match Get T e st1 with
        | .error f => .error f
        | .ok off => .ok (st1, off)
    else
      match Get T e st with
      | .error f => .error f
      | .ok off => .ok (st, off)

end ComponentStorage

/-! ## Sparse storage -/

/-- The struct `SkiplistComponentStorage`. -/
structure SkiplistComponentStorage where
  elementSize : Nat
  indecies : List Nat
  data : List Byte
  deriving DecidableEq

namespace SkiplistComponentStorage

/-- `SkiplistComponentStorage()`: `elementSize(-1), indecies(1, -1), data(1, std::byte{0})`. -/
def default : SkiplistComponentStorage := ⟨SIZE_MAX, [SIZE_MAX], [0]⟩

/-- `SkiplistComponentStorage(size_t elementSize)`. -/
def ofSize (elementSize : Nat) : SkiplistComponentStorage := ⟨elementSize, [], []⟩

/-- The expression `SkiplistComponentStorage(Tcomponent{})`: the constructor template,
delegating to `ofSize (sizeof T)`, except for `size_t`, where the non-template constructor
`SkiplistComponentStorage(size_t elementSize)` is selected with the value `0`. -/
def ofType (T : ComponentType) : SkiplistComponentStorage :=
  if T.isSizeT then ofSize 0 else ofSize T.sizeof

/-- `Get<Tcomponent>(e)`: the offset `indecies[e]` behind the three assertions. -/
def Get (T : ComponentType) (e : Entity) (st : SkiplistComponentStorage) : Except Fault Nat :=
  if T.sizeof ≠ st.elementSize then .error .typeMismatch
  else
    match st.indecies[e.val]? with
    | none => .error .outOfRange
    | some off => if off = SIZE_MAX then .error .outOfRange else .ok off

/-- The no-argument `Allocate<Tcomponent>()`: the new storage, the offset of the
returned reference and the returned index `(data.size() - 1) / elementSize`. -/
def Allocate (T : ComponentType) (st : SkiplistComponentStorage) :
    Except Fault (SkiplistComponentStorage × Nat × Nat) :=
  if T.sizeof ≠ st.elementSize then .error .typeMismatch
  else
    let data1 := st.data ++ List.replicate st.elementSize (0 : Byte)
    match writeAt data1 (subSizeT data1.length st.elementSize) T.init with
    | .error f => .error f
    | .ok data2 =>
      .ok (⟨st.elementSize, st.indecies, data2⟩, subSizeT data2.length st.elementSize,
        subSizeT data2.length 1 / st.elementSize)

/-- `Allocate<Tcomponent>(Entity e)`: allocates a slot and stores `i * elementSize`
in `indecies[e]`, an unchecked index. -/
def AllocateFor (T : ComponentType) (e : Entity) (st : SkiplistComponentStorage) :
    Except Fault (SkiplistComponentStorage × Nat) :=
  match Allocate T st with
  | .error f => .error f
  | .ok (st1, ret, i) =>
    if e.val < st1.indecies.length then
      .ok (⟨st1.elementSize, st1.indecies.set e.val (i * st1.elementSize), st1.data⟩, ret)
    else .error .undefinedBehaviour

/-- `GetOrAllocate<Tcomponent>(e)`: the storage afterwards and the offset of the
returned reference. -/
def GetOrAllocate (T : ComponentType) (e : Entity) (st : SkiplistComponentStorage) :
    Except Fault (SkiplistComponentStorage × Nat) :=
  if T.sizeof ≠ st.elementSize then .error .typeMismatch
  else
    let st1 : SkiplistComponentStorage :=
      if st.indecies.length ≤ e.val then
        ⟨st.elementSize,
          st.indecies ++ List.replicate
            (maxInt64One (addSizeT (subSizeT e.val st.indecies.length) 1)) SIZE_MAX,
          st.data⟩
      else st
    match st1.indecies[e.val]? with
    | none => .error .undefinedBehaviour
    | some off =>
      if off = SIZE_MAX then AllocateFor T e st1
      else
        match Get T e st1 with
        | .error f => .error f
        | .ok off1 => .ok (st1, off1)

/-- The indices table after the growth step of `GetOrAllocate`, for an entity ordinal
`e`: `e - size + 1` sentinels are appended when `size <= e`. -/
def grown (indecies : List Nat) (e : Nat) : List Nat :=
  if indecies.length ≤ e then indecies ++ List.replicate (e - indecies.length + 1) SIZE_MAX
  else indecies

/-- Representation invariant of a sized sparse storage: `data` holds whole slots, fits a
byte vector (`max_size()` is `PTRDIFF_MAX`), and every index that is not the sentinel
addresses a whole slot inside `data`. -/
def WellFormed (st : SkiplistComponentStorage) : Prop :=
  st.data.length % st.elementSize = 0 ∧ st.data.length < 2 ^ 63 ∧
    ∀ off ∈ st.indecies, off ≠ SIZE_MAX → off + st.elementSize ≤ st.data.length

instance (st : SkiplistComponentStorage) : Decidable st.WellFormed := by
  unfold WellFormed; infer_instance

end SkiplistComponentStorage

/-! ## Scene -/

/-- What `Scene<Storage>` uses of its `Storage` template parameter, together with
access to the storage's byte buffer for reads and writes through a returned reference. -/
class Storage (σ : Type) where
  /-- The expression `Storage()`. -/
  default : σ
  /-- The expression `Storage(Tcomponent{})`. -/
  ofType : ComponentType → σ
  /-- The member `elementSize`. -/
  elementSize : σ → Nat
  /-- The member `data`. -/
  data : σ → List Byte
  /-- Replacing the contents of `data` (a write through a reference). -/
  setData : σ → List Byte → σ
  /-- The member template `Get<Tcomponent>`. -/
  Get : ComponentType → Entity → σ → Except Fault Nat
  /-- The member template `GetOrAllocate<Tcomponent>`. -/
  GetOrAllocate : ComponentType → Entity → σ → Except Fault (σ × Nat)

instance : Storage ComponentStorage where
  default := ComponentStorage.default
  ofType := ComponentStorage.ofType
  elementSize := ComponentStorage.elementSize
  data := ComponentStorage.data
  setData st d := ⟨st.elementSize, d⟩
  Get := ComponentStorage.Get
  GetOrAllocate := ComponentStorage.GetOrAllocate

instance : Storage SkiplistComponentStorage where
  default := SkiplistComponentStorage.default
  ofType := SkiplistComponentStorage.ofType
  elementSize := SkiplistComponentStorage.elementSize
  data := SkiplistComponentStorage.data
  setData st d := ⟨st.elementSize, st.indecies, d⟩
  Get := SkiplistComponentStorage.Get
  GetOrAllocate := SkiplistComponentStorage.GetOrAllocate

/-- The struct `Scene<Storage>`. -/
structure Scene (σ : Type) where
  entityMasks : List (List Bool)
  storages : List σ
  deriving DecidableEq

/-- A reference to a component: the storage it lives in (index into `storages`) and
its byte offset in that storage's `data`. -/
structure Ref where
  storage : Nat
  offset : Nat
  deriving DecidableEq, Repr

namespace Scene

variable {σ : Type}

/-- A default-initialised scene: no entities, `storages = {Storage()}`. -/
def new [Storage σ] : Scene σ := ⟨[], [Storage.default]⟩

/-- `GetStorage<Tcomponent>()`: the index of the returned storage, with the registry and
the scene as the call leaves them. `storages[id]` is an unchecked index. -/
def GetStorage [Storage σ] (T : ComponentType) (r : Registry) (s : Scene σ) :
    Except Fault (Nat × Registry × Scene σ) :=
  let id := (GetComponentID T r).1
  let storages1 :=
    if s.storages.length ≤ id then
      s.storages ++ List.replicate (maxInt64One (subSizeT id s.storages.length)) Storage.default
    else s.storages
  match storages1[id]? with
  | none => .error .undefinedBehaviour
  | some st =>
    let storages2 :=
      if Storage.elementSize st = SIZE_MAX then storages1.set id (Storage.ofType T)
      else storages1
    .ok (id, (GetComponentID T r).2, ⟨s.entityMasks, storages2⟩)

/-- `CreateEntity()`: the returned handle is the entity count converted to `uint8_t`. -/
def CreateEntity (s : Scene σ) : Entity × Scene σ :=
  (toEntity s.entityMasks.length, ⟨s.entityMasks ++ [[false]], s.storages⟩)

/-- The two statements `if (eMask.size() <= id) eMask.resize(id + 1, false); eMask[id] = true;`
of `AddComponent`, applied to a mask. -/
def maskWith (eMask : List Bool) (id : Nat) : List Bool :=
  (if eMask.length ≤ id then eMask ++ List.replicate (id + 1 - eMask.length) false
    else eMask).set id true

/-- `AddComponent<Tcomponent>(e)`: the returned reference, the registry and the scene.
`entityMasks[e]` is an unchecked index. -/
def AddComponent [Storage σ] (T : ComponentType) (e : Entity) (r : Registry) (s : Scene σ) :
    Except Fault (Ref × Registry × Scene σ) :=
  let id := (GetComponentID T r).1
  match s.entityMasks[e.val]? with
  | none => .error .undefinedBehaviour
  | some eMask =>
    let s1 : Scene σ := ⟨s.entityMasks.set e.val (maskWith eMask id), s.storages⟩
    match GetStorage T (GetComponentID T r).2 s1 with
    | .error f => .error f
    | .ok (sid, r2, s2) =>
      match s2.storages[sid]? with
      | none => .error .undefinedBehaviour
      | some st =>
        match Storage.GetOrAllocate T e st with
        | .error f => .error f
        | .ok (st1, off) => .ok (⟨sid, off⟩, r2, ⟨s2.entityMasks, s2.storages.set sid st1⟩)

/-- `RemoveComponent<Tcomponent>(e)`. `entityMasks[e]` is an unchecked index. -/
def RemoveComponent (T : ComponentType) (e : Entity) (r : Registry) (s : Scene σ) :
    Except Fault (Registry × Scene σ) :=
  let id := (GetComponentID T r).1
  match s.entityMasks[e.val]? with
  | none => .error .undefinedBehaviour
  | some eMask =>
    if eMask.length > id then
      .ok ((GetComponentID T r).2, ⟨s.entityMasks.set e.val (eMask.set id false), s.storages⟩)
    else .ok ((GetComponentID T r).2, s)

/-- `GetComponent<Tcomponent>(e)`: the returned reference, the registry and the scene.
Both `entityMasks[e]` and `entityMasks[e][id]` are unchecked indices. -/
def GetComponent [Storage σ] (T : ComponentType) (e : Entity) (r : Registry) (s : Scene σ) :
    Except Fault (Ref × Registry × Scene σ) :=
  let id := (GetComponentID T r).1
  match s.entityMasks[e.val]? with
  | none => .error .undefinedBehaviour
  | some eMask =>
    match eMask[id]? with
    | none => .error .undefinedBehaviour
    | some false => .error .missingComponent
    | some true =>
      match GetStorage T (GetComponentID T r).2 s with
      | .error f => .error f
      | .ok (sid, r2, s2) =>
        match s2.storages[sid]? with
        | none => .error .undefinedBehaviour
        | some st =>
          match Storage.Get T e st with
          | .error f => .error f
          | .ok off => .ok (⟨sid, off⟩, r2, s2)

/-- `HasComponent<Tcomponent>(e)`: `entityMasks[e].size() > id && entityMasks[e][id]`.
`entityMasks[e]` is an unchecked index; the scene is not modified. -/
def HasComponent (T : ComponentType) (e : Entity) (r : Registry) (s : Scene σ) :
    Except Fault (Bool × Registry) :=
  let id := (GetComponentID T r).1
  match s.entityMasks[e.val]? with
  | none => .error .undefinedBehaviour
  | some eMask => .ok (decide (eMask.length > id) && eMask.getD id false, (GetComponentID T r).2)

/-- Assignment `ref = v` through a reference returned by `AddComponent` or `GetComponent`. -/
def store [Storage σ] (s : Scene σ) (ref : Ref) (v : List Byte) : Except Fault (Scene σ) :=
  match s.storages[ref.storage]? with
  | none => .error .undefinedBehaviour
  | some st =>
    match writeAt (Storage.data st) ref.offset v with
    | .error f => .error f
    | .ok d => .ok ⟨s.entityMasks, s.storages.set ref.storage (Storage.setData st d)⟩

/-- Reading the `n` bytes of the component a reference points to. -/
def load [Storage σ] (s : Scene σ) (ref : Ref) (n : Nat) : Except Fault (List Byte) :=
  match s.storages[ref.storage]? with
  | none => .error .undefinedBehaviour
  | some st => readAt (Storage.data st) ref.offset n

/-- Representation invariant of a scene with sparse storage: every storage that has
been sized (its `elementSize` is no longer the unset marker) is well formed. -/
def SparseWellFormed (s : Scene SkiplistComponentStorage) : Prop :=
  ∀ st ∈ s.storages, st.elementSize ≠ SIZE_MAX → st.WellFormed

instance (s : Scene SkiplistComponentStorage) : Decidable s.SparseWellFormed := by
  unfold SparseWellFormed; infer_instance

end Scene

/-! ## SceneView -/

namespace SceneView

/-- The scene type a `SceneView` works on. -/
abbrev SparseScene := Scene SkiplistComponentStorage

/-- `Iterator::valid()`: the fold `(scene->HasComponent<Tcomponents>(e) && ...)`, evaluated
left to right with short circuit; `true` for the empty pack. -/
def valid (s : SparseScene) : List ComponentType → Entity → Registry → Except Fault (Bool × Registry)
  | [], _, r => .ok (true, r)
  | T :: Ts, e, r =>
    match Scene.HasComponent T e r s with
    | .error f => .error f
    | .ok (false, r1) => .ok (false, r1)
    | .ok (true, r1) => valid s Ts e r1

/-- `Iterator::operator==(Sentinel)` for an iterator with a non-null scene. -/
def atEnd (s : SparseScene) (e : Entity) : Bool := decide (e.val ≥ s.entityMasks.length)

/-- `Iterator::operator++(int)`: `do { e++; } while (!valid() && e < scene->entityMasks.size())`
on the 8-bit `e`. The loop need not terminate; `none` means the fuel ran out. -/
def advance (s : SparseScene) (Ts : List ComponentType) :
    Nat → Entity → Registry → Option (Except Fault (Entity × Registry))
  | 0, _, _ => none
  | fuel + 1, e, r =>
    match valid s Ts (e + 1) r with
    | .error f => some (.error f)
    | .ok (v, r1) =>
      if !v && decide ((e + 1).val < s.entityMasks.length) then advance s Ts fuel (e + 1) r1
      else some (.ok (e + 1, r1))

/-- `SceneView::begin()`: `Iterator out{&scene, 0}; if (!out.valid()) ++out; return out;`. -/
def begin (s : SparseScene) (Ts : List ComponentType) (fuel : Nat) (r : Registry) :
    Option (Except Fault (Entity × Registry)) :=
  match valid s Ts 0 r with
  | .error f => some (.error f)
  | .ok (true, r1) => some (.ok (0, r1))
  | .ok (false, r1) => advance s Ts fuel 0 r1

/-- The loop `for (it = begin(); !(it == end()); ++it)` from an iterator position on: the
ordinals at which the loop body runs, and how the loop ends (`none`: fuel ran out,
`some (.error f)`: fault, `some (.ok r)`: the iterator equals the sentinel). -/
def loop (s : SparseScene) (Ts : List ComponentType) :
    Nat → Entity → Registry → List Nat × Option (Except Fault Registry)
  | 0, _, _ => ([], none)
  | fuel + 1, e, r =>
    if atEnd s e then ([], some (.ok r))
    else
      match advance s Ts (fuel + 1) e r with
      | none => ([e.val], none)
      | some (.error f) => ([e.val], some (.error f))
      | some (.ok (e1, r1)) =>
        (e.val :: (loop s Ts fuel e1 r1).1, (loop s Ts fuel e1 r1).2)

/-- A complete iteration of `SceneView<Ts...>` over the scene, from `begin()`. -/
def traverse (s : SparseScene) (Ts : List ComponentType) (fuel : Nat) (r : Registry) :
    List Nat × Option (Except Fault Registry) :=
  match begin s Ts fuel r with
  | none => ([], none)
  | some (.error f) => ([], some (.error f))
  | some (.ok (e, r1)) => loop s Ts fuel e r1

/-- The conjunction `HasComponent<T1>(e) && ... && HasComponent<Tn>(e)` as a truth value. -/
def holdsAll (s : SparseScene) (Ts : List ComponentType) (e : Entity) (r : Registry) : Bool :=
  match valid s Ts e r with
  | .ok (b, _) => b
  | .error _ => false

/-- Registries reached from `r` by registering a prefix of `Ts` in order. -/
def Ext : List ComponentType → Registry → Registry → Prop
  | [], r, r1 => r1 = r
  | T :: Ts, r, r1 => r1 = r ∨ Ext Ts (GetComponentID T r).2 r1

/-- The ordinals in `[k, N)` at which all of `Ts` are held, in ascending order. -/
def qualFrom (s : SparseScene) (Ts : List ComponentType) (r : Registry) (k : Nat) : List Nat :=
  (List.range' k (s.entityMasks.length - k)).filter (fun n => holdsAll s Ts (toEntity n) r)

end SceneView

/-! ## Call sequences -/

/-- A sequence of `GetComponentID` calls, one per element of the list, in order: the ids
returned and the registry afterwards. -/
def callSequence : List ComponentType → Registry → List Nat × Registry
  | [], r => ([], r)
  | T :: Ts, r =>
    ((GetComponentID T r).1 :: (callSequence Ts (GetComponentID T r).2).1,
      (callSequence Ts (GetComponentID T r).2).2)

/-- The distinct component types of a call sequence in the order of their first call,
continuing from the types `seen` so far. -/
def seenAfter (seen : List ComponentType) : List ComponentType → List ComponentType
  | [] => seen
  | T :: Ts => seenAfter (if T ∈ seen then seen else seen ++ [T]) Ts

/-- The distinct component types of a call sequence in the order of their first call. -/
def firstSeen (Ts : List ComponentType) : List ComponentType := seenAfter [] Ts

/-- The registry records exactly the types in `seen`, the `k`-th of them with id `k - 1`,
and the counter is their number. -/
def Registry.Records (r : Registry) (seen : List ComponentType) : Prop :=
  r.globalComponentCounter = seen.length ∧ seen.Nodup ∧
    ∀ T, r.ids.lookup T = if T ∈ seen then some (seen.indexOf T) else none

/-- The bytes of `k` consecutive value-initialised objects of type `T`. -/
def slots (T : ComponentType) (k : Nat) : List Byte := (List.replicate k T.init).flatten

/-- The ordinals returned by `n` consecutive calls of `CreateEntity`, in order. -/
def createdOrdinals {σ : Type} : Nat → Scene σ → List Entity
  | 0, _ => []
  | n + 1, s => (Scene.CreateEntity s).1 :: createdOrdinals n (Scene.CreateEntity s).2

/-! ## Concrete components and scenes -/

/-- A four-byte component whose default value is not all zero. -/
def exPosition : ComponentType := ⟨0, [1, 2, 3, 4], by decide, by decide, false, by decide⟩

/-- A two-byte component. -/
def exVelocity : ComponentType := ⟨1, [9, 9], by decide, by decide, false, by decide⟩

/-- An eight-byte component. -/
def exEight : ComponentType := ⟨2, [1, 2, 3, 4, 5, 6, 7, 8], by decide, by decide, false, by decide⟩

/-- The type `std::size_t` itself used as a component. -/
def exSizeT : ComponentType := ⟨3, List.replicate 8 0, by decide, by decide, true, by decide⟩

/-- The registry at process start: `globalComponentCounter = 0`, no id handed out. -/
def exRegistry : Registry := ⟨0, []⟩

/-- The registry once `exPosition` has received id 0. -/
def exRegistry1 : Registry := ⟨1, [(exPosition, 0)]⟩

/-- The registry once `exPosition` and then `exVelocity` have received ids 0 and 1. -/
def exRegistry2 : Registry := ⟨2, [(exVelocity, 1), (exPosition, 0)]⟩

/-- The scene after `n` calls of `CreateEntity`. -/
def createN {σ : Type} : Nat → Scene σ → Scene σ
  | 0, s => s
  | n + 1, s => createN n (Scene.CreateEntity s).2

/-- Scenario 1 of the specification on sparse storage: entities 0, 1, 2 with `exPosition`
on 0 and 2. -/
def exScenario1 : Scene SkiplistComponentStorage :=
  ⟨[[true], [false], [true]], [⟨4, [0, SIZE_MAX, 4], [1, 2, 3, 4, 1, 2, 3, 4]⟩]⟩

/-- 256 entities on sparse storage, `exPosition` on entity 0 only. -/
def exCrowded : Scene SkiplistComponentStorage :=
  ⟨[true] :: List.replicate 255 [false], [⟨4, [0], [1, 2, 3, 4]⟩]⟩

/-- Three entities on dense storage, `exPosition` added to entity 2. -/
def exDense : Scene ComponentStorage :=
  ⟨[[false], [false], [true]], [⟨4, [1, 2, 3, 4, 1, 2, 3, 4, 1, 2, 3, 4]⟩]⟩

/-- 256 entities on sparse storage, none of them with a component. -/
def exVacant : Scene SkiplistComponentStorage :=
  ⟨List.replicate 256 [false], [SkiplistComponentStorage.default]⟩

/-! ## Reachable states -/

namespace SkiplistComponentStorage

/-- The sparse storages reached from `SkiplistComponentStorage(s)` by calls of
`GetOrAllocate` that return, with `data` staying within what a byte vector can hold
(`max_size()` is `PTRDIFF_MAX`). -/
inductive Reached (s : Nat) : SkiplistComponentStorage → Prop
  | fresh : Reached s (ofSize s)
  | call {st st1 : SkiplistComponentStorage} {T : ComponentType} {e : Entity} {off : Nat} :
      Reached s st → GetOrAllocate T e st = .ok (st1, off) → st1.data.length < 2 ^ 63 →
      Reached s st1

/-- The entries of `indecies` that are not the sentinel, in table order. -/
def offsets (st : SkiplistComponentStorage) : List Nat :=
  st.indecies.filter (fun o => decide (o ≠ SIZE_MAX))

end SkiplistComponentStorage

namespace Scene

variable {σ : Type}

/-- Entity `e` has an allocated slot for `T` in the storage `st`: the storage is sized for
`T`, `Get<T>(e)` passes its assertions, and the slot it returns lies inside `data`. -/
def HasSlot [Storage σ] (T : ComponentType) (e : Entity) (st : σ) : Prop :=
  Storage.elementSize st = T.sizeof ∧
    ∃ off, Storage.Get T e st = .ok off ∧ off + T.sizeof ≤ (Storage.data st).length

/-- Every set mask bit is the bit of a component type with an id, whose storage exists and
holds a slot for the entity. -/
def Allocated [Storage σ] (r : Registry) (s : Scene σ) : Prop :=
  ∀ (e i : Nat) (m : List Bool), s.entityMasks[e]? = some m → m[i]? = some true →
    e < 256 ∧ ∃ T st, r.ids.lookup T = some i ∧ s.storages[i]? = some st ∧
      HasSlot T (toEntity e) st

/-- The states of the registry and of one scene reached from an empty scene by calls of
`CreateEntity`, `AddComponent` and `RemoveComponent` that return. The registry is global:
it starts as any sequence of `GetComponentID` calls since process start left it, and
further such calls may come in between. Every `data` stays within what a byte vector can
hold (`max_size()` is `PTRDIFF_MAX`). -/
inductive Reachable [Storage σ] : Registry → Scene σ → Prop
  | start (Ts : List ComponentType) : Reachable (callSequence Ts ⟨0, []⟩).2 Scene.new
  | register {r : Registry} {s : Scene σ} (T : ComponentType) :
      Reachable r s → Reachable (GetComponentID T r).2 s
  | create {r : Registry} {s : Scene σ} : Reachable r s → Reachable r (CreateEntity s).2
  | add {r r1 : Registry} {s s1 : Scene σ} {T : ComponentType} {e : Entity} {ref : Ref} :
      Reachable r s → AddComponent T e r s = .ok (ref, r1, s1) →
      (∀ st ∈ s1.storages, (Storage.data st).length < 2 ^ 63) → Reachable r1 s1
  | remove {r r1 : Registry} {s s1 : Scene σ} {T : ComponentType} {e : Entity} :
      Reachable r s → RemoveComponent T e r s = .ok (r1, s1) → Reachable r1 s1

end Scene

/-! # Properties

## Registry, byte buffers, lists -/

theorem GetComponentID_again (T : ComponentType) (r : Registry) :
    GetComponentID T (GetComponentID T r).2 = ((GetComponentID T r).1, (GetComponentID T r).2) := by
  unfold GetComponentID
  cases h : r.ids.lookup T with
  | some id => simp [h]
  | none => simp [List.lookup]

theorem GetComponentID_of_lookup {T : ComponentType} {r : Registry} {i : Nat}
    (h : r.ids.lookup T = some i) : GetComponentID T r = (i, r) := by
  unfold GetComponentID; rw [h]

theorem lookup_after (T : ComponentType) (r : Registry) :
    (GetComponentID T r).2.ids.lookup T = some (GetComponentID T r).1 := by
  unfold GetComponentID
  cases h : r.ids.lookup T with
  | some id => simp [h]
  | none => simp [List.lookup]

theorem lookup_persist {T U : ComponentType} {r : Registry} {i : Nat}
    (h : r.ids.lookup T = some i) : (GetComponentID U r).2.ids.lookup T = some i := by
  unfold GetComponentID
  cases hU : r.ids.lookup U with
  | some id => simpa [hU] using h
  | none =>
    have hne : T ≠ U := by
      intro heq; subst heq; rw [h] at hU; cases hU
    simp only [List.lookup]
    have : (T == U) = false := by simpa using hne
    rw [this]
    exact h

theorem set_of_getElem? {α : Type} {l : List α} {i : Nat} {a : α} (h : l[i]? = some a) :
    l.set i a = l := by
  induction l generalizing i with
  | nil => rfl
  | cons x xs ih =>
    cases i with
    | zero => simp at h; simp [h]
    | succ n => simp at h; simp [ih h]

theorem sizeof_pos (T : ComponentType) : 0 < T.sizeof := by
  unfold ComponentType.sizeof
  exact List.length_pos.mpr T.init_ne

theorem sizeof_ne_max (T : ComponentType) : T.sizeof ≠ SIZE_MAX := by
  have := T.init_lt
  unfold ComponentType.sizeof SIZE_MAX
  omega

theorem writeAt_ok {data : List Byte} {off : Nat} {v : List Byte}
    (h : off + v.length ≤ data.length) :
    ∃ d, writeAt data off v = .ok d ∧ d.length = data.length ∧
      readAt d off v.length = .ok v := by
  refine ⟨data.take off ++ v ++ data.drop (off + v.length), ?_, ?_, ?_⟩
  · unfold writeAt; rw [if_pos h]
  · simp only [List.length_append, List.length_take, List.length_drop]; omega
  · unfold readAt
    have hlen : (data.take off ++ v ++ data.drop (off + v.length)).length = data.length := by
      simp only [List.length_append, List.length_take, List.length_drop]; omega
    rw [if_pos (by rw [hlen]; exact h)]
    have h1 : (data.take off).length = off := by
      rw [List.length_take]; omega
    rw [List.append_assoc, List.drop_append_of_le_length (by omega), List.drop_of_length_le (by omega)]
    simp

theorem writeAt_length {data d : List Byte} {off : Nat} {v : List Byte}
    (h : writeAt data off v = .ok d) : d.length = data.length ∧ off + v.length ≤ data.length := by
  unfold writeAt at h
  split at h
  · rename_i hle
    cases h
    refine ⟨?_, hle⟩
    simp only [List.length_append, List.length_take, List.length_drop]; omega
  · cases h

theorem growCount_eq {e len : Nat} (hle : len ≤ e) (he : e < 256) :
    maxInt64One (addSizeT (subSizeT e len) 1) = e - len + 1 := by
  unfold maxInt64One addSizeT subSizeT
  rw [if_pos hle, Nat.mod_eq_of_lt (by omega), if_pos (by omega)]

theorem slotIndex_mul {len es : Nat} (hpos : 0 < es) (hal : len % es = 0) :
    subSizeT (len + es) 1 / es * es = len := by
  unfold subSizeT
  rw [if_pos (by omega)]
  obtain ⟨q, hq⟩ := Nat.dvd_of_mod_eq_zero hal
  subst hq
  have h1 : es * q + es - 1 = (es - 1) + es * q := by omega
  rw [h1, Nat.add_mul_div_left _ _ hpos, Nat.div_eq_of_lt (by omega), Nat.zero_add, Nat.mul_comm]

/-! ## Dense storage -/

namespace ComponentStorage

theorem GetOrAllocate_ok {T : ComponentType} {e : Entity} {st st1 : ComponentStorage} {off : Nat}
    (h : GetOrAllocate T e st = .ok (st1, off)) :
    st1.elementSize = T.sizeof ∧ e.val < st1.data.length / T.sizeof ∧ off = e.val * T.sizeof := by
  have key : ∀ st2 : ComponentStorage, Get T e st2 = .ok off →
      st2.elementSize = T.sizeof ∧ e.val < st2.data.length / T.sizeof ∧ off = e.val * T.sizeof := by
    intro st2 hg
    unfold Get at hg
    split at hg
    · cases hg
    · rename_i hsz
      have hsz : T.sizeof = st2.elementSize := not_not.mp hsz
      split at hg
      · cases hg
      · rename_i hlt
        have hlt := not_not.mp hlt
        cases hg
        rw [hsz]
        exact ⟨rfl, hlt, rfl⟩
  unfold GetOrAllocate at h
  dsimp only at h
  split at h
  · cases h
  · split at h
    · split at h
      · cases h
      · rename_i st2 _ _ _
        split at h
        · cases h
        · rename_i off1 hg
          cases h
          exact key _ hg
    · split at h
      · cases h
      · rename_i off1 hg
        cases h
        exact key _ hg

theorem GetOrAllocate_of_lt {T : ComponentType} {e : Entity} {st : ComponentStorage}
    (hsz : st.elementSize = T.sizeof) (hlt : e.val < st.data.length / T.sizeof) :
    GetOrAllocate T e st = .ok (st, e.val * T.sizeof) ∧ Get T e st = .ok (e.val * T.sizeof) := by
  have hg : Get T e st = .ok (e.val * T.sizeof) := by
    unfold Get
    rw [hsz]
    simp [hlt]
  refine ⟨?_, hg⟩
  unfold GetOrAllocate
  dsimp only
  rw [hg, hsz]
  simp [hlt]

theorem slot_in_bounds {T : ComponentType} {e : Entity} {data : List Byte}
    (hlt : e.val < data.length / T.sizeof) : e.val * T.sizeof + T.sizeof ≤ data.length := by
  have h1 : (e.val + 1) * T.sizeof ≤ data.length / T.sizeof * T.sizeof :=
    Nat.mul_le_mul_right _ hlt
  have h2 := Nat.div_mul_le_self data.length T.sizeof
  have h3 : (e.val + 1) * T.sizeof = e.val * T.sizeof + T.sizeof := by ring
  omega

end ComponentStorage

/-! ## Sparse storage -/

namespace SkiplistComponentStorage

theorem grown_length (indecies : List Nat) (e : Nat) : e < (grown indecies e).length := by
  unfold grown
  split
  · simp; omega
  · omega

theorem grown_getElem? (indecies : List Nat) (e : Nat) :
    (grown indecies e)[e]? = some ((indecies[e]?).getD SIZE_MAX) := by
  unfold grown
  split
  · rename_i hle
    rw [List.getElem?_append_right hle, List.getElem?_eq_none hle]
    simp [List.getElem?_replicate]
  · rename_i hlt
    have hlt : e < indecies.length := by omega
    rw [List.getElem?_eq_getElem hlt]
    rfl

theorem Allocate_eq {T : ComponentType} {st : SkiplistComponentStorage}
    (hsz : st.elementSize = T.sizeof) :
    Allocate T st = .ok (⟨T.sizeof, st.indecies, st.data ++ T.init⟩, st.data.length,
      subSizeT (st.data.length + T.sizeof) 1 / T.sizeof) := by
  have hw : writeAt (st.data ++ List.replicate T.sizeof (0 : Byte)) st.data.length T.init =
      .ok (st.data ++ T.init) := by
    unfold writeAt
    rw [if_pos (by simp [ComponentType.sizeof])]
    simp [ComponentType.sizeof]
  unfold Allocate
  rw [hsz]
  simp only [ne_eq, not_true_eq_false, if_false]
  have h1 : subSizeT (st.data ++ List.replicate T.sizeof (0 : Byte)).length T.sizeof =
      st.data.length := by
    unfold subSizeT
    simp
  rw [h1, hw]
  simp only [List.length_append]
  have h2 : subSizeT (st.data.length + T.init.length) T.sizeof = st.data.length := by
    unfold subSizeT ComponentType.sizeof
    simp
  rw [h2]
  rfl

theorem GetOrAllocate_sizeof {T : ComponentType} {e : Entity} {st : SkiplistComponentStorage}
    {res : SkiplistComponentStorage × Nat} (h : GetOrAllocate T e st = .ok res) :
    st.elementSize = T.sizeof := by
  unfold GetOrAllocate at h
  split at h
  · cases h
  · rename_i hsz
    exact (not_not.mp hsz).symm

theorem GetOrAllocate_present {T : ComponentType} {e : Entity} {st : SkiplistComponentStorage}
    {off : Nat} (hsz : st.elementSize = T.sizeof) (hidx : st.indecies[e.val]? = some off)
    (hoff : off ≠ SIZE_MAX) :
    GetOrAllocate T e st = .ok (st, off) ∧ Get T e st = .ok off := by
  have hlt := (List.getElem?_eq_some_iff.mp hidx).1
  have hg : Get T e st = .ok off := by
    unfold Get
    rw [hsz, hidx]
    simp [hoff]
  refine ⟨?_, hg⟩
  unfold GetOrAllocate
  rw [hsz]
  simp only [ne_eq, not_true_eq_false, if_false]
  rw [if_neg (by omega)]
  simp only [hidx, hoff, if_false]
  rw [hg]

theorem GetOrAllocate_fresh {T : ComponentType} {e : Entity} {st : SkiplistComponentStorage}
    (hsz : st.elementSize = T.sizeof) (hidx : (st.indecies[e.val]?).getD SIZE_MAX = SIZE_MAX) :
    GetOrAllocate T e st = .ok (⟨T.sizeof,
        (grown st.indecies e.val).set e.val
          (subSizeT (st.data.length + T.sizeof) 1 / T.sizeof * T.sizeof),
        st.data ++ T.init⟩, st.data.length) := by
  have hgrow : (if st.indecies.length ≤ e.val then
      (⟨st.elementSize, st.indecies ++ List.replicate
          (maxInt64One (addSizeT (subSizeT e.val st.indecies.length) 1)) SIZE_MAX, st.data⟩ :
          SkiplistComponentStorage)
      else st) = ⟨T.sizeof, grown st.indecies e.val, st.data⟩ := by
    unfold grown
    split
    · rename_i hle
      rw [growCount_eq hle e.isLt, hsz]
    · cases st; dsimp only at hsz; subst hsz; rfl
  unfold GetOrAllocate
  rw [if_neg (by simp [hsz])]
  dsimp only
  rw [hgrow]
  dsimp only
  rw [grown_getElem?, hidx]
  simp only [if_true]
  unfold AllocateFor
  rw [@Allocate_eq T ⟨T.sizeof, grown st.indecies e.val, st.data⟩ rfl]
  dsimp only
  rw [if_pos (grown_length _ _)]

theorem wellFormed_ofType (T : ComponentType) : (ofType T).WellFormed := by
  unfold WellFormed ofType ofSize
  split <;> simp

theorem GetOrAllocate_wf {T : ComponentType} {e : Entity} {st st1 : SkiplistComponentStorage}
    {off : Nat} (hwf : st.WellFormed) (h : GetOrAllocate T e st = .ok (st1, off)) :
    st1.elementSize = T.sizeof ∧ st1.indecies[e.val]? = some off ∧ off ≠ SIZE_MAX ∧
      off + T.sizeof ≤ st1.data.length ∧ st1.data.length % T.sizeof = 0 ∧
      (∀ o ∈ st1.indecies, o ≠ SIZE_MAX → o + T.sizeof ≤ st1.data.length) ∧
      (st1.data.length = st.data.length ∨ st1.data.length = st.data.length + T.sizeof) := by
  have hsz := GetOrAllocate_sizeof h
  obtain ⟨hal, hbd, hin⟩ := hwf
  rw [hsz] at hal hin
  by_cases hidx : (st.indecies[e.val]?).getD SIZE_MAX = SIZE_MAX
  · rw [GetOrAllocate_fresh hsz hidx] at h
    simp only [Except.ok.injEq, Prod.mk.injEq] at h
    obtain ⟨h1, h2⟩ := h
    subst h1 h2
    have hmul := slotIndex_mul (sizeof_pos T) hal
    dsimp only
    rw [hmul]
    refine ⟨rfl, List.getElem?_set_self (grown_length _ _), ?_, ?_, ?_, ?_, ?_⟩
    · unfold SIZE_MAX; omega
    · simp [ComponentType.sizeof]
    · rw [List.length_append]
      show (st.data.length + T.sizeof) % T.sizeof = 0
      rw [Nat.add_mod_right]; exact hal
    · intro o ho hne
      rw [List.length_append]
      show o + T.sizeof ≤ st.data.length + T.sizeof
      rcases List.mem_or_eq_of_mem_set ho with hmem | heq
      · unfold grown at hmem
        split at hmem
        · rcases List.mem_append.mp hmem with hm | hm
          · have := hin o hm hne; omega
          · exact absurd (List.eq_of_mem_replicate hm) hne
        · have := hin o hmem hne; omega
      · omega
    · right; simp [ComponentType.sizeof]
  · cases hopt : st.indecies[e.val]? with
    | none => rw [hopt] at hidx; exact absurd rfl hidx
    | some off0 =>
      rw [hopt] at hidx
      have hne : off0 ≠ SIZE_MAX := hidx
      rw [(GetOrAllocate_present hsz hopt hne).1] at h
      simp only [Except.ok.injEq, Prod.mk.injEq] at h
      obtain ⟨h1, h2⟩ := h
      subst h1 h2
      exact ⟨hsz, hopt, hne, hin _ (List.getElem?_mem hopt) hne, hal, hin, Or.inl rfl⟩

end SkiplistComponentStorage

/-! ## Scene operations -/

namespace Scene

variable {σ : Type}

theorem GetStorage_ok [Storage σ] {T : ComponentType} {r r1 : Registry} {s s1 : Scene σ} {sid : Nat}
    (h : GetStorage T r s = .ok (sid, r1, s1)) :
    sid = (GetComponentID T r).1 ∧ r1 = (GetComponentID T r).2 ∧
      s1.entityMasks = s.entityMasks ∧
      ∃ st0, (s.storages[sid]? = some st0 ∨ (s.storages.length ≤ sid ∧ st0 = Storage.default)) ∧
        s1.storages[sid]? =
          some (if Storage.elementSize st0 = SIZE_MAX then Storage.ofType T else st0) ∧
        ∀ j, j ≠ sid → s1.storages[j]? =
          (if s.storages.length ≤ sid then
            s.storages ++ List.replicate (maxInt64One (subSizeT sid s.storages.length)) Storage.default
           else s.storages)[j]? := by
  unfold GetStorage at h
  dsimp only at h
  split at h
  · cases h
  · rename_i st hst
    simp only [Except.ok.injEq, Prod.mk.injEq] at h
    obtain ⟨h1, h2, h3⟩ := h
    subst h1 h2 h3
    refine ⟨rfl, rfl, rfl, st, ?_, ?_, ?_⟩
    · by_cases hlen : s.storages.length ≤ (GetComponentID T r).1
      · right
        refine ⟨hlen, ?_⟩
        rw [if_pos hlen, List.getElem?_append_right hlen] at hst
        have := List.getElem?_eq_some_iff.mp hst
        obtain ⟨h1, h2⟩ := this
        simpa using h2.symm
      · left
        rw [if_neg hlen] at hst
        exact hst
    · have hlt := (List.getElem?_eq_some_iff.mp hst).1
      by_cases hsz : Storage.elementSize st = SIZE_MAX
      · simp only [hsz, if_true]
        rw [List.getElem?_set_self hlt]
      · simp only [hsz, if_false]
        exact hst
    · intro j hj
      by_cases hsz : Storage.elementSize st = SIZE_MAX
      · simp only [hsz, if_true]
        rw [List.getElem?_set_ne (Ne.symm hj)]
      · simp only [hsz, if_false]

theorem maskWith_length_gt (eMask : List Bool) (id : Nat) : id < (maskWith eMask id).length := by
  unfold maskWith
  split <;> simp <;> omega

theorem maskWith_getElem? (eMask : List Bool) (id : Nat) : (maskWith eMask id)[id]? = some true := by
  have h := maskWith_length_gt eMask id
  unfold maskWith at h ⊢
  rw [List.length_set] at h
  rw [List.getElem?_set_self h]

theorem AddComponent_ok [Storage σ] {T : ComponentType} {e : Entity} {r r1 : Registry}
    {s s1 : Scene σ} {ref : Ref} (h : AddComponent T e r s = .ok (ref, r1, s1)) :
    r1 = (GetComponentID T r).2 ∧ ref.storage = (GetComponentID T r).1 ∧
    ∃ eMask, s.entityMasks[e.val]? = some eMask ∧
      s1.entityMasks = s.entityMasks.set e.val (maskWith eMask (GetComponentID T r).1) ∧
      ∃ s2 st st1, GetStorage T (GetComponentID T r).2
          ⟨s.entityMasks.set e.val (maskWith eMask (GetComponentID T r).1), s.storages⟩ =
            .ok ((GetComponentID T r).1, (GetComponentID T r).2, s2) ∧
        s2.storages[(GetComponentID T r).1]? = some st ∧
        Storage.GetOrAllocate T e st = .ok (st1, ref.offset) ∧
        s1.storages = s2.storages.set (GetComponentID T r).1 st1 := by
  unfold AddComponent at h
  dsimp only at h
  split at h
  · cases h
  · rename_i eMask hmask
    split at h
    · cases h
    · rename_i sid r2 s2 hgs
      have hg := GetStorage_ok hgs
      rw [GetComponentID_again] at hg
      obtain ⟨hsid, hr2, hmasks, -⟩ := hg
      dsimp only at hsid hr2
      subst hsid hr2
      split at h
      · cases h
      · rename_i st hst
        split at h
        · cases h
        · rename_i st1 off hgoa
          simp only [Except.ok.injEq, Prod.mk.injEq] at h
          obtain ⟨h1, h2, h3⟩ := h
          subst h1 h2 h3
          refine ⟨rfl, rfl, eMask, hmask, ?_, s2, st, st1, ?_, hst, hgoa, rfl⟩
          · exact hmasks
          · exact hgs

theorem HasComponent_of_mask {T : ComponentType} {e : Entity} {r : Registry} {s : Scene σ}
    {eMask : List Bool} (h : s.entityMasks[e.val]? = some eMask) :
    HasComponent T e r s =
      .ok (decide (eMask.length > (GetComponentID T r).1) && eMask.getD (GetComponentID T r).1 false,
        (GetComponentID T r).2) := by
  unfold HasComponent
  simp only [h]

theorem RemoveComponent_ok {T : ComponentType} {e : Entity} {r : Registry} {s : Scene σ}
    {eMask : List Bool} (h : s.entityMasks[e.val]? = some eMask) :
    ∃ s1, RemoveComponent T e r s = .ok ((GetComponentID T r).2, s1) ∧
      s1.storages = s.storages ∧
      s1.entityMasks = (if eMask.length > (GetComponentID T r).1 then
          s.entityMasks.set e.val (eMask.set (GetComponentID T r).1 false)
        else s.entityMasks) := by
  unfold RemoveComponent
  simp only [h]
  split
  · exact ⟨_, rfl, rfl, rfl⟩
  · exact ⟨_, rfl, rfl, rfl⟩

theorem GetStorage_present [Storage σ] {T : ComponentType} {r : Registry} {s : Scene σ} {st : σ}
    (hst : s.storages[(GetComponentID T r).1]? = some st)
    (hsz : Storage.elementSize st ≠ SIZE_MAX) :
    GetStorage T r s = .ok ((GetComponentID T r).1, (GetComponentID T r).2, s) := by
  have hlt := (List.getElem?_eq_some_iff.mp hst).1
  unfold GetStorage
  dsimp only
  rw [if_neg (by omega), hst]
  simp only [hsz, if_false]

theorem AddComponent_present [Storage σ] {T : ComponentType} {e : Entity} {r : Registry}
    {s : Scene σ} {eMask : List Bool} {st st1 : σ} {off : Nat}
    (hmask : s.entityMasks[e.val]? = some eMask)
    (hst : s.storages[(GetComponentID T r).1]? = some st)
    (hsz : Storage.elementSize st ≠ SIZE_MAX)
    (hgoa : Storage.GetOrAllocate T e st = .ok (st1, off)) :
    AddComponent T e r s = .ok (⟨(GetComponentID T r).1, off⟩, (GetComponentID T r).2,
      ⟨s.entityMasks.set e.val (maskWith eMask (GetComponentID T r).1),
        s.storages.set (GetComponentID T r).1 st1⟩) := by
  unfold AddComponent
  dsimp only
  rw [hmask]
  dsimp only
  have hst' : (Scene.mk (s.entityMasks.set e.val (maskWith eMask (GetComponentID T r).1))
      s.storages).storages[(GetComponentID T (GetComponentID T r).2).1]? = some st := by
    rw [GetComponentID_again]; exact hst
  rw [GetStorage_present hst' hsz]
  dsimp only
  rw [GetComponentID_again]
  dsimp only
  rw [hst]
  dsimp only
  rw [hgoa]

theorem GetComponent_present [Storage σ] {T : ComponentType} {e : Entity} {r : Registry}
    {s : Scene σ} {eMask : List Bool} {st : σ} {off : Nat}
    (hmask : s.entityMasks[e.val]? = some eMask)
    (hbit : eMask[(GetComponentID T r).1]? = some true)
    (hst : s.storages[(GetComponentID T r).1]? = some st)
    (hsz : Storage.elementSize st ≠ SIZE_MAX)
    (hget : Storage.Get T e st = .ok off) :
    GetComponent T e r s = .ok (⟨(GetComponentID T r).1, off⟩, (GetComponentID T r).2, s) := by
  unfold GetComponent
  dsimp only
  rw [hmask]
  dsimp only
  rw [hbit]
  dsimp only
  have hst' : s.storages[(GetComponentID T (GetComponentID T r).2).1]? = some st := by
    rw [GetComponentID_again]; exact hst
  rw [GetStorage_present hst' hsz]
  dsimp only
  rw [GetComponentID_again]
  dsimp only
  rw [hst]
  dsimp only
  rw [hget]


theorem AddComponent_result [Storage σ] {T : ComponentType} {e : Entity} {r r1 : Registry}
    {s s1 : Scene σ} {ref : Ref} (h : AddComponent T e r s = .ok (ref, r1, s1)) :
    r1 = (GetComponentID T r).2 ∧ ref.storage = (GetComponentID T r).1 ∧
    ∃ eMask st0 st1, s.entityMasks[e.val]? = some eMask ∧
      s1.entityMasks = s.entityMasks.set e.val (maskWith eMask (GetComponentID T r).1) ∧
      (s.storages[(GetComponentID T r).1]? = some st0 ∨
        (s.storages.length ≤ (GetComponentID T r).1 ∧ st0 = Storage.default)) ∧
      Storage.GetOrAllocate T e
        (if Storage.elementSize st0 = SIZE_MAX then Storage.ofType T else st0) =
          .ok (st1, ref.offset) ∧
      s1.storages[(GetComponentID T r).1]? = some st1 := by
  obtain ⟨hr1, href, eMask, hmask, hmasks, s2, st, st1, hgs, hst, hgoa, hs1⟩ := AddComponent_ok h
  obtain ⟨-, -, -, st0, hst0, hst2, -⟩ := GetStorage_ok hgs
  rw [hst] at hst2
  cases hst2
  refine ⟨hr1, href, eMask, st0, st1, hmask, hmasks, hst0, hgoa, ?_⟩
  rw [hs1, List.getElem?_set_self (List.getElem?_eq_some_iff.mp hst).1]

/-- What follows an `AddComponent` once the slot it returned has been written, for any
storage whose slot for `e` stays where it is. -/
theorem after_add [Storage σ] {T : ComponentType} {e : Entity} {r r1 : Registry}
    {s s1 : Scene σ} {ref : Ref} {v d : List Byte} {st1 : σ}
    (hadd : AddComponent T e r s = .ok (ref, r1, s1))
    (hst1 : s1.storages[ref.storage]? = some st1)
    (hw : writeAt (Storage.data st1) ref.offset v = .ok d)
    (hrd : readAt (Storage.data (Storage.setData st1 d)) ref.offset T.sizeof = .ok v)
    (hne : Storage.elementSize (Storage.setData st1 d) ≠ SIZE_MAX)
    (hget : Storage.Get T e (Storage.setData st1 d) = .ok ref.offset)
    (hgoa : Storage.GetOrAllocate T e (Storage.setData st1 d) =
      .ok (Storage.setData st1 d, ref.offset)) :
    ∃ s2, store s1 ref v = .ok s2 ∧
      GetComponent T e r1 s2 = .ok (ref, r1, s2) ∧ load s2 ref T.sizeof = .ok v ∧
      ∃ s3, RemoveComponent T e r1 s2 = .ok (r1, s3) ∧
        ∃ s4, AddComponent T e r1 s3 = .ok (ref, r1, s4) ∧ load s4 ref T.sizeof = .ok v ∧
          s4.storages = s3.storages := by
  obtain ⟨hr1, hrefs, eMask, -, -, hmask, hmasks, -, -, -⟩ := AddComponent_result hadd
  subst hr1
  have helt : e.val < s.entityMasks.length := (List.getElem?_eq_some_iff.mp hmask).1
  have hidlt := (List.getElem?_eq_some_iff.mp hst1).1
  have href : ref = ⟨(GetComponentID T r).1, ref.offset⟩ := by
    cases ref; dsimp only at hrefs; subst hrefs; rfl
  have hstore : store s1 ref v =
      .ok ⟨s1.entityMasks, s1.storages.set ref.storage (Storage.setData st1 d)⟩ := by
    unfold store
    rw [hst1]
    dsimp only
    rw [hw]
  have hm2 : (Scene.mk s1.entityMasks
      (s1.storages.set ref.storage (Storage.setData st1 d))).entityMasks[e.val]? =
        some (maskWith eMask (GetComponentID T r).1) := by
    show s1.entityMasks[e.val]? = _
    rw [hmasks, List.getElem?_set_self helt]
  have hst2 : (Scene.mk s1.entityMasks
      (s1.storages.set ref.storage (Storage.setData st1 d))).storages[
        (GetComponentID T (GetComponentID T r).2).1]? = some (Storage.setData st1 d) := by
    rw [GetComponentID_again, ← hrefs]
    exact List.getElem?_set_self hidlt
  have hload : ∀ s' : Scene σ, s'.storages[ref.storage]? = some (Storage.setData st1 d) →
      load s' ref T.sizeof = .ok v := by
    intro s' hs'
    unfold load
    rw [hs']
    exact hrd
  refine ⟨_, hstore, ?_, ?_, ?_⟩
  · have hbit : (maskWith eMask (GetComponentID T r).1)[
        (GetComponentID T (GetComponentID T r).2).1]? = some true := by
      rw [GetComponentID_again]; exact maskWith_getElem? _ _
    have hg := GetComponent_present hm2 hbit hst2 hne hget
    simp only [GetComponentID_again] at hg
    rw [← href] at hg
    exact hg
  · apply hload
    exact List.getElem?_set_self hidlt
  · obtain ⟨s3, hrm, hs3st, hs3m⟩ := RemoveComponent_ok (T := T) (r := (GetComponentID T r).2) hm2
    simp only [GetComponentID_again] at hrm hs3m
    refine ⟨s3, hrm, ?_⟩
    have hm3 : ∃ m3, s3.entityMasks[e.val]? = some m3 := by
      have : e.val < s3.entityMasks.length := by
        rw [hs3m]; split <;> simp [hmasks, helt]
      exact ⟨_, List.getElem?_eq_getElem this⟩
    obtain ⟨m3, hm3⟩ := hm3
    have hst3 : s3.storages[(GetComponentID T (GetComponentID T r).2).1]? =
        some (Storage.setData st1 d) := by
      rw [hs3st]; exact hst2
    have hst3' : s3.storages[ref.storage]? = some (Storage.setData st1 d) := by
      rw [GetComponentID_again, ← hrefs] at hst3; exact hst3
    have hadd2 := AddComponent_present hm3 hst3 hne hgoa
    simp only [GetComponentID_again] at hadd2
    rw [← href, ← hrefs, set_of_getElem? hst3'] at hadd2
    exact ⟨_, hadd2, hload _ hst3', rfl⟩

/-- Dense storage: everything `after_add` needs holds after a successful `AddComponent`. -/
theorem dense_after_add {T : ComponentType} {e : Entity} {r r1 : Registry}
    {s s1 : Scene ComponentStorage} {ref : Ref} {v : List Byte}
    (hadd : AddComponent T e r s = .ok (ref, r1, s1)) (hv : v.length = T.sizeof) :
    ref.offset = e.val * T.sizeof ∧
    ∃ s2, store s1 ref v = .ok s2 ∧
      GetComponent T e r1 s2 = .ok (ref, r1, s2) ∧ load s2 ref T.sizeof = .ok v ∧
      ∃ s3, RemoveComponent T e r1 s2 = .ok (r1, s3) ∧
        ∃ s4, AddComponent T e r1 s3 = .ok (ref, r1, s4) ∧ load s4 ref T.sizeof = .ok v ∧
          s4.storages = s3.storages := by
  obtain ⟨_, hrefs, _, _, st1, _, _, _, hgoa, hst1⟩ := AddComponent_result hadd
  obtain ⟨hes, hlt, hoff⟩ := ComponentStorage.GetOrAllocate_ok hgoa
  refine ⟨hoff, ?_⟩
  have hbound : ref.offset + v.length ≤ st1.data.length := by
    rw [hoff, hv]; exact ComponentStorage.slot_in_bounds hlt
  obtain ⟨d, hw, hdlen, hrd⟩ := writeAt_ok hbound
  rw [← hrefs] at hst1
  have hlt' : e.val < (Storage.setData st1 d : ComponentStorage).data.length / T.sizeof := by
    show e.val < d.length / T.sizeof
    rw [hdlen]; exact hlt
  have hboth := ComponentStorage.GetOrAllocate_of_lt
    (show (Storage.setData st1 d : ComponentStorage).elementSize = T.sizeof from hes) hlt'
  rw [← hoff] at hboth
  refine after_add hadd hst1 hw ?_ ?_ hboth.2 hboth.1
  · rw [← hv]; exact hrd
  · show st1.elementSize ≠ SIZE_MAX
    rw [hes]; exact sizeof_ne_max T

/-- Sparse storage: everything `after_add` needs holds after a successful `AddComponent` on
a well-formed scene. -/
theorem sparse_after_add {T : ComponentType} {e : Entity} {r r1 : Registry}
    {s s1 : Scene SkiplistComponentStorage} {ref : Ref} {v : List Byte}
    (hwf : s.SparseWellFormed)
    (hadd : AddComponent T e r s = .ok (ref, r1, s1)) (hv : v.length = T.sizeof) :
    ∃ s2, store s1 ref v = .ok s2 ∧
      GetComponent T e r1 s2 = .ok (ref, r1, s2) ∧ load s2 ref T.sizeof = .ok v ∧
      ∃ s3, RemoveComponent T e r1 s2 = .ok (r1, s3) ∧
        ∃ s4, AddComponent T e r1 s3 = .ok (ref, r1, s4) ∧ load s4 ref T.sizeof = .ok v ∧
          s4.storages = s3.storages := by
  obtain ⟨_, hrefs, _, st0, st1, _, _, hst0, hgoa, hst1⟩ := AddComponent_result hadd
  have hwf0 : (if Storage.elementSize st0 = SIZE_MAX then Storage.ofType T else st0 :
      SkiplistComponentStorage).WellFormed := by
    split
    · exact SkiplistComponentStorage.wellFormed_ofType T
    · rename_i hne
      rcases hst0 with h0 | ⟨-, h0⟩
      · exact hwf st0 (List.getElem?_mem h0) hne
      · subst h0; exact absurd rfl hne
  obtain ⟨hes, hidx, hoff, hbd, -, -, -⟩ := SkiplistComponentStorage.GetOrAllocate_wf hwf0 hgoa
  have hbound : ref.offset + v.length ≤ st1.data.length := by rw [hv]; exact hbd
  obtain ⟨d, hw, hdlen, hrd⟩ := writeAt_ok hbound
  rw [← hrefs] at hst1
  have hboth := SkiplistComponentStorage.GetOrAllocate_present
    (show (Storage.setData st1 d : SkiplistComponentStorage).elementSize = T.sizeof from hes)
    (show (Storage.setData st1 d : SkiplistComponentStorage).indecies[e.val]? = _ from hidx) hoff
  refine after_add hadd hst1 hw ?_ ?_ hboth.2 hboth.1
  · rw [← hv]; exact hrd
  · show st1.elementSize ≠ SIZE_MAX
    rw [hes]; exact sizeof_ne_max T

theorem GetStorage_mem {σ : Type} [Storage σ] {T : ComponentType} {r r1 : Registry}
    {s s1 : Scene σ} {sid : Nat} (h : GetStorage T r s = .ok (sid, r1, s1)) :
    ∀ st ∈ s1.storages, st ∈ s.storages ∨ st = Storage.default ∨ st = Storage.ofType T := by
  obtain ⟨-, -, -, st0, hst0, hsid, hother⟩ := GetStorage_ok h
  intro st hst
  obtain ⟨j, hj⟩ := List.getElem?_of_mem hst
  by_cases hjs : j = sid
  · subst hjs
    rw [hsid] at hj
    cases hj
    split
    · right; right; rfl
    · rcases hst0 with h0 | ⟨-, h0⟩
      · left; exact List.getElem?_mem h0
      · right; left; exact h0
  · rw [hother j hjs] at hj
    have hmem := List.getElem?_mem hj
    split at hmem
    · rcases List.mem_append.mp hmem with hm | hm
      · left; exact hm
      · right; left; exact List.eq_of_mem_replicate hm
    · left; exact hmem

theorem sparseWellFormed_new : (Scene.new : Scene SkiplistComponentStorage).SparseWellFormed := by
  intro st hst hne
  have : st = SkiplistComponentStorage.default := by simpa [Scene.new] using hst
  subst this
  exact absurd rfl hne

theorem sparseWellFormed_CreateEntity {s : Scene SkiplistComponentStorage}
    (hwf : s.SparseWellFormed) : (CreateEntity s).2.SparseWellFormed := hwf

theorem sparseWellFormed_RemoveComponent {T : ComponentType} {e : Entity} {r r1 : Registry}
    {s s1 : Scene SkiplistComponentStorage} (hwf : s.SparseWellFormed)
    (h : RemoveComponent T e r s = .ok (r1, s1)) : s1.SparseWellFormed := by
  unfold RemoveComponent at h
  dsimp only at h
  split at h
  · cases h
  · split at h <;> cases h <;> exact hwf

theorem sparseWellFormed_GetStorage {T : ComponentType} {r r1 : Registry}
    {s s1 : Scene SkiplistComponentStorage} {sid : Nat} (hwf : s.SparseWellFormed)
    (h : GetStorage T r s = .ok (sid, r1, s1)) : s1.SparseWellFormed := by
  intro st hst hne
  rcases GetStorage_mem h st hst with hm | hm | hm
  · exact hwf st hm hne
  · subst hm; exact absurd rfl hne
  · subst hm; exact SkiplistComponentStorage.wellFormed_ofType T

theorem sparseWellFormed_GetComponent {T : ComponentType} {e : Entity} {r r1 : Registry}
    {s s1 : Scene SkiplistComponentStorage} {ref : Ref} (hwf : s.SparseWellFormed)
    (h : GetComponent T e r s = .ok (ref, r1, s1)) : s1.SparseWellFormed := by
  unfold GetComponent at h
  dsimp only at h
  split at h
  · cases h
  · split at h
    · cases h
    · cases h
    · split at h
      · cases h
      · rename_i sid r2 s2 hgs
        split at h
        · cases h
        · split at h
          · cases h
          · cases h
            exact sparseWellFormed_GetStorage hwf hgs

theorem sparseWellFormed_store {s s1 : Scene SkiplistComponentStorage} {ref : Ref}
    {v : List Byte} (hwf : s.SparseWellFormed) (h : store s ref v = .ok s1) :
    s1.SparseWellFormed := by
  unfold store at h
  split at h
  · cases h
  · rename_i st hst
    split at h
    · cases h
    · rename_i d hw
      cases h
      have hlen := (writeAt_length hw).1
      intro st' hst' hne
      rcases List.mem_or_eq_of_mem_set hst' with hm | hm
      · exact hwf st' hm hne
      · subst hm
        have h0 := hwf st (List.getElem?_mem hst) hne
        unfold SkiplistComponentStorage.WellFormed at h0 ⊢
        show d.length % st.elementSize = 0 ∧ d.length < 2 ^ 63 ∧
          ∀ off ∈ st.indecies, off ≠ SIZE_MAX → off + st.elementSize ≤ d.length
        have hlen' : d.length = st.data.length := hlen
        rw [hlen']
        exact h0

theorem sparseWellFormed_AddComponent {T : ComponentType} {e : Entity} {r r1 : Registry}
    {s s1 : Scene SkiplistComponentStorage} {ref : Ref} (hwf : s.SparseWellFormed)
    (h : AddComponent T e r s = .ok (ref, r1, s1))
    (hroom : ∀ st ∈ s1.storages, st.data.length < 2 ^ 63) : s1.SparseWellFormed := by
  obtain ⟨-, -, eMask, -, -, s2, st, st1, hgs, hst, hgoa, hs1⟩ := AddComponent_ok h
  have hwf2 : s2.SparseWellFormed := sparseWellFormed_GetStorage
    (show (Scene.mk (s.entityMasks.set e.val (maskWith eMask (GetComponentID T r).1))
      s.storages).SparseWellFormed from hwf) hgs
  intro st' hst' hne
  rw [hs1] at hst'
  rcases List.mem_or_eq_of_mem_set hst' with hm | hm
  · exact hwf2 st' hm hne
  · subst hm
    have hsz := SkiplistComponentStorage.GetOrAllocate_sizeof hgoa
    have hwfst : st.WellFormed :=
      hwf2 st (List.getElem?_mem hst) (by rw [hsz]; exact sizeof_ne_max T)
    obtain ⟨hes, -, -, -, hal, hin, -⟩ := SkiplistComponentStorage.GetOrAllocate_wf hwfst hgoa
    have hmem : st' ∈ s1.storages := by
      rw [hs1]
      exact List.mem_set _ _ (List.getElem?_eq_some_iff.mp hst).1 _
    refine ⟨?_, hroom _ hmem, ?_⟩
    · rw [hes]; exact hal
    · rw [hes]; exact hin

end Scene

/-! ## SceneView -/

namespace SceneView

theorem Ext.refl (Ts : List ComponentType) (r : Registry) : Ext Ts r r := by
  cases Ts with
  | nil => rfl
  | cons T Ts => exact Or.inl rfl

theorem Ext.lookup {Ts : List ComponentType} {r r1 : Registry} (h : Ext Ts r r1)
    {T : ComponentType} {i : Nat} (hi : r.ids.lookup T = some i) : r1.ids.lookup T = some i := by
  induction Ts generalizing r with
  | nil => cases h; exact hi
  | cons U Ts ih =>
    rcases h with h | h
    · subst h; exact hi
    · exact ih h (lookup_persist hi)

theorem holdsAll_nil (s : SparseScene) (e : Entity) (r : Registry) : holdsAll s [] e r = true := rfl

theorem valid_ext (s : SparseScene) {e : Entity} (he : e.val < s.entityMasks.length) :
    ∀ (Ts : List ComponentType) (r r1 : Registry), Ext Ts r r1 →
      ∃ r2, valid s Ts e r1 = .ok (holdsAll s Ts e r, r2) ∧ Ext Ts r r2 := by
  have hmask : s.entityMasks[e.val]? = some s.entityMasks[e.val] := List.getElem?_eq_getElem he
  intro Ts
  induction Ts with
  | nil =>
    intro r r1 h
    cases h
    exact ⟨r, rfl, rfl⟩
  | cons T Ts ih =>
    intro r r1 h
    have hH : ∀ r0, Scene.HasComponent T e r0 s = _ := fun r0 => Scene.HasComponent_of_mask hmask
    have hunf : holdsAll s (T :: Ts) e r =
        (decide (s.entityMasks[e.val].length > (GetComponentID T r).1) &&
          s.entityMasks[e.val].getD (GetComponentID T r).1 false &&
          holdsAll s Ts e (GetComponentID T r).2) := by
      unfold holdsAll
      rw [valid, hH r]
      cases hb : (decide (s.entityMasks[e.val].length > (GetComponentID T r).1) &&
          s.entityMasks[e.val].getD (GetComponentID T r).1 false)
      · rfl
      · simp
    have hstep : ∀ r1, GetComponentID T r1 = ((GetComponentID T r).1, r1) →
        Ext Ts (GetComponentID T r).2 r1 →
        ∃ r2, valid s (T :: Ts) e r1 = .ok (holdsAll s (T :: Ts) e r, r2) ∧
          Ext (T :: Ts) r r2 := by
      intro r1 hid hext
      rw [hunf, valid, hH r1, hid]
      cases hb : (decide (s.entityMasks[e.val].length > (GetComponentID T r).1) &&
          s.entityMasks[e.val].getD (GetComponentID T r).1 false)
      · exact ⟨r1, rfl, Or.inr hext⟩
      · obtain ⟨r2, hv, hx⟩ := ih _ _ hext
        refine ⟨r2, ?_, Or.inr hx⟩
        simpa using hv
    rcases h with h | h
    · subst h
      rw [hunf, valid, hH r1]
      cases hb : (decide (s.entityMasks[e.val].length > (GetComponentID T r1).1) &&
          s.entityMasks[e.val].getD (GetComponentID T r1).1 false)
      · exact ⟨_, rfl, Or.inr (Ext.refl _ _)⟩
      · obtain ⟨r2, hv, hx⟩ := ih _ _ (Ext.refl Ts (GetComponentID T r1).2)
        refine ⟨r2, ?_, Or.inr hx⟩
        simpa using hv
    · exact hstep r1 (GetComponentID_of_lookup (h.lookup (lookup_after T r))) h

theorem qualFrom_end (s : SparseScene) (Ts : List ComponentType) (r : Registry) {k : Nat}
    (hk : s.entityMasks.length ≤ k) : qualFrom s Ts r k = [] := by
  unfold qualFrom
  rw [Nat.sub_eq_zero_of_le hk]
  rfl

theorem qualFrom_step (s : SparseScene) (Ts : List ComponentType) (r : Registry) {k : Nat}
    (hk : k < s.entityMasks.length) :
    qualFrom s Ts r k =
      if holdsAll s Ts (toEntity k) r then k :: qualFrom s Ts r (k + 1)
      else qualFrom s Ts r (k + 1) := by
  unfold qualFrom
  have : s.entityMasks.length - k = (s.entityMasks.length - (k + 1)) + 1 := by omega
  rw [this, List.range'_succ, List.filter_cons]

theorem toEntity_val (e : Entity) : toEntity e.val = e := by
  apply Fin.ext
  simp [toEntity, Nat.mod_eq_of_lt e.isLt]

theorem succ_val {e : Entity} (h : e.val + 1 < 256) : (e + 1).val = e.val + 1 := by
  rw [Fin.val_add]
  simp [Nat.mod_eq_of_lt h]

theorem valid_outside (s : SparseScene) {e : Entity} (he : s.entityMasks.length ≤ e.val)
    (Ts : List ComponentType) (r : Registry) :
    valid s Ts e r = .error .undefinedBehaviour ∨ valid s Ts e r = .ok (true, r) := by
  cases Ts with
  | nil => right; rfl
  | cons T Ts =>
    left
    rw [valid]
    unfold Scene.HasComponent
    rw [List.getElem?_eq_none he]

theorem advance_spec (s : SparseScene) (Ts : List ComponentType) (r : Registry)
    (hN : s.entityMasks.length ≤ 255) :
    ∀ (fuel : Nat) (e : Entity) (r1 : Registry), e.val < s.entityMasks.length →
      s.entityMasks.length - e.val ≤ fuel → Ext Ts r r1 →
      (∃ f, advance s Ts fuel e r1 = some (.error f) ∧ qualFrom s Ts r (e.val + 1) = []) ∨
      (∃ e1 r2, advance s Ts fuel e r1 = some (.ok (e1, r2)) ∧ Ext Ts r r2 ∧
        e.val < e1.val ∧ e1.val ≤ s.entityMasks.length ∧
        qualFrom s Ts r (e.val + 1) = qualFrom s Ts r e1.val ∧
        (e1.val < s.entityMasks.length → holdsAll s Ts e1 r = true)) := by
  intro fuel
  induction fuel with
  | zero => intro e r1 he hf; omega
  | succ fuel ih =>
    intro e r1 he hf hext
    have hsv : (e + 1).val = e.val + 1 := succ_val (by omega)
    by_cases hlast : e.val + 1 = s.entityMasks.length
    · rcases valid_outside s (show s.entityMasks.length ≤ (e + 1).val by omega) Ts r1 with hv | hv
      · left
        exact ⟨_, by rw [advance, hv], qualFrom_end s Ts r (by omega)⟩
      · right
        refine ⟨e + 1, r1, ?_, hext, by omega, by omega, by rw [hsv], fun h => by omega⟩
        rw [advance, hv]
        simp
    · have hlt : (e + 1).val < s.entityMasks.length := by omega
      obtain ⟨r2, hv, hx⟩ := valid_ext s hlt Ts r r1 hext
      have hadv : advance s Ts (fuel + 1) e r1 =
          if (!holdsAll s Ts (e + 1) r && decide ((e + 1).val < s.entityMasks.length)) = true
          then advance s Ts fuel (e + 1) r2 else some (.ok (e + 1, r2)) := by
        rw [advance, hv]
      have hstep := qualFrom_step s Ts r (show e.val + 1 < s.entityMasks.length by omega)
      rw [← hsv, toEntity_val] at hstep
      cases hq : holdsAll s Ts (e + 1) r
      · rw [hq] at hstep hadv
        simp only [Bool.false_eq_true, if_false] at hstep
        have hcont : (!false && decide ((e + 1).val < s.entityMasks.length)) = true := by
          simp [hlt]
        rw [if_pos hcont] at hadv
        rw [hadv]
        rcases ih (e + 1) r2 hlt (by omega) hx with ⟨f, ha, hqf⟩ | ⟨e1, r3, ha, hx3, h1, h2, h3, h4⟩
        · left
          refine ⟨f, ha, ?_⟩
          rw [← hsv, hstep, hqf]
        · right
          refine ⟨e1, r3, ha, hx3, by omega, h2, ?_, h4⟩
          rw [← hsv, hstep, h3]
      · right
        rw [hq] at hadv
        refine ⟨e + 1, r2, ?_, hx, by omega, by omega, by rw [hsv], fun _ => hq⟩
        rw [hadv]
        simp

theorem loop_spec (s : SparseScene) (Ts : List ComponentType) (r : Registry)
    (hN : s.entityMasks.length ≤ 255) :
    ∀ (fuel : Nat) (e : Entity) (r1 : Registry), e.val ≤ s.entityMasks.length →
      (e.val < s.entityMasks.length → holdsAll s Ts e r = true) →
      s.entityMasks.length - e.val + 1 ≤ fuel → Ext Ts r r1 →
      (loop s Ts fuel e r1).1 = qualFrom s Ts r e.val := by
  intro fuel
  induction fuel with
  | zero => intro e r1 he hq hf; omega
  | succ fuel ih =>
    intro e r1 he hq hf hext
    rw [loop]
    by_cases hend : s.entityMasks.length ≤ e.val
    · have : atEnd s e = true := by simp [atEnd, hend]
      rw [if_pos this, qualFrom_end s Ts r hend]
    · have hlt : e.val < s.entityMasks.length := by omega
      have : ¬ (atEnd s e = true) := by simp [atEnd, hlt]
      rw [if_neg this]
      have hstep := qualFrom_step s Ts r hlt
      rw [toEntity_val, hq hlt, if_pos rfl] at hstep
      rcases advance_spec s Ts r hN (fuel + 1) e r1 hlt (by omega) hext with
        ⟨f, ha, hqf⟩ | ⟨e1, r2, ha, hx, h1, h2, h3, h4⟩
      · rw [ha, hstep, hqf]
      · rw [ha, hstep, h3]
        dsimp only
        rw [ih e1 r2 h2 h4 (by omega) hx]

theorem traverse_spec (s : SparseScene) (Ts : List ComponentType) (r : Registry) (fuel : Nat)
    (hN : s.entityMasks.length ≤ 255) (hf : s.entityMasks.length < fuel) :
    (traverse s Ts fuel r).1 = qualFrom s Ts r 0 := by
  unfold traverse begin
  by_cases h0 : s.entityMasks.length = 0
  · rw [qualFrom_end s Ts r (by omega)]
    rcases valid_outside s (show s.entityMasks.length ≤ (0 : Entity).val by simp [h0]) Ts r with
      hv | hv
    · rw [hv]
    · rw [hv]
      dsimp only
      have := loop_spec s Ts r hN fuel 0 r (by simp) (by intro h; simp [h0] at h)
        (by simp; omega) (Ext.refl _ _)
      rw [this, qualFrom_end s Ts r (by simp [h0])]
  · have hlt : (0 : Entity).val < s.entityMasks.length := by
      show 0 < s.entityMasks.length
      omega
    obtain ⟨r2, hv, hx⟩ := valid_ext s hlt Ts r r (Ext.refl _ _)
    rw [hv]
    have hstep := qualFrom_step s Ts r (show 0 < s.entityMasks.length from hlt)
    have h00 : toEntity 0 = (0 : Entity) := rfl
    rw [h00] at hstep
    cases hq : holdsAll s Ts 0 r
    · rw [hq] at hstep
      simp only [Bool.false_eq_true, if_false] at hstep
      dsimp only
      rcases advance_spec s Ts r hN fuel 0 r2 hlt (by simp; omega) hx with
        ⟨f, ha, hqf⟩ | ⟨e1, r3, ha, hx3, h1, h2, h3, h4⟩
      · rw [ha, hstep]
        exact hqf.symm
      · rw [ha, hstep]
        dsimp only
        rw [loop_spec s Ts r hN fuel e1 r3 h2 h4 (by omega) hx3]
        exact h3.symm
    · dsimp only
      exact loop_spec s Ts r hN fuel 0 r2 (by simp) (fun _ => hq) (by simp; omega) hx

theorem qualFrom_zero (s : SparseScene) (Ts : List ComponentType) (r : Registry) :
    qualFrom s Ts r 0 =
      (List.range s.entityMasks.length).filter (fun n => holdsAll s Ts (toEntity n) r) := by
  unfold qualFrom
  rw [List.range_eq_range']
  rfl

end SceneView

/-! ## Registry call sequences -/

theorem records_start : exRegistry.Records [] := by
  refine ⟨rfl, List.nodup_nil, ?_⟩
  intro T
  simp [exRegistry]

theorem seenAfter_prefix (seen Ts : List ComponentType) :
    ∃ rest, seenAfter seen Ts = seen ++ rest := by
  induction Ts generalizing seen with
  | nil => exact ⟨[], by simp [seenAfter]⟩
  | cons T Ts ih =>
    rw [seenAfter]
    split
    · exact ih seen
    · obtain ⟨rest, h⟩ := ih (seen ++ [T])
      exact ⟨T :: rest, by rw [h]; simp⟩

theorem seenAfter_mem_of_mem {seen Ts : List ComponentType} {T : ComponentType}
    (h : T ∈ seen) : T ∈ seenAfter seen Ts := by
  obtain ⟨rest, hr⟩ := seenAfter_prefix seen Ts
  rw [hr]; exact List.mem_append_left _ h

theorem indexOf_seenAfter {seen Ts : List ComponentType} {T : ComponentType} (h : T ∈ seen) :
    (seenAfter seen Ts).indexOf T = seen.indexOf T := by
  obtain ⟨rest, hr⟩ := seenAfter_prefix seen Ts
  rw [hr]; exact List.indexOf_append_of_mem h

theorem Registry.Records.step {r : Registry} {seen : List ComponentType}
    (h : r.Records seen) (T : ComponentType) :
    (GetComponentID T r).1 = (if T ∈ seen then seen else seen ++ [T]).indexOf T ∧
      (GetComponentID T r).2.Records (if T ∈ seen then seen else seen ++ [T]) ∧
      (T ∈ seen → (GetComponentID T r).2 = r) ∧
      (T ∉ seen → (GetComponentID T r).1 = r.globalComponentCounter ∧
        (GetComponentID T r).2.globalComponentCounter = r.globalComponentCounter + 1) := by
  obtain ⟨hc, hnd, hl⟩ := h
  by_cases hT : T ∈ seen
  · have hlk := hl T
    rw [if_pos hT] at hlk
    rw [GetComponentID_of_lookup hlk, if_pos hT]
    exact ⟨rfl, ⟨hc, hnd, hl⟩, fun _ => rfl, fun h => absurd hT h⟩
  · have hlk := hl T
    rw [if_neg hT] at hlk
    have hg : GetComponentID T r = (r.globalComponentCounter,
        ⟨r.globalComponentCounter + 1, (T, r.globalComponentCounter) :: r.ids⟩) := by
      unfold GetComponentID; rw [hlk]
    rw [hg, if_neg hT]
    have hidx : (seen ++ [T]).indexOf T = seen.length := by
      rw [List.indexOf_append_of_not_mem hT]; simp
    refine ⟨by rw [hidx, hc], ⟨by simp [hc], ?_, ?_⟩, fun h => absurd h hT, fun _ => ⟨rfl, rfl⟩⟩
    · exact List.Nodup.append hnd (List.nodup_singleton T) (by simpa using hT)
    · intro U
      by_cases hU : U = T
      · subst hU
        simp [List.lookup, hidx, hc]
      · have hbeq : (U == T) = false := by simpa using hU
        simp only [List.lookup, hbeq]
        rw [hl U]
        by_cases hUs : U ∈ seen
        · rw [if_pos hUs, if_pos (List.mem_append_left _ hUs), List.indexOf_append_of_mem hUs]
        · rw [if_neg hUs, if_neg (by simp [hUs, hU])]

theorem callSequence_records {r : Registry} {seen : List ComponentType} (h : r.Records seen)
    (Ts : List ComponentType) :
    (callSequence Ts r).1 = Ts.map (fun T => (seenAfter seen Ts).indexOf T) ∧
      (callSequence Ts r).2.Records (seenAfter seen Ts) := by
  induction Ts generalizing r seen with
  | nil => exact ⟨rfl, h⟩
  | cons T Ts ih =>
    obtain ⟨h1, h2, -, -⟩ := h.step T
    obtain ⟨ih1, ih2⟩ := ih h2
    rw [callSequence, seenAfter]
    refine ⟨?_, ih2⟩
    dsimp only
    rw [List.map_cons, ih1, h1]
    congr 1
    have hmem : T ∈ (if T ∈ seen then seen else seen ++ [T]) := by
      split
      · assumption
      · simp
    exact (indexOf_seenAfter hmem).symm

/-! ## Dense allocation -/

theorem slots_length (T : ComponentType) (k : Nat) : (slots T k).length = k * T.sizeof := by
  unfold slots ComponentType.sizeof
  induction k with
  | zero => simp
  | succ k ih => rw [List.replicate_succ, List.flatten_cons, List.length_append, ih]; ring

theorem slots_succ (T : ComponentType) (k : Nat) : slots T (k + 1) = slots T k ++ T.init := by
  unfold slots
  rw [List.replicate_succ', List.flatten_append]
  simp

theorem slots_add (T : ComponentType) (i k : Nat) : slots T (i + k) = slots T i ++ slots T k := by
  induction k with
  | zero => simp [slots]
  | succ k ih => rw [← Nat.add_assoc, slots_succ, ih, slots_succ, List.append_assoc]

theorem writeAt_middle (pre mid post v : List Byte) (h : mid.length = v.length) :
    writeAt (pre ++ mid ++ post) pre.length v = .ok (pre ++ v ++ post) := by
  unfold writeAt
  rw [if_pos (by simp; omega)]
  congr 2
  · congr 1
    rw [List.append_assoc, List.take_left']
    rfl
  · rw [← h, List.append_assoc, ← List.length_append, ← List.append_assoc, List.drop_left']
    rfl

namespace ComponentStorage

theorem constructLoop_eq (T : ComponentType) (base : List Byte) (m : Nat) :
    ∀ (n i : Nat), constructLoop T base.length T.sizeof n i
        (base ++ slots T i ++ List.replicate (n * T.sizeof + m) (0 : Byte)) =
      .ok (base ++ slots T (i + n) ++ List.replicate m (0 : Byte)) := by
  intro n
  induction n with
  | zero => intro i; simp [constructLoop]
  | succ n ih =>
    intro i
    rw [constructLoop]
    have hsplit : List.replicate ((n + 1) * T.sizeof + m) (0 : Byte) =
        List.replicate T.sizeof 0 ++ List.replicate (n * T.sizeof + m) 0 := by
      rw [← List.replicate_add]; congr 1; ring
    have hlen : base.length + i * T.sizeof = (base ++ slots T i).length := by
      rw [List.length_append, slots_length]
    rw [hsplit, ← List.append_assoc, hlen,
      writeAt_middle (base ++ slots T i) _ _ T.init (by simp [ComponentType.sizeof])]
    dsimp only
    rw [List.append_assoc base, ← slots_succ, ih (i + 1)]
    have : i + 1 + n = i + (n + 1) := by omega
    rw [this]

theorem Allocate_slots {T : ComponentType} {st : ComponentStorage} {count : Nat}
    (hsz : st.elementSize = T.sizeof) (h1 : 1 ≤ count) (h2 : count < 100) :
    Allocate T count st = .ok (⟨T.sizeof, st.data ++ slots T count⟩,
      st.data.length + (count - 1) * T.sizeof,
      (st.data.length + count * T.sizeof) / T.sizeof) := by
  obtain ⟨c, rfl⟩ : ∃ c, count = c + 1 := ⟨count - 1, by omega⟩
  unfold Allocate
  rw [hsz]
  simp only [ne_eq, not_true_eq_false, if_false, h2, not_false_eq_true]
  have hsub : subSizeT (c + 1) 1 = c := by unfold subSizeT; simp
  have hzeros : st.data ++ List.replicate (T.sizeof * (c + 1)) (0 : Byte) =
      st.data ++ slots T 0 ++ List.replicate (c * T.sizeof + T.sizeof) (0 : Byte) := by
    simp only [slots, List.replicate_zero, List.flatten_nil, List.append_nil]
    congr 2; ring
  rw [hsub, hzeros, constructLoop_eq T st.data T.sizeof c 0]
  simp only [Nat.zero_add]
  have hlen : (st.data ++ slots T c ++ List.replicate T.sizeof (0 : Byte)).length =
      (st.data ++ slots T c).length + T.sizeof := by
    simp [Nat.add_assoc]
  have hsub2 : subSizeT (st.data ++ slots T c ++ List.replicate T.sizeof (0 : Byte)).length
      T.sizeof = (st.data ++ slots T c).length := by
    unfold subSizeT; rw [hlen]; simp
  have hw := writeAt_middle (st.data ++ slots T c) (List.replicate T.sizeof (0 : Byte)) []
    T.init (by simp [ComponentType.sizeof])
  rw [List.append_nil, List.append_nil] at hw
  rw [hsub2, hw]
  have hfin : st.data ++ slots T c ++ T.init = st.data ++ slots T (c + 1) := by
    rw [slots_succ, List.append_assoc]
  have hflen : (st.data ++ slots T (c + 1)).length = st.data.length + (c + 1) * T.sizeof := by
    rw [List.length_append, slots_length]
  simp only [hfin, hflen]
  have hsub3 : subSizeT (st.data.length + (c + 1) * T.sizeof) T.sizeof =
      st.data.length + (c + 1 - 1) * T.sizeof := by
    unfold subSizeT
    have : (c + 1) * T.sizeof = c * T.sizeof + T.sizeof := by ring
    rw [if_pos (by omega)]
    simp only [Nat.add_sub_cancel]
    omega
  rw [hsub3]


theorem slotCount_after {T : ComponentType} (L count : Nat) :
    (L + count * T.sizeof) / T.sizeof = L / T.sizeof + count := by
  rw [Nat.add_mul_div_right _ _ (sizeof_pos T)]

theorem GetOrAllocate_grow {T : ComponentType} {e : Entity} {st : ComponentStorage}
    (hsz : st.elementSize = T.sizeof) (hle : st.data.length / T.sizeof ≤ e.val)
    (hlim : e.val - st.data.length / T.sizeof + 1 < 100) :
    GetOrAllocate T e st =
      .ok (⟨T.sizeof, st.data ++ slots T (e.val - st.data.length / T.sizeof + 1)⟩,
        e.val * T.sizeof) := by
  unfold GetOrAllocate
  rw [if_neg (by simp [hsz])]
  dsimp only
  rw [hsz, if_pos hle, growCount_eq hle e.isLt, Allocate_slots hsz (by omega) hlim]
  dsimp only
  have hg : Get T e ⟨T.sizeof, st.data ++ slots T (e.val - st.data.length / T.sizeof + 1)⟩ =
      .ok (e.val * T.sizeof) := by
    unfold Get
    dsimp only
    rw [if_neg (by simp), List.length_append, slots_length, slotCount_after]
    rw [if_neg (by simp; omega)]
  rw [hg]

theorem GetOrAllocate_limit {T : ComponentType} {e : Entity} {st : ComponentStorage}
    (hsz : st.elementSize = T.sizeof) (hle : st.data.length / T.sizeof ≤ e.val)
    (hlim : 100 ≤ e.val - st.data.length / T.sizeof + 1) :
    GetOrAllocate T e st = .error .countLimit := by
  unfold GetOrAllocate
  rw [if_neg (by simp [hsz])]
  dsimp only
  rw [hsz, if_pos hle, growCount_eq hle e.isLt]
  unfold Allocate
  rw [if_neg (by simp [hsz]), if_pos (by omega)]

theorem readAt_slot (T : ComponentType) (data : List Byte) (k j : Nat) (hj : j < k) :
    readAt (data ++ slots T k) (data.length + j * T.sizeof) T.sizeof = .ok T.init := by
  obtain ⟨m, rfl⟩ : ∃ m, k = j + (m + 1) := ⟨k - j - 1, by omega⟩
  unfold readAt
  have hlen : (data ++ slots T (j + (m + 1))).length =
      data.length + j * T.sizeof + T.sizeof + m * T.sizeof := by
    rw [List.length_append, slots_length]; ring
  rw [if_pos (by omega)]
  have h1 : m + 1 = 1 + m := by omega
  have h2 : slots T 1 = T.init := by simp [slots]
  rw [slots_add, h1, slots_add, h2, ← List.append_assoc, ← List.append_assoc]
  have h3 : data.length + j * T.sizeof = (data ++ slots T j).length := by
    rw [List.length_append, slots_length]
  rw [h3, List.append_assoc (data ++ slots T j), List.drop_left', List.take_left']
  · rfl
  · rfl

end ComponentStorage

/-! ## When `AddComponent` returns -/

namespace Scene

variable {σ : Type}

theorem GetStorage_returns [Storage σ] {T : ComponentType} {r : Registry} {s : Scene σ}
    {st0 : σ}
    (hst0 : s.storages[(GetComponentID T r).1]? = some st0 ∨
      (s.storages.length = (GetComponentID T r).1 ∧ st0 = Storage.default)) :
    ∃ s1, GetStorage T r s = .ok ((GetComponentID T r).1, (GetComponentID T r).2, s1) ∧
      s1.entityMasks = s.entityMasks ∧
      s1.storages[(GetComponentID T r).1]? =
        some (if Storage.elementSize st0 = SIZE_MAX then Storage.ofType T else st0) := by
  have hlook : (if s.storages.length ≤ (GetComponentID T r).1 then
      s.storages ++ List.replicate
        (maxInt64One (subSizeT (GetComponentID T r).1 s.storages.length)) Storage.default
      else s.storages)[(GetComponentID T r).1]? = some st0 := by
    rcases hst0 with h | ⟨hlen, hdef⟩
    · have hlt := (List.getElem?_eq_some_iff.mp h).1
      rw [if_neg (by omega)]
      exact h
    · rw [if_pos (by omega), ← hlen, List.getElem?_append_right (Nat.le_refl _)]
      have hone : maxInt64One (subSizeT s.storages.length s.storages.length) = 1 := by
        unfold subSizeT maxInt64One
        simp
      rw [hone, hdef]
      simp
  unfold GetStorage
  dsimp only
  rw [hlook]
  dsimp only
  refine ⟨_, rfl, rfl, ?_⟩
  have hlt := (List.getElem?_eq_some_iff.mp hlook).1
  dsimp only
  split
  · rw [List.getElem?_set_self hlt]
  · exact hlook

theorem AddComponent_returns [Storage σ] {T : ComponentType} {e : Entity} {r : Registry}
    {s : Scene σ} {st0 st1 : σ} {off : Nat} (he : e.val < s.entityMasks.length)
    (hst0 : s.storages[(GetComponentID T r).1]? = some st0 ∨
      (s.storages.length = (GetComponentID T r).1 ∧ st0 = Storage.default))
    (hgoa : Storage.GetOrAllocate T e
      (if Storage.elementSize st0 = SIZE_MAX then Storage.ofType T else st0) = .ok (st1, off)) :
    ∃ s1, AddComponent T e r s =
      .ok (⟨(GetComponentID T r).1, off⟩, (GetComponentID T r).2, s1) := by
  have hst0' : (Scene.mk (s.entityMasks.set e.val
      (maskWith s.entityMasks[e.val] (GetComponentID T r).1)) s.storages).storages[
        (GetComponentID T (GetComponentID T r).2).1]? = some st0 ∨
      ((Scene.mk (s.entityMasks.set e.val
        (maskWith s.entityMasks[e.val] (GetComponentID T r).1)) s.storages).storages.length =
          (GetComponentID T (GetComponentID T r).2).1 ∧ st0 = Storage.default) := by
    rw [GetComponentID_again]; exact hst0
  obtain ⟨s2, hgs, -, hs2⟩ := GetStorage_returns hst0'
  rw [GetComponentID_again] at hgs hs2
  dsimp only at hgs hs2
  unfold AddComponent
  dsimp only
  rw [List.getElem?_eq_getElem he]
  dsimp only
  rw [hgs]
  dsimp only
  rw [hs2]
  dsimp only
  rw [hgoa]
  exact ⟨_, rfl⟩

theorem dense_AddComponent_returns {T : ComponentType} {e : Entity} {r : Registry}
    {s : Scene ComponentStorage} {st0 : ComponentStorage} (he : e.val < s.entityMasks.length)
    (hst0 : s.storages[(GetComponentID T r).1]? = some st0 ∨
      (s.storages.length = (GetComponentID T r).1 ∧ st0 = ComponentStorage.default))
    (hsz : (if st0.elementSize = SIZE_MAX then ComponentStorage.ofType T else st0).elementSize =
      T.sizeof)
    (hlim : e.val <
      (if st0.elementSize = SIZE_MAX then ComponentStorage.ofType T else st0).data.length /
        T.sizeof + 99) :
    ∃ s1, AddComponent T e r s =
      .ok (⟨(GetComponentID T r).1, e.val * T.sizeof⟩, (GetComponentID T r).2, s1) := by
  have hgoa : ∃ st1, ComponentStorage.GetOrAllocate T e
      (if st0.elementSize = SIZE_MAX then ComponentStorage.ofType T else st0) =
        .ok (st1, e.val * T.sizeof) := by
    by_cases hlt : e.val <
        (if st0.elementSize = SIZE_MAX then ComponentStorage.ofType T else st0).data.length /
          T.sizeof
    · exact ⟨_, (ComponentStorage.GetOrAllocate_of_lt hsz hlt).1⟩
    · exact ⟨_, ComponentStorage.GetOrAllocate_grow hsz (by omega) (by omega)⟩
  obtain ⟨st1, hgoa⟩ := hgoa
  exact AddComponent_returns he hst0 hgoa

theorem sparse_AddComponent_returns {T : ComponentType} {e : Entity} {r : Registry}
    {s : Scene SkiplistComponentStorage} {st0 : SkiplistComponentStorage}
    (he : e.val < s.entityMasks.length)
    (hst0 : s.storages[(GetComponentID T r).1]? = some st0 ∨
      (s.storages.length = (GetComponentID T r).1 ∧ st0 = SkiplistComponentStorage.default))
    (hsz : (if st0.elementSize = SIZE_MAX then SkiplistComponentStorage.ofType T
      else st0).elementSize = T.sizeof) :
    ∃ ref s1, AddComponent T e r s = .ok (ref, (GetComponentID T r).2, s1) := by
  have hgoa : ∃ st1 off, SkiplistComponentStorage.GetOrAllocate T e
      (if st0.elementSize = SIZE_MAX then SkiplistComponentStorage.ofType T else st0) =
        .ok (st1, off) := by
    by_cases hidx : ((if st0.elementSize = SIZE_MAX then SkiplistComponentStorage.ofType T
        else st0).indecies[e.val]?).getD SIZE_MAX = SIZE_MAX
    · exact ⟨_, _, SkiplistComponentStorage.GetOrAllocate_fresh hsz hidx⟩
    · cases hopt : (if st0.elementSize = SIZE_MAX then SkiplistComponentStorage.ofType T
          else st0).indecies[e.val]? with
      | none => rw [hopt] at hidx; exact absurd rfl hidx
      | some off0 =>
        rw [hopt] at hidx
        exact ⟨_, _, (SkiplistComponentStorage.GetOrAllocate_present hsz hopt hidx).1⟩
  obtain ⟨st1, off, hgoa⟩ := hgoa
  obtain ⟨s1, h⟩ := AddComponent_returns he hst0 hgoa
  exact ⟨_, s1, h⟩

set_option maxRecDepth 100000 in
/-- The expression `Storage(size_t{})` gives a storage of element size 0, so
`AddComponent<size_t>` on a scene that has no storage for it yet stops at the size
assertion of `GetOrAllocate`. -/
theorem AddComponent_size_t :
    (Storage.ofType exSizeT : ComponentStorage) = ⟨0, []⟩ ∧
    (Storage.ofType exSizeT : SkiplistComponentStorage) = ⟨0, [], []⟩ ∧
    AddComponent exSizeT 0 exRegistry (createN 1 Scene.new : Scene ComponentStorage) =
      .error .typeMismatch ∧
    AddComponent exSizeT 0 exRegistry (createN 1 Scene.new : Scene SkiplistComponentStorage) =
      .error .typeMismatch := by
  decide

end Scene

/-! # The claims -/

namespace Scene

variable {σ : Type}

/-- Claim C2: for every existing entity `e` and component type `T`, `AddComponent<T>(e)`
returns and a following `HasComponent<T>(e)` returns `true`, whether or not the bit was set
before. The call returns when the position of `T` in `storages` holds a storage sized for
`T`, holds an unset storage, or is the first position past the end (`st0` is what is found
there, `Storage()` past the end; an unset one is replaced by `Storage(T{})`), and, on dense
storage, `e` is fewer than 99 ordinals past the slot count. On any storage variant,
whenever the call returns, `HasComponent<T>(e)` returns `true` afterwards. -/
theorem AddComponent_HasComponent :
    (∀ (σ : Type) [Storage σ] (T : ComponentType) (e : Entity) (r r1 : Registry)
      (s s1 : Scene σ) (ref : Ref),
      AddComponent T e r s = .ok (ref, r1, s1) → HasComponent T e r1 s1 = .ok (true, r1)) ∧
    (∀ (T : ComponentType) (e : Entity) (r : Registry) (s : Scene ComponentStorage)
      (st0 : ComponentStorage),
      e.val < s.entityMasks.length →
      (s.storages[(GetComponentID T r).1]? = some st0 ∨
        (s.storages.length = (GetComponentID T r).1 ∧ st0 = ComponentStorage.default)) →
      (if st0.elementSize = SIZE_MAX then ComponentStorage.ofType T else st0).elementSize =
        T.sizeof →
      e.val <
        (if st0.elementSize = SIZE_MAX then ComponentStorage.ofType T else st0).data.length /
          T.sizeof + 99 →
      ∃ ref s1, AddComponent T e r s = .ok (ref, (GetComponentID T r).2, s1) ∧
        HasComponent T e (GetComponentID T r).2 s1 = .ok (true, (GetComponentID T r).2)) ∧
    (∀ (T : ComponentType) (e : Entity) (r : Registry) (s : Scene SkiplistComponentStorage)
      (st0 : SkiplistComponentStorage),
      e.val < s.entityMasks.length →
      (s.storages[(GetComponentID T r).1]? = some st0 ∨
        (s.storages.length = (GetComponentID T r).1 ∧
          st0 = SkiplistComponentStorage.default)) →
      (if st0.elementSize = SIZE_MAX then SkiplistComponentStorage.ofType T
        else st0).elementSize = T.sizeof →
      ∃ ref s1, AddComponent T e r s = .ok (ref, (GetComponentID T r).2, s1) ∧
        HasComponent T e (GetComponentID T r).2 s1 = .ok (true, (GetComponentID T r).2)) := by
  have key : ∀ (σ : Type) [Storage σ] (T : ComponentType) (e : Entity) (r r1 : Registry)
      (s s1 : Scene σ) (ref : Ref),
      AddComponent T e r s = .ok (ref, r1, s1) → HasComponent T e r1 s1 = .ok (true, r1) := by
    intro σ _ T e r r1 s s1 ref h
    obtain ⟨hr1, -, eMask, hmask, hmasks, -⟩ := AddComponent_ok h
    have hlt : e.val < s.entityMasks.length := (List.getElem?_eq_some_iff.mp hmask).1
    have hm1 : s1.entityMasks[e.val]? = some (maskWith eMask (GetComponentID T r).1) := by
      rw [hmasks, List.getElem?_set_self hlt]
    rw [HasComponent_of_mask hm1, hr1, GetComponentID_again]
    have h1 := maskWith_length_gt eMask (GetComponentID T r).1
    have h2 := maskWith_getElem? eMask (GetComponentID T r).1
    simp [h1, h2]
  refine ⟨key, ?_, ?_⟩
  · intro T e r s st0 he hst0 hsz hlim
    obtain ⟨s1, h⟩ := dense_AddComponent_returns he hst0 hsz hlim
    exact ⟨_, s1, h, key _ T e r _ s s1 _ h⟩
  · intro T e r s st0 he hst0 hsz
    obtain ⟨ref, s1, h⟩ := sparse_AddComponent_returns he hst0 hsz
    exact ⟨ref, s1, h, key _ T e r _ s s1 _ h⟩

set_option maxRecDepth 100000 in
/-- Witness for C2: three fresh entities, none with a component. `HasComponent<exPosition>(2)`
is `false`; `AddComponent<exPosition>(2)` returns and `HasComponent` is `true`, on dense and
on sparse storage. -/
theorem AddComponent_HasComponent_witness :
    (HasComponent exPosition 2 exRegistry (createN 3 Scene.new : Scene ComponentStorage) =
        .ok (false, exRegistry1) ∧
      ∃ ref s1, AddComponent exPosition 2 exRegistry
          (createN 3 Scene.new : Scene ComponentStorage) =
            .ok (ref, (GetComponentID exPosition exRegistry).2, s1) ∧
        HasComponent exPosition 2 (GetComponentID exPosition exRegistry).2 s1 =
          .ok (true, (GetComponentID exPosition exRegistry).2)) ∧
    (HasComponent exPosition 2 exRegistry
        (createN 3 Scene.new : Scene SkiplistComponentStorage) = .ok (false, exRegistry1) ∧
      ∃ ref s1, AddComponent exPosition 2 exRegistry
          (createN 3 Scene.new : Scene SkiplistComponentStorage) =
            .ok (ref, (GetComponentID exPosition exRegistry).2, s1) ∧
        HasComponent exPosition 2 (GetComponentID exPosition exRegistry).2 s1 =
          .ok (true, (GetComponentID exPosition exRegistry).2)) ∧
    HasComponent exPosition 2 exRegistry1 exDense = .ok (true, exRegistry1) :=
  ⟨⟨by decide, AddComponent_HasComponent.2.1 exPosition 2 exRegistry (createN 3 Scene.new)
      ComponentStorage.default (by decide) (Or.inl (by decide)) (by decide) (by decide)⟩,
    ⟨by decide, AddComponent_HasComponent.2.2 exPosition 2 exRegistry (createN 3 Scene.new)
      SkiplistComponentStorage.default (by decide) (Or.inl (by decide)) (by decide)⟩,
    AddComponent_HasComponent.1 ComponentStorage exPosition 2 exRegistry exRegistry1
      (createN 3 Scene.new) exDense ⟨0, 8⟩ (by decide)⟩

/-- Claim C3: for every existing entity `e`, component type `T` and value `v` of `sizeof(T)`
bytes, `AddComponent<T>(e)` returns a reference, the write of `v` through it is inside the
buffer, and `GetComponent<T>(e)` then succeeds without changing registry or scene, returns
the very same reference, and reading it gives `v`. The call returns under the conditions of
C2: the position of `T` in `storages` holds a storage sized for `T`, an unset storage, or is
the first position past the end, and on dense storage `e` is fewer than 99 ordinals past the
slot count. For dense storage this holds in every scene; for sparse storage in every scene
whose sized storages satisfy the representation invariant `SparseWellFormed`, which the
empty scene has and every scene operation keeps (`sparseWellFormed_new`,
`sparseWellFormed_AddComponent` and the lemmas next to them). The first two parts say the
same of any call that returned. -/
theorem AddComponent_write_GetComponent :
    (∀ (T : ComponentType) (e : Entity) (r r1 : Registry) (s s1 : Scene ComponentStorage)
      (ref : Ref) (v : List Byte),
      AddComponent T e r s = .ok (ref, r1, s1) → v.length = T.sizeof →
      ∃ s2, store s1 ref v = .ok s2 ∧ GetComponent T e r1 s2 = .ok (ref, r1, s2) ∧
        load s2 ref T.sizeof = .ok v) ∧
    (∀ (T : ComponentType) (e : Entity) (r r1 : Registry)
      (s s1 : Scene SkiplistComponentStorage) (ref : Ref) (v : List Byte),
      s.SparseWellFormed →
      AddComponent T e r s = .ok (ref, r1, s1) → v.length = T.sizeof →
      ∃ s2, store s1 ref v = .ok s2 ∧ GetComponent T e r1 s2 = .ok (ref, r1, s2) ∧
        load s2 ref T.sizeof = .ok v) ∧
    (∀ (T : ComponentType) (e : Entity) (r : Registry) (s : Scene ComponentStorage)
      (st0 : ComponentStorage) (v : List Byte),
      e.val < s.entityMasks.length →
      (s.storages[(GetComponentID T r).1]? = some st0 ∨
        (s.storages.length = (GetComponentID T r).1 ∧ st0 = ComponentStorage.default)) →
      (if st0.elementSize = SIZE_MAX then ComponentStorage.ofType T else st0).elementSize =
        T.sizeof →
      e.val <
        (if st0.elementSize = SIZE_MAX then ComponentStorage.ofType T else st0).data.length /
          T.sizeof + 99 →
      v.length = T.sizeof →
      ∃ ref s1 s2, AddComponent T e r s = .ok (ref, (GetComponentID T r).2, s1) ∧
        store s1 ref v = .ok s2 ∧
        GetComponent T e (GetComponentID T r).2 s2 = .ok (ref, (GetComponentID T r).2, s2) ∧
        load s2 ref T.sizeof = .ok v) ∧
    (∀ (T : ComponentType) (e : Entity) (r : Registry) (s : Scene SkiplistComponentStorage)
      (st0 : SkiplistComponentStorage) (v : List Byte),
      s.SparseWellFormed →
      e.val < s.entityMasks.length →
      (s.storages[(GetComponentID T r).1]? = some st0 ∨
        (s.storages.length = (GetComponentID T r).1 ∧
          st0 = SkiplistComponentStorage.default)) →
      (if st0.elementSize = SIZE_MAX then SkiplistComponentStorage.ofType T
        else st0).elementSize = T.sizeof →
      v.length = T.sizeof →
      ∃ ref s1 s2, AddComponent T e r s = .ok (ref, (GetComponentID T r).2, s1) ∧
        store s1 ref v = .ok s2 ∧
        GetComponent T e (GetComponentID T r).2 s2 = .ok (ref, (GetComponentID T r).2, s2) ∧
        load s2 ref T.sizeof = .ok v) := by
  refine ⟨?_, ?_, ?_, ?_⟩
  · intro T e r r1 s s1 ref v hadd hv
    obtain ⟨-, s2, h1, h2, h3, -⟩ := dense_after_add hadd hv
    exact ⟨s2, h1, h2, h3⟩
  · intro T e r r1 s s1 ref v hwf hadd hv
    obtain ⟨s2, h1, h2, h3, -⟩ := sparse_after_add hwf hadd hv
    exact ⟨s2, h1, h2, h3⟩
  · intro T e r s st0 v he hst0 hsz hlim hv
    obtain ⟨s1, hadd⟩ := dense_AddComponent_returns he hst0 hsz hlim
    obtain ⟨-, s2, h1, h2, h3, -⟩ := dense_after_add hadd hv
    exact ⟨_, s1, s2, hadd, h1, h2, h3⟩
  · intro T e r s st0 v hwf he hst0 hsz hv
    obtain ⟨ref, s1, hadd⟩ := sparse_AddComponent_returns he hst0 hsz
    obtain ⟨s2, h1, h2, h3, -⟩ := sparse_after_add hwf hadd hv
    exact ⟨ref, s1, s2, hadd, h1, h2, h3⟩

set_option maxRecDepth 100000 in
/-- Witness for C3: three fresh entities, none with a component, so `GetComponent` for
entity 2 stops at the missing-component assertion. `AddComponent<exPosition>(2)` returns, and
the value `[5, 6, 7, 8]` written to its slot is what `GetComponent` reads, on dense and on
sparse storage. -/
theorem AddComponent_write_GetComponent_witness :
    (GetComponent exPosition 2 exRegistry (createN 3 Scene.new : Scene ComponentStorage) =
        .error .missingComponent ∧
      ∃ ref s1 s2, AddComponent exPosition 2 exRegistry
          (createN 3 Scene.new : Scene ComponentStorage) =
            .ok (ref, (GetComponentID exPosition exRegistry).2, s1) ∧
        store s1 ref [5, 6, 7, 8] = .ok s2 ∧
        GetComponent exPosition 2 (GetComponentID exPosition exRegistry).2 s2 =
          .ok (ref, (GetComponentID exPosition exRegistry).2, s2) ∧
        load s2 ref exPosition.sizeof = .ok [5, 6, 7, 8]) ∧
    (GetComponent exPosition 2 exRegistry
        (createN 3 Scene.new : Scene SkiplistComponentStorage) = .error .missingComponent ∧
      ∃ ref s1 s2, AddComponent exPosition 2 exRegistry
          (createN 3 Scene.new : Scene SkiplistComponentStorage) =
            .ok (ref, (GetComponentID exPosition exRegistry).2, s1) ∧
        store s1 ref [5, 6, 7, 8] = .ok s2 ∧
        GetComponent exPosition 2 (GetComponentID exPosition exRegistry).2 s2 =
          .ok (ref, (GetComponentID exPosition exRegistry).2, s2) ∧
        load s2 ref exPosition.sizeof = .ok [5, 6, 7, 8]) ∧
    (∃ s2, store exDense ⟨0, 8⟩ [5, 6, 7, 8] = .ok s2 ∧
      GetComponent exPosition 2 exRegistry1 s2 = .ok (⟨0, 8⟩, exRegistry1, s2) ∧
      load s2 ⟨0, 8⟩ exPosition.sizeof = .ok [5, 6, 7, 8]) ∧
    (∃ s2, store exScenario1 ⟨0, 4⟩ [5, 6, 7, 8] = .ok s2 ∧
      GetComponent exPosition 2 exRegistry1 s2 = .ok (⟨0, 4⟩, exRegistry1, s2) ∧
      load s2 ⟨0, 4⟩ exPosition.sizeof = .ok [5, 6, 7, 8]) :=
  ⟨⟨by decide, AddComponent_write_GetComponent.2.2.1 exPosition 2 exRegistry
      (createN 3 Scene.new) ComponentStorage.default [5, 6, 7, 8] (by decide)
      (Or.inl (by decide)) (by decide) (by decide) (by decide)⟩,
    ⟨by decide, AddComponent_write_GetComponent.2.2.2 exPosition 2 exRegistry
      (createN 3 Scene.new) SkiplistComponentStorage.default [5, 6, 7, 8] (by decide)
      (by decide) (Or.inl (by decide)) (by decide) (by decide)⟩,
    AddComponent_write_GetComponent.1 exPosition 2 exRegistry exRegistry1 (createN 3 Scene.new)
      exDense ⟨0, 8⟩ [5, 6, 7, 8] (by decide) (by decide),
    AddComponent_write_GetComponent.2.1 exPosition 2 exRegistry1 exRegistry1
      ⟨[[true], [false], [false]], [⟨4, [0], [1, 2, 3, 4]⟩]⟩ exScenario1 ⟨0, 4⟩ [5, 6, 7, 8]
      (by decide) (by decide) (by decide)⟩

/-- Claim C4: for every existing entity `e` and every component type `T`, whatever the
mask of `e` (bit set or not, long enough for the id of `T` or not), `RemoveComponent<T>(e)`
returns and a following `HasComponent<T>(e)` returns `false`. -/
theorem RemoveComponent_HasComponent (T : ComponentType) (e : Entity) (r : Registry)
    (s : Scene σ) (he : e.val < s.entityMasks.length) :
    ∃ r1 s1, RemoveComponent T e r s = .ok (r1, s1) ∧
      HasComponent T e r1 s1 = .ok (false, r1) := by
  have hmask : s.entityMasks[e.val]? = some s.entityMasks[e.val] := List.getElem?_eq_getElem he
  obtain ⟨s1, hrm, -, hmasks⟩ := RemoveComponent_ok (T := T) (r := r) hmask
  refine ⟨_, s1, hrm, ?_⟩
  by_cases hlen : s.entityMasks[e.val].length > (GetComponentID T r).1
  · have hm1 : s1.entityMasks[e.val]? =
        some (s.entityMasks[e.val].set (GetComponentID T r).1 false) := by
      rw [hmasks, if_pos hlen, List.getElem?_set_self he]
    rw [HasComponent_of_mask hm1, GetComponentID_again]
    simp [hlen]
  · have hm1 : s1.entityMasks[e.val]? = some s.entityMasks[e.val] := by
      rw [hmasks, if_neg hlen]; exact hmask
    rw [HasComponent_of_mask hm1, GetComponentID_again]
    simp [hlen]

/-- Witness for C4: removing `exPosition` (held) from entity 2 and `exVelocity` (never held,
id beyond the mask) from entity 1 of `exDense`. -/
theorem RemoveComponent_HasComponent_witness :
    (∃ r1 s1, RemoveComponent exPosition 2 exRegistry1 exDense = .ok (r1, s1) ∧
      HasComponent exPosition 2 r1 s1 = .ok (false, r1)) ∧
    (∃ r1 s1, RemoveComponent exVelocity 1 exRegistry1 exDense = .ok (r1, s1) ∧
      HasComponent exVelocity 1 r1 s1 = .ok (false, r1)) :=
  ⟨RemoveComponent_HasComponent exPosition 2 exRegistry1 exDense (by decide),
    RemoveComponent_HasComponent exVelocity 1 exRegistry1 exDense (by decide)⟩

/-- Claim C5: in a scene with fewer than 256 entities, the entity returned by
`CreateEntity()` holds no component: `HasComponent<T>` is `false` for every component type
`T`, whether the registry already knows `T` or not. -/
theorem CreateEntity_HasComponent (s : Scene σ) (T : ComponentType) (r : Registry)
    (hn : s.entityMasks.length < 256) :
    HasComponent T (CreateEntity s).1 r (CreateEntity s).2 =
      .ok (false, (GetComponentID T r).2) := by
  have hm : (CreateEntity s).2.entityMasks[(CreateEntity s).1.val]? = some [false] := by
    simp [CreateEntity, toEntity, Nat.mod_eq_of_lt hn]
  rw [HasComponent_of_mask hm]
  cases h : (GetComponentID T r).1 <;> simp

/-- Witness for C5: a fourth entity created in `exDense`, queried for a registered and for
an unregistered type. -/
theorem CreateEntity_HasComponent_witness :
    HasComponent exPosition (CreateEntity exDense).1 exRegistry1 (CreateEntity exDense).2 =
      .ok (false, (GetComponentID exPosition exRegistry1).2) ∧
    HasComponent exVelocity (CreateEntity exDense).1 exRegistry1 (CreateEntity exDense).2 =
      .ok (false, (GetComponentID exVelocity exRegistry1).2) :=
  ⟨CreateEntity_HasComponent exDense exPosition exRegistry1 (by decide),
    CreateEntity_HasComponent exDense exVelocity exRegistry1 (by decide)⟩

set_option maxRecDepth 100000 in
/-- Claim C6, counterexample: on sparse storage, one entity, `exPosition` added, the value
`[5, 6, 7, 8]` written, the component removed and added again. The second `AddComponent`
returns the old reference (offset 0), the data blob still holds one slot, and the component
read back is `[5, 6, 7, 8]`, not the default value `[1, 2, 3, 4]`. -/
theorem sparse_readd_counterexample :
    AddComponent exPosition 0 exRegistry (createN 1 (Scene.new : Scene SkiplistComponentStorage)) =
      .ok (⟨0, 0⟩, exRegistry1, ⟨[[true]], [⟨4, [0], [1, 2, 3, 4]⟩]⟩) ∧
    store (⟨[[true]], [⟨4, [0], [1, 2, 3, 4]⟩]⟩ : Scene SkiplistComponentStorage) ⟨0, 0⟩
      [5, 6, 7, 8] = .ok ⟨[[true]], [⟨4, [0], [5, 6, 7, 8]⟩]⟩ ∧
    RemoveComponent exPosition 0 exRegistry1
      (⟨[[true]], [⟨4, [0], [5, 6, 7, 8]⟩]⟩ : Scene SkiplistComponentStorage) =
      .ok (exRegistry1, ⟨[[false]], [⟨4, [0], [5, 6, 7, 8]⟩]⟩) ∧
    AddComponent exPosition 0 exRegistry1
      (⟨[[false]], [⟨4, [0], [5, 6, 7, 8]⟩]⟩ : Scene SkiplistComponentStorage) =
      .ok (⟨0, 0⟩, exRegistry1, ⟨[[true]], [⟨4, [0], [5, 6, 7, 8]⟩]⟩) ∧
    load (⟨[[true]], [⟨4, [0], [5, 6, 7, 8]⟩]⟩ : Scene SkiplistComponentStorage) ⟨0, 0⟩
      exPosition.sizeof = .ok [5, 6, 7, 8] ∧
    exPosition.init ≠ [5, 6, 7, 8] := by
  decide

/-- Claim C6, as amended: on sparse storage (a scene satisfying `SparseWellFormed`), after
`AddComponent<T>(e)`, writing `v` to the slot, `RemoveComponent<T>(e)` and
`AddComponent<T>(e)` again, the second `AddComponent` returns the same reference as the
first, leaves every storage as it was (the data blob does not grow, the index of `e` is kept)
and the component still holds `v`. -/
theorem sparse_readd_keeps_value (T : ComponentType) (e : Entity) (r r1 : Registry)
    (s s1 : Scene SkiplistComponentStorage) (ref : Ref) (v : List Byte)
    (hwf : s.SparseWellFormed) (hadd : AddComponent T e r s = .ok (ref, r1, s1))
    (hv : v.length = T.sizeof) :
    ∃ s2 s3 s4, store s1 ref v = .ok s2 ∧ RemoveComponent T e r1 s2 = .ok (r1, s3) ∧
      AddComponent T e r1 s3 = .ok (ref, r1, s4) ∧ s4.storages = s3.storages ∧
      load s4 ref T.sizeof = .ok v := by
  obtain ⟨s2, h1, -, -, s3, h2, s4, h3, h4, h5⟩ := sparse_after_add hwf hadd hv
  exact ⟨s2, s3, s4, h1, h2, h3, h5, h4⟩

set_option maxRecDepth 100000 in
/-- Witness for C6 as amended: `exPosition` on entity 2 of `exScenario1`, value
`[5, 6, 7, 8]`. -/
theorem sparse_readd_keeps_value_witness :
    ∃ s2 s3 s4, store exScenario1 ⟨0, 4⟩ [5, 6, 7, 8] = .ok s2 ∧
      RemoveComponent exPosition 2 exRegistry1 s2 = .ok (exRegistry1, s3) ∧
      AddComponent exPosition 2 exRegistry1 s3 = .ok (⟨0, 4⟩, exRegistry1, s4) ∧
      s4.storages = s3.storages ∧ load s4 ⟨0, 4⟩ exPosition.sizeof = .ok [5, 6, 7, 8] :=
  sparse_readd_keeps_value exPosition 2 exRegistry1 exRegistry1
    ⟨[[true], [false], [false]], [⟨4, [0], [1, 2, 3, 4]⟩]⟩ exScenario1 ⟨0, 4⟩ [5, 6, 7, 8]
    (by decide) (by decide) (by decide)

/-- Claim C7: on dense storage, after `AddComponent<T>(e)`, writing `v` to the slot,
`RemoveComponent<T>(e)` and `AddComponent<T>(e)` again, the second `AddComponent` returns
the same reference, at byte offset `e * sizeof(T)`, the component still holds `v`, and the
re-add leaves every storage unchanged, so the slot count is what it was. -/
theorem dense_readd_keeps_value (T : ComponentType) (e : Entity) (r r1 : Registry)
    (s s1 : Scene ComponentStorage) (ref : Ref) (v : List Byte)
    (hadd : AddComponent T e r s = .ok (ref, r1, s1)) (hv : v.length = T.sizeof) :
    ref.offset = e.val * T.sizeof ∧
    ∃ s2 s3 s4, store s1 ref v = .ok s2 ∧ RemoveComponent T e r1 s2 = .ok (r1, s3) ∧
      AddComponent T e r1 s3 = .ok (ref, r1, s4) ∧ load s4 ref T.sizeof = .ok v ∧
      s4.storages = s3.storages ∧
      ∀ st3 st4, s3.storages[ref.storage]? = some st3 → s4.storages[ref.storage]? = some st4 →
        st4.data.length / st4.elementSize = st3.data.length / st3.elementSize := by
  obtain ⟨hoff, s2, h1, -, -, s3, h2, s4, h3, h4, h5⟩ := dense_after_add hadd hv
  refine ⟨hoff, s2, s3, s4, h1, h2, h3, h4, h5, ?_⟩
  intro st3 st4 hst3 hst4
  rw [h5, hst3] at hst4
  cases hst4
  rfl

set_option maxRecDepth 100000 in
/-- Witness for C7: `exPosition` on entity 2 of three entities, value `[5, 6, 7, 8]`. -/
theorem dense_readd_keeps_value_witness :
    (⟨0, 8⟩ : Ref).offset = (2 : Entity).val * exPosition.sizeof ∧
    ∃ s2 s3 s4, store exDense ⟨0, 8⟩ [5, 6, 7, 8] = .ok s2 ∧
      RemoveComponent exPosition 2 exRegistry1 s2 = .ok (exRegistry1, s3) ∧
      AddComponent exPosition 2 exRegistry1 s3 = .ok (⟨0, 8⟩, exRegistry1, s4) ∧
      load s4 ⟨0, 8⟩ exPosition.sizeof = .ok [5, 6, 7, 8] ∧
      s4.storages = s3.storages ∧
      ∀ st3 st4, s3.storages[(⟨0, 8⟩ : Ref).storage]? = some st3 →
        s4.storages[(⟨0, 8⟩ : Ref).storage]? = some st4 →
        st4.data.length / st4.elementSize = st3.data.length / st3.elementSize :=
  dense_readd_keeps_value exPosition 2 exRegistry exRegistry1 (createN 3 Scene.new) exDense
    ⟨0, 8⟩ [5, 6, 7, 8] (by decide) (by decide)

/-- Claim C8, counterexample: in a scene without entities, `HasComponent<T>(0)` indexes
`entityMasks` past its end; so does `HasComponent<T>(3)` in a scene with three entities. -/
theorem HasComponent_counterexample :
    HasComponent exPosition 0 exRegistry (Scene.new : Scene ComponentStorage) =
      .error .undefinedBehaviour ∧
    HasComponent exPosition 3 exRegistry1 exDense = .error .undefinedBehaviour := by
  decide

/-- Claim C8, as amended: for every existing entity `e` (ordinal below the entity count)
and every component type `T`, `HasComponent<T>(e)` returns; the result is `true` exactly
when the mask of `e` has position `id(T)` and holds `true` there, so it is `false` whenever
the id lies beyond the mask, whatever the storages collection looks like. -/
theorem HasComponent_total_of_lt (T : ComponentType) (e : Entity) (r : Registry) (s : Scene σ)
    (he : e.val < s.entityMasks.length) :
    ∃ eMask, s.entityMasks[e.val]? = some eMask ∧
      HasComponent T e r s =
        .ok (decide (eMask[(GetComponentID T r).1]? = some true), (GetComponentID T r).2) ∧
      (eMask.length ≤ (GetComponentID T r).1 →
        HasComponent T e r s = .ok (false, (GetComponentID T r).2)) := by
  have hmask : s.entityMasks[e.val]? = some s.entityMasks[e.val] := List.getElem?_eq_getElem he
  refine ⟨_, hmask, ?_, ?_⟩
  · rw [HasComponent_of_mask hmask]
    by_cases hlen : (GetComponentID T r).1 < s.entityMasks[e.val].length
    · simp [hlen, List.getElem?_eq_getElem hlen]
    · simp [hlen, List.getElem?_eq_none (Nat.le_of_not_lt hlen)]
  · intro hle
    rw [HasComponent_of_mask hmask]
    simp [Nat.not_lt.mpr hle]

/-- Witness for C8 as amended: entity 1 of `exDense`, whose one-bit mask does not reach the
id of `exVelocity`. -/
theorem HasComponent_total_of_lt_witness :
    ∃ eMask, exDense.entityMasks[(1 : Entity).val]? = some eMask ∧
      HasComponent exVelocity 1 exRegistry1 exDense =
        .ok (decide (eMask[(GetComponentID exVelocity exRegistry1).1]? = some true),
          (GetComponentID exVelocity exRegistry1).2) ∧
      (eMask.length ≤ (GetComponentID exVelocity exRegistry1).1 →
        HasComponent exVelocity 1 exRegistry1 exDense =
          .ok (false, (GetComponentID exVelocity exRegistry1).2)) :=
  HasComponent_total_of_lt exVelocity 1 exRegistry1 exDense (by decide)

set_option maxRecDepth 100000 in
/-- Claim C9, the failing input: two entities on dense storage, `exPosition` (id 0) added
to entity 0, then `exVelocity` (id 1) queried on entity 1, whose mask is `[false]`.
`HasComponent` answers `false`, but `GetComponent` evaluates `entityMasks[1][1]` on a
one-element mask: an out-of-range index inside the assertion, not the assertion failing. -/
theorem GetComponent_short_mask :
    AddComponent exPosition 0 exRegistry (createN 2 (Scene.new : Scene ComponentStorage)) =
      .ok (⟨0, 0⟩, exRegistry1, ⟨[[true], [false]], [⟨4, [1, 2, 3, 4]⟩]⟩) ∧
    HasComponent exVelocity 1 exRegistry1
      (⟨[[true], [false]], [⟨4, [1, 2, 3, 4]⟩]⟩ : Scene ComponentStorage) =
      .ok (false, exRegistry2) ∧
    GetComponent exVelocity 1 exRegistry1
      (⟨[[true], [false]], [⟨4, [1, 2, 3, 4]⟩]⟩ : Scene ComponentStorage) =
      .error .undefinedBehaviour ∧
    GetComponent exPosition 1 exRegistry1
      (⟨[[true], [false]], [⟨4, [1, 2, 3, 4]⟩]⟩ : Scene ComponentStorage) =
      .error .missingComponent := by
  decide

/-- Claim C10: in a scene with `n < 256` entities, `CreateEntity()` returns the ordinal `n`,
leaves `n + 1` entities, gives the new entity a mask in which no bit is set, and changes
neither the mask of an existing entity nor the storages. -/
theorem CreateEntity_spec (s : Scene σ) (hn : s.entityMasks.length < 256) :
    (CreateEntity s).1.val = s.entityMasks.length ∧
    (CreateEntity s).2.entityMasks.length = s.entityMasks.length + 1 ∧
    (∃ eMask, (CreateEntity s).2.entityMasks[s.entityMasks.length]? = some eMask ∧
      ∀ b ∈ eMask, b = false) ∧
    (∀ i, i < s.entityMasks.length → (CreateEntity s).2.entityMasks[i]? = s.entityMasks[i]?) ∧
    (CreateEntity s).2.storages = s.storages := by
  refine ⟨?_, ?_, ⟨[false], ?_, ?_⟩, ?_, rfl⟩
  · simp [CreateEntity, toEntity, Nat.mod_eq_of_lt hn]
  · simp [CreateEntity]
  · simp [CreateEntity]
  · simp
  · intro i hi
    simp [CreateEntity, List.getElem?_append_left hi]

/-- Witness for C10: a fourth entity created in `exDense`. -/
theorem CreateEntity_spec_witness :
    (CreateEntity exDense).1.val = exDense.entityMasks.length ∧
    (CreateEntity exDense).2.entityMasks.length = exDense.entityMasks.length + 1 ∧
    (∃ eMask, (CreateEntity exDense).2.entityMasks[exDense.entityMasks.length]? = some eMask ∧
      ∀ b ∈ eMask, b = false) ∧
    (∀ i, i < exDense.entityMasks.length →
      (CreateEntity exDense).2.entityMasks[i]? = exDense.entityMasks[i]?) ∧
    (CreateEntity exDense).2.storages = exDense.storages :=
  CreateEntity_spec exDense (by decide)

end Scene

namespace SceneView

set_option maxRecDepth 1000000 in
/-- Claim C1, counterexample: a scene of 256 entities built through the scene operations,
`exPosition` on entity 0 only. `begin()` rests on entity 0, which is not the end sentinel,
and advancing from entity 0 wraps the 8-bit ordinal and comes to rest on entity 0 again:
entity 0 is visited more than once and the sentinel is never reached. In Scenario 1 (last
conjunct) the loop body runs at 0 and 2, and the advance from entity 2 then evaluates
`valid()` at ordinal 3 before it compares 3 with the entity count, so the loop ends in an
out-of-range index and not at the sentinel. -/
theorem traverse_counterexample :
    Scene.AddComponent exPosition 0 exRegistry (createN 256 Scene.new) =
      .ok (⟨0, 0⟩, exRegistry1, exCrowded) ∧
    begin exCrowded [exPosition] 300 exRegistry1 = some (.ok (0, exRegistry1)) ∧
    atEnd exCrowded 0 = false ∧
    advance exCrowded [exPosition] 300 0 exRegistry1 = some (.ok (0, exRegistry1)) ∧
    traverse exScenario1 [exPosition] 4 exRegistry1 =
      ([0, 2], some (.error .undefinedBehaviour)) := by
  decide

/-- Claim C1, as amended: for every sparse scene with at most 255 entities and every list of
component types, the ordinals at which the body of a loop over `SceneView<Ts...>` runs,
from `begin()` on, are exactly the entities `e` with
`HasComponent<T1>(e) && ... && HasComponent<Tn>(e)`, each once, in strictly ascending order.
How the advance past the last entity ends is not part of the statement. -/
theorem traverse_visits (s : SparseScene) (Ts : List ComponentType) (r : Registry) (fuel : Nat)
    (hN : s.entityMasks.length ≤ 255) (hf : s.entityMasks.length < fuel) :
    (traverse s Ts fuel r).1 =
      (List.range s.entityMasks.length).filter (fun n => holdsAll s Ts (toEntity n) r) ∧
    List.Pairwise (fun a b => a < b) (traverse s Ts fuel r).1 := by
  have h := traverse_spec s Ts r fuel hN hf
  rw [qualFrom_zero] at h
  refine ⟨h, ?_⟩
  rw [h]
  exact List.Pairwise.filter _ (List.pairwise_lt_range _)

/-- Witness for C1 as amended: Scenario 1, where the loop body runs at entities 0 and 2. -/
theorem traverse_visits_witness :
    (traverse exScenario1 [exPosition] 4 exRegistry1).1 =
      (List.range exScenario1.entityMasks.length).filter
        (fun n => holdsAll exScenario1 [exPosition] (toEntity n) exRegistry1) ∧
    List.Pairwise (fun a b => a < b) (traverse exScenario1 [exPosition] 4 exRegistry1).1 :=
  traverse_visits exScenario1 [exPosition] exRegistry1 4 (by decide) (by decide)

end SceneView

/-! ## Claims C11 to C20 -/

theorem createdOrdinals_val {σ : Type} (k : Nat) (s : Scene σ) :
    (createdOrdinals k s).map (fun e => e.val) =
      (List.range' s.entityMasks.length k).map (fun n => n % 256) := by
  induction k generalizing s with
  | zero => rfl
  | succ k ih =>
    rw [createdOrdinals, List.map_cons, ih, List.range'_succ, List.map_cons]
    simp [Scene.CreateEntity, toEntity]

set_option maxRecDepth 1000000 in
/-- Claim C11, counterexample: 257 calls of `CreateEntity` on a fresh scene. The first call
returns ordinal 0 and so does the 257th; no call faults. -/
theorem createdOrdinals_counterexample :
    (createdOrdinals 257 (Scene.new : Scene ComponentStorage))[0]? = some 0 ∧
    (createdOrdinals 257 (Scene.new : Scene ComponentStorage))[256]? = some 0 := by
  decide

/-- Claim C11, as amended: entity creation is monotonic while the 8-bit handle range
lasts. For every sequence of `k` calls of `CreateEntity` on a scene holding `n` entities
with `n + k ≤ 256`, the returned ordinals are `n, n + 1, ..., n + k - 1`, each strictly
greater than every ordinal returned before it. `CreateEntity` never faults; in any scene
the ordinal it returns is the entity count modulo 256, so from 256 entities on ordinals
are handed out again. -/
theorem createdOrdinals_increasing {σ : Type} (k : Nat) (s : Scene σ)
    (h : s.entityMasks.length + k ≤ 256) :
    (createdOrdinals k s).map (fun e => e.val) = List.range' s.entityMasks.length k ∧
    List.Pairwise (fun a b => a < b) (createdOrdinals k s) ∧
    ∀ s1 : Scene σ, (Scene.CreateEntity s1).1.val = s1.entityMasks.length % 256 := by
  have hval : (createdOrdinals k s).map (fun e => e.val) = List.range' s.entityMasks.length k := by
    rw [createdOrdinals_val]
    conv_rhs => rw [← List.map_id (List.range' s.entityMasks.length k)]
    apply List.map_congr_left
    intro n hn
    rw [List.mem_range'_1] at hn
    exact Nat.mod_eq_of_lt (by omega)
  refine ⟨hval, ?_, fun s1 => rfl⟩
  have hp : List.Pairwise (fun a b => a < b) ((createdOrdinals k s).map (fun e => e.val)) := by
    rw [hval]; exact List.pairwise_lt_range' _ _
  rw [List.pairwise_map] at hp
  exact hp

/-- Witness for C11 as amended: three calls on a scene that already holds three entities
return 3, 4, 5. -/
theorem createdOrdinals_increasing_witness :
    (createdOrdinals 3 exDense).map (fun e => e.val) = List.range' exDense.entityMasks.length 3 ∧
    List.Pairwise (fun a b => a < b) (createdOrdinals 3 exDense) ∧
    ∀ s1 : Scene ComponentStorage,
      (Scene.CreateEntity s1).1.val = s1.entityMasks.length % 256 :=
  createdOrdinals_increasing 3 exDense (by decide)

theorem mem_seenAfter {seen Ts : List ComponentType} {T : ComponentType} :
    T ∈ seenAfter seen Ts ↔ T ∈ seen ∨ T ∈ Ts := by
  induction Ts generalizing seen with
  | nil => simp [seenAfter]
  | cons U Ts ih =>
    rw [seenAfter, ih]
    by_cases hU : U ∈ seen
    · rw [if_pos hU]
      constructor
      · rintro (h | h)
        · exact Or.inl h
        · exact Or.inr (List.mem_cons_of_mem _ h)
      · rintro (h | h)
        · exact Or.inl h
        · rcases List.mem_cons.mp h with h | h
          · subst h; exact Or.inl hU
          · exact Or.inr h
    · rw [if_neg hU]
      simp only [List.mem_append, List.mem_singleton, List.mem_cons]
      tauto

theorem mem_firstSeen {Ts : List ComponentType} {T : ComponentType} :
    T ∈ firstSeen Ts ↔ T ∈ Ts := by
  unfold firstSeen
  rw [mem_seenAfter]
  simp

/-- Claim C12: for every sequence `Ts` of `GetComponentID` calls starting from counter 0,
with `firstSeen Ts` the distinct types in the order of their first call: every call for a
type returns the position of that type in `firstSeen Ts` (the `k`-th distinct type gets
`k - 1`, on its first call and on every later one), and the counter ends as the number of
distinct types. A further call for a type not yet seen returns the counter and advances it
by exactly one; a further call for a type already seen returns its id and leaves the
registry, counter included, unchanged. -/
theorem GetComponentID_sequential (Ts : List ComponentType) :
    (callSequence Ts ⟨0, []⟩).1 = Ts.map (fun T => (firstSeen Ts).indexOf T) ∧
    (callSequence Ts ⟨0, []⟩).2.globalComponentCounter = (firstSeen Ts).length ∧
    (firstSeen Ts).Nodup ∧
    (∀ T, T ∉ Ts →
      (GetComponentID T (callSequence Ts ⟨0, []⟩).2).1 = (firstSeen Ts).length ∧
      (GetComponentID T (callSequence Ts ⟨0, []⟩).2).2.globalComponentCounter =
        (callSequence Ts ⟨0, []⟩).2.globalComponentCounter + 1) ∧
    (∀ T, T ∈ Ts →
      GetComponentID T (callSequence Ts ⟨0, []⟩).2 =
        ((firstSeen Ts).indexOf T, (callSequence Ts ⟨0, []⟩).2)) := by
  obtain ⟨h1, h2⟩ := callSequence_records
    (show (⟨0, []⟩ : Registry).Records [] from records_start) Ts
  refine ⟨h1, h2.1, h2.2.1, ?_, ?_⟩
  · intro T hT
    have hT' : T ∉ seenAfter [] Ts := fun h => hT (mem_firstSeen.mp h)
    obtain ⟨-, -, -, h4⟩ := h2.step T
    obtain ⟨h5, h6⟩ := h4 hT'
    exact ⟨by rw [h5]; exact h2.1, h6⟩
  · intro T hT
    have hT' : T ∈ seenAfter [] Ts := mem_firstSeen.mpr hT
    obtain ⟨h3, -, h4, -⟩ := h2.step T
    rw [if_pos hT'] at h3
    exact Prod.ext h3 (h4 hT')

/-- Witness for C12: the calls `exPosition, exVelocity, exPosition, exEight` return
0, 1, 0, 2 and leave the counter at 3. -/
theorem GetComponentID_sequential_witness :
    (callSequence [exPosition, exVelocity, exPosition, exEight] ⟨0, []⟩).1 = [0, 1, 0, 2] ∧
    (callSequence [exPosition, exVelocity, exPosition, exEight] ⟨0, []⟩).2.globalComponentCounter
      = 3 ∧
    GetComponentID exVelocity (callSequence [exPosition, exVelocity, exPosition, exEight] ⟨0, []⟩).2
      = (1, (callSequence [exPosition, exVelocity, exPosition, exEight] ⟨0, []⟩).2) := by
  have h := GetComponentID_sequential [exPosition, exVelocity, exPosition, exEight]
  refine ⟨?_, ?_, ?_⟩
  · rw [h.1]; decide
  · rw [h.2.1]; decide
  · rw [h.2.2.2.2 exVelocity (by decide)]; decide

/-- Claim C13: in every registry state reached from counter 0 by a sequence of
`GetComponentID` calls, two distinct component types never have the same id: the ids
recorded for them differ, the ids returned by calls for them (first calls or repeats)
differ, and `GetStorage` returns different positions of the storages collection for
them. -/
theorem GetComponentID_injective (Ts : List ComponentType) (T U : ComponentType) (hne : T ≠ U) :
    (∀ i j, (callSequence Ts ⟨0, []⟩).2.ids.lookup T = some i →
      (callSequence Ts ⟨0, []⟩).2.ids.lookup U = some j → i ≠ j) ∧
    (GetComponentID T (callSequence Ts ⟨0, []⟩).2).1 ≠
      (GetComponentID U (GetComponentID T (callSequence Ts ⟨0, []⟩).2).2).1 ∧
    (∀ (σ : Type) [Storage σ] (s s1 s2 : Scene σ) (i j : Nat) (r1 r2 : Registry),
      Scene.GetStorage T (callSequence Ts ⟨0, []⟩).2 s = .ok (i, r1, s1) →
      Scene.GetStorage U r1 s1 = .ok (j, r2, s2) → i ≠ j) := by
  obtain ⟨-, hrec⟩ := callSequence_records
    (show (⟨0, []⟩ : Registry).Records [] from records_start) Ts
  have key : ∀ (r : Registry) (seen : List ComponentType), r.Records seen →
      (GetComponentID T r).1 ≠ (GetComponentID U (GetComponentID T r).2).1 := by
    intro r seen hr
    obtain ⟨hT1, hT2, -, -⟩ := hr.step T
    obtain ⟨hU1, -, -, -⟩ := hT2.step U
    rw [hT1, hU1]
    have hTmem : T ∈ (if T ∈ seen then seen else seen ++ [T]) := by
      split
      · assumption
      · simp
    by_cases hU : U ∈ (if T ∈ seen then seen else seen ++ [T])
    · rw [if_pos hU]
      exact fun h => hne ((List.indexOf_inj hTmem hU).mp h)
    · rw [if_neg hU, List.indexOf_append_of_not_mem hU]
      have := List.indexOf_lt_length.mpr hTmem
      simp
      omega
  refine ⟨?_, key _ _ hrec, ?_⟩
  · intro i j hi hj hij
    subst hij
    have hk := key _ _ hrec
    rw [GetComponentID_of_lookup hi] at hk
    dsimp only at hk
    rw [GetComponentID_of_lookup hj] at hk
    exact hk rfl
  · intro σ _ s s1 s2 i j r1 r2 h1 h2
    obtain ⟨hi, hr1, -⟩ := Scene.GetStorage_ok h1
    obtain ⟨hj, -, -⟩ := Scene.GetStorage_ok h2
    rw [hi, hj, hr1]
    exact key _ _ hrec

set_option maxRecDepth 100000 in
/-- Witness for C13: `exPosition` and `exVelocity` after the calls
`exPosition, exVelocity, exPosition`. -/
theorem GetComponentID_injective_witness :
    (∀ i j, (callSequence [exPosition, exVelocity, exPosition] ⟨0, []⟩).2.ids.lookup exPosition
        = some i →
      (callSequence [exPosition, exVelocity, exPosition] ⟨0, []⟩).2.ids.lookup exVelocity
        = some j → i ≠ j) ∧
    (GetComponentID exPosition (callSequence [exPosition, exVelocity, exPosition] ⟨0, []⟩).2).1 ≠
      (GetComponentID exVelocity (GetComponentID exPosition
        (callSequence [exPosition, exVelocity, exPosition] ⟨0, []⟩).2).2).1 ∧
    (∀ (σ : Type) [Storage σ] (s s1 s2 : Scene σ) (i j : Nat) (r1 r2 : Registry),
      Scene.GetStorage exPosition (callSequence [exPosition, exVelocity, exPosition] ⟨0, []⟩).2 s
        = .ok (i, r1, s1) →
      Scene.GetStorage exVelocity r1 s1 = .ok (j, r2, s2) → i ≠ j) :=
  GetComponentID_injective [exPosition, exVelocity, exPosition] exPosition exVelocity (by decide)

namespace ComponentStorage

/-- Claim C14, counterexample: on an empty dense storage sized for an eight-byte type,
`GetOrAllocate(99)` asks `Allocate` for 100 slots and fails its assertion `count < 100`. -/
theorem dense_GetOrAllocate_counterexample :
    GetOrAllocate exEight 99 (ofType exEight) = .error .countLimit := by
  decide

/-- Claim C14, as amended: for every dense storage with element size `s = sizeof(T)` holding
`n` slots and every entity ordinal `e` (0..255) with `e < n` or `e + 1 - n < 100`,
`GetOrAllocate<T>(e)` succeeds and returns the slot at byte offset `e * s`; afterwards the
slot count is `max n (e + 1)`, the data is the old data followed by `e + 1 - n` new slots
(none when `e < n`), every new slot, those below `e` included, holds the default value of
`T`, and the bytes of the `n` old slots are unchanged. -/
theorem dense_GetOrAllocate_spec (T : ComponentType) (e : Entity) (st : ComponentStorage) (n : Nat)
    (hsz : st.elementSize = T.sizeof) (hn : st.data.length = n * T.sizeof)
    (hlim : e.val < n ∨ e.val + 1 - n < 100) :
    ∃ st1, GetOrAllocate T e st = .ok (st1, e.val * T.sizeof) ∧
      st1.elementSize = T.sizeof ∧
      st1.data.length / T.sizeof = max n (e.val + 1) ∧
      st1.data = st.data ++ slots T (e.val + 1 - n) ∧
      st1.data.take (n * T.sizeof) = st.data ∧
      ∀ j, n ≤ j → j ≤ e.val → readAt st1.data (j * T.sizeof) T.sizeof = .ok T.init := by
  have hdiv : st.data.length / T.sizeof = n := by
    rw [hn]; exact Nat.mul_div_cancel _ (sizeof_pos T)
  by_cases hlt : e.val < n
  · refine ⟨st, (GetOrAllocate_of_lt hsz (by rw [hdiv]; exact hlt)).1, hsz, ?_, ?_, ?_, ?_⟩
    · rw [hdiv]; omega
    · have : e.val + 1 - n = 0 := by omega
      rw [this]; simp [slots]
    · rw [← hn]; exact List.take_length _
    · intro j h1 h2; omega
  · have hle : st.data.length / T.sizeof ≤ e.val := by rw [hdiv]; omega
    have hcount : e.val - st.data.length / T.sizeof + 1 = e.val + 1 - n := by rw [hdiv]; omega
    have hlim' : e.val - st.data.length / T.sizeof + 1 < 100 := by
      rw [hcount]; rcases hlim with h | h
      · exact absurd h hlt
      · exact h
    refine ⟨_, GetOrAllocate_grow hsz hle hlim', rfl, ?_, ?_, ?_, ?_⟩
    · show (st.data ++ slots T _).length / T.sizeof = _
      rw [List.length_append, slots_length, slotCount_after, hcount, hdiv]
      omega
    · show st.data ++ slots T _ = _
      rw [hcount]
    · show (st.data ++ slots T _).take _ = _
      rw [← hn, List.take_left']
      rfl
    · intro j h1 h2
      show readAt (st.data ++ slots T _) _ _ = _
      obtain ⟨i, rfl⟩ : ∃ i, j = n + i := ⟨j - n, by omega⟩
      have : (n + i) * T.sizeof = st.data.length + i * T.sizeof := by rw [hn]; ring
      rw [this]
      exact readAt_slot T st.data _ i (by omega)

set_option maxRecDepth 100000 in
/-- Witness for C14 as amended: element size 8, empty storage, `GetOrAllocate(5)` leaves
six slots and addresses byte offset 40. -/
theorem dense_GetOrAllocate_spec_witness :
    (5 : Entity).val * exEight.sizeof = 40 ∧
    ∃ st1, GetOrAllocate exEight 5 (ofType exEight) = .ok (st1, (5 : Entity).val * exEight.sizeof) ∧
      st1.elementSize = exEight.sizeof ∧
      st1.data.length / exEight.sizeof = max 0 ((5 : Entity).val + 1) ∧
      st1.data = (ofType exEight).data ++ slots exEight ((5 : Entity).val + 1 - 0) ∧
      st1.data.take (0 * exEight.sizeof) = (ofType exEight).data ∧
      ∀ j, 0 ≤ j → j ≤ (5 : Entity).val →
        readAt st1.data (j * exEight.sizeof) exEight.sizeof = .ok exEight.init :=
  ⟨by decide, dense_GetOrAllocate_spec exEight 5 (ofType exEight) 0 (by decide) (by decide) (by decide)⟩

/-- Claim C15, dense and sparse: if a first `GetOrAllocate<T>(e)` succeeds, an immediately
following `GetOrAllocate<T>(e)` returns the same byte offset and leaves the storage as the
first call left it. For dense storage this holds for every storage; for sparse storage for
every storage satisfying the representation invariant `WellFormed`. -/
theorem GetOrAllocate_idempotent :
    (∀ (T : ComponentType) (e : Entity) (st st1 : ComponentStorage) (off : Nat),
      GetOrAllocate T e st = .ok (st1, off) → GetOrAllocate T e st1 = .ok (st1, off)) ∧
    (∀ (T : ComponentType) (e : Entity) (st st1 : SkiplistComponentStorage) (off : Nat),
      st.WellFormed → SkiplistComponentStorage.GetOrAllocate T e st = .ok (st1, off) →
      SkiplistComponentStorage.GetOrAllocate T e st1 = .ok (st1, off)) := by
  constructor
  · intro T e st st1 off h
    obtain ⟨hes, hlt, hoff⟩ := GetOrAllocate_ok h
    rw [hoff]
    exact (GetOrAllocate_of_lt hes hlt).1
  · intro T e st st1 off hwf h
    obtain ⟨hes, hidx, hne, -⟩ := SkiplistComponentStorage.GetOrAllocate_wf hwf h
    exact (SkiplistComponentStorage.GetOrAllocate_present hes hidx hne).1

set_option maxRecDepth 100000 in
/-- Witness for C15: entity 5 on an empty dense storage for an eight-byte type, and entity 3
on an empty sparse storage for `exPosition`. -/
theorem GetOrAllocate_idempotent_witness :
    GetOrAllocate exEight 5 ⟨8, slots exEight 6⟩ = .ok (⟨8, slots exEight 6⟩, 40) ∧
    SkiplistComponentStorage.GetOrAllocate exPosition 3
      ⟨4, [SIZE_MAX, SIZE_MAX, SIZE_MAX, 0], [1, 2, 3, 4]⟩ =
      .ok (⟨4, [SIZE_MAX, SIZE_MAX, SIZE_MAX, 0], [1, 2, 3, 4]⟩, 0) :=
  ⟨GetOrAllocate_idempotent.1 exEight 5 (ofType exEight) ⟨8, slots exEight 6⟩ 40 (by decide),
    GetOrAllocate_idempotent.2 exPosition 3 (SkiplistComponentStorage.ofType exPosition)
      ⟨4, [SIZE_MAX, SIZE_MAX, SIZE_MAX, 0], [1, 2, 3, 4]⟩ 0 (by decide) (by decide)⟩

/-- Claim C16: for every dense storage with element size `s = sizeof(T)` holding `n` slots
and every `count` with `1 ≤ count < 100`, `Allocate<T>(count)` appends exactly `count`
default-constructed slots (the data grows by `count * s` bytes behind the unchanged old
bytes), returns a reference to the last new slot, ordinal `n + count - 1`, and returns
`n + count`, the new slot count, as its second result. -/
theorem dense_Allocate_spec (T : ComponentType) (count : Nat) (st : ComponentStorage) (n : Nat)
    (hsz : st.elementSize = T.sizeof) (hn : st.data.length = n * T.sizeof)
    (h1 : 1 ≤ count) (h2 : count < 100) :
    Allocate T count st =
      .ok (⟨T.sizeof, st.data ++ slots T count⟩, (n + count - 1) * T.sizeof, n + count) ∧
    (st.data ++ slots T count).length = st.data.length + count * T.sizeof ∧
    ∀ j, j < count → readAt (st.data ++ slots T count) ((n + j) * T.sizeof) T.sizeof =
      .ok T.init := by
  refine ⟨?_, ?_, ?_⟩
  · rw [Allocate_slots hsz h1 h2, slotCount_after, hn, Nat.mul_div_cancel _ (sizeof_pos T)]
    congr 3
    obtain ⟨c, rfl⟩ : ∃ c, count = c + 1 := ⟨count - 1, by omega⟩
    have : n + (c + 1) - 1 = n + c := by omega
    rw [this]
    simp only [Nat.add_sub_cancel]
    ring
  · rw [List.length_append, slots_length]
  · intro j hj
    have : (n + j) * T.sizeof = st.data.length + j * T.sizeof := by rw [hn]; ring
    rw [this]
    exact readAt_slot T st.data count j hj

set_option maxRecDepth 100000 in
/-- Witness for C16: three slots appended to a dense storage that holds one slot of
`exPosition`. -/
theorem dense_Allocate_spec_witness :
    Allocate exPosition 3 ⟨4, [5, 6, 7, 8]⟩ =
      .ok (⟨exPosition.sizeof, [5, 6, 7, 8] ++ slots exPosition 3⟩,
        (1 + 3 - 1) * exPosition.sizeof, 1 + 3) ∧
    (([5, 6, 7, 8] : List Byte) ++ slots exPosition 3).length =
      ([5, 6, 7, 8] : List Byte).length + 3 * exPosition.sizeof ∧
    ∀ j, j < 3 → readAt ([5, 6, 7, 8] ++ slots exPosition 3) ((1 + j) * exPosition.sizeof)
      exPosition.sizeof = .ok exPosition.init :=
  dense_Allocate_spec exPosition 3 ⟨4, [5, 6, 7, 8]⟩ 1 (by decide) (by decide) (by decide) (by decide)

/-- Claim C17: for every dense storage with element size `s` and data length `L`, and
every entity `e`, `Get<T>(e)` faults if and only if `sizeof(T) ≠ s` or `e ≥ L / s`; when
it does not fault it returns the slot at byte offset `e * s`, which lies wholly inside the
buffer. `Get` only computes the offset: the storage is not modified. -/
theorem Get_spec (T : ComponentType) (e : Entity) (st : ComponentStorage) :
    ((∃ f, Get T e st = .error f) ↔
      (T.sizeof ≠ st.elementSize ∨ st.data.length / st.elementSize ≤ e.val)) ∧
    (∀ off, Get T e st = .ok off →
      off = e.val * st.elementSize ∧ off + st.elementSize ≤ st.data.length) := by
  unfold Get
  by_cases hsz : T.sizeof = st.elementSize
  · rw [if_neg (not_not.mpr hsz)]
    by_cases hlt : e.val < st.data.length / st.elementSize
    · rw [if_neg (not_not.mpr hlt)]
      refine ⟨⟨fun ⟨f, hf⟩ => (by cases hf), ?_⟩, ?_⟩
      · rintro (h | h)
        · exact absurd hsz h
        · omega
      · intro off hoff
        cases hoff
        refine ⟨rfl, ?_⟩
        have hb : e.val < st.data.length / T.sizeof := by rw [hsz]; exact hlt
        have := slot_in_bounds hb
        rw [hsz] at this
        exact this
    · rw [if_pos hlt]
      refine ⟨⟨fun _ => Or.inr (by omega), fun _ => ⟨_, rfl⟩⟩, ?_⟩
      intro off hoff
      cases hoff
  · rw [if_pos hsz]
    refine ⟨⟨fun _ => Or.inl hsz, fun _ => ⟨_, rfl⟩⟩, ?_⟩
    intro off hoff
    cases hoff

/-- Witness for C17: in a dense storage holding three slots of `exPosition`, entity 2 is
read at offset 8 and entity 3 is out of range. -/
theorem Get_spec_witness :
    (8 = (2 : Entity).val * (⟨4, slots exPosition 3⟩ : ComponentStorage).elementSize ∧
      8 + (⟨4, slots exPosition 3⟩ : ComponentStorage).elementSize ≤
        (⟨4, slots exPosition 3⟩ : ComponentStorage).data.length) ∧
    ∃ f, Get exPosition 3 ⟨4, slots exPosition 3⟩ = .error f :=
  ⟨(Get_spec exPosition 2 ⟨4, slots exPosition 3⟩).2 8 (by decide),
    (Get_spec exPosition 3 ⟨4, slots exPosition 3⟩).1.mpr (Or.inr (by decide))⟩

end ComponentStorage

namespace SkiplistComponentStorage

theorem grown_getElem?_ne (indecies : List Nat) {e j : Nat} (hj : j ≠ e) :
    (grown indecies e)[j]? =
      if j < indecies.length then indecies[j]? else if j < e then some SIZE_MAX else none := by
  unfold grown
  by_cases hlen : indecies.length ≤ e
  · rw [if_pos hlen]
    by_cases hjl : j < indecies.length
    · rw [if_pos hjl, List.getElem?_append_left hjl]
    · rw [if_neg hjl, List.getElem?_append_right (by omega)]
      by_cases hje : j < e
      · rw [if_pos hje, List.getElem?_replicate, if_pos (by omega)]
      · rw [if_neg hje, List.getElem?_replicate, if_neg (by omega)]
  · rw [if_neg hlen]
    by_cases hjl : j < indecies.length
    · rw [if_pos hjl]
    · rw [if_neg hjl, if_neg (by omega), List.getElem?_eq_none (by omega)]

theorem grown_length_eq (indecies : List Nat) (e : Nat) :
    (grown indecies e).length = max indecies.length (e + 1) := by
  unfold grown
  split
  · rw [List.length_append, List.length_replicate]; omega
  · omega

/-- Claim C18: for every sparse storage with element size `sizeof(T)` satisfying the
representation invariant and every entity `e`, `GetOrAllocate<T>(e)` succeeds and leaves
`indices` with length `max (old length) (e + 1)`; every entry other than `e`'s is the old
entry where there was one and the sentinel where the table grew. If `indices[e]` was absent
or the sentinel, exactly one default-constructed slot is appended to `data` and
`indices[e]` becomes its byte offset, which is returned; otherwise the storage is unchanged
and the existing offset is returned. Old bytes of `data` are never changed. -/
theorem sparse_GetOrAllocate_spec (T : ComponentType) (e : Entity) (st : SkiplistComponentStorage)
    (hsz : st.elementSize = T.sizeof) (hwf : st.WellFormed) :
    ∃ st1 off, GetOrAllocate T e st = .ok (st1, off) ∧
      st1.elementSize = st.elementSize ∧
      st1.indecies.length = max st.indecies.length (e.val + 1) ∧
      st1.indecies[e.val]? = some off ∧
      (∀ j, j ≠ e.val → st1.indecies[j]? =
        if j < st.indecies.length then st.indecies[j]?
        else if j < e.val then some SIZE_MAX else none) ∧
      ((st.indecies[e.val]?).getD SIZE_MAX = SIZE_MAX →
        st1.data = st.data ++ T.init ∧ off = st.data.length) ∧
      ((st.indecies[e.val]?).getD SIZE_MAX ≠ SIZE_MAX →
        st1 = st ∧ st.indecies[e.val]? = some off) ∧
      st1.data.take st.data.length = st.data := by
  obtain ⟨hal, -, -⟩ := hwf
  rw [hsz] at hal
  by_cases hidx : (st.indecies[e.val]?).getD SIZE_MAX = SIZE_MAX
  · refine ⟨_, _, GetOrAllocate_fresh hsz hidx, hsz.symm, ?_, ?_, ?_, fun _ => ⟨rfl, rfl⟩,
      fun h => absurd hidx h, ?_⟩
    · show ((grown st.indecies e.val).set _ _).length = _
      rw [List.length_set, grown_length_eq]
    · show ((grown st.indecies e.val).set _ _)[e.val]? = _
      rw [List.getElem?_set_self (grown_length _ _), slotIndex_mul (sizeof_pos T) hal]
    · intro j hj
      show ((grown st.indecies e.val).set _ _)[j]? = _
      rw [List.getElem?_set_ne (Ne.symm hj), grown_getElem?_ne _ hj]
    · show (st.data ++ T.init).take _ = _
      rw [List.take_left']
      rfl
  · cases hopt : st.indecies[e.val]? with
    | none => rw [hopt] at hidx; exact absurd rfl hidx
    | some off0 =>
      rw [hopt] at hidx
      have hne : off0 ≠ SIZE_MAX := hidx
      have hlt := (List.getElem?_eq_some_iff.mp hopt).1
      refine ⟨st, off0, (GetOrAllocate_present hsz hopt hne).1, rfl, by omega, hopt, ?_,
        fun h => absurd h (by simpa using hne), fun _ => ⟨rfl, rfl⟩, List.take_length _⟩
      intro j hj
      by_cases hjl : j < st.indecies.length
      · rw [if_pos hjl]
      · rw [if_neg hjl, if_neg (by omega), List.getElem?_eq_none (by omega)]

set_option maxRecDepth 100000 in
/-- Witness for C18: entity 3 on a sparse storage for `exPosition` in which only entity 0
has a slot. -/
theorem sparse_GetOrAllocate_spec_witness :
    ∃ st1 off, GetOrAllocate exPosition 3 ⟨4, [0], [5, 6, 7, 8]⟩ = .ok (st1, off) ∧
      st1.elementSize = (⟨4, [0], [5, 6, 7, 8]⟩ : SkiplistComponentStorage).elementSize ∧
      st1.indecies.length = max (⟨4, [0], [5, 6, 7, 8]⟩ : SkiplistComponentStorage).indecies.length
        ((3 : Entity).val + 1) ∧
      st1.indecies[(3 : Entity).val]? = some off ∧
      (∀ j, j ≠ (3 : Entity).val → st1.indecies[j]? =
        if j < (⟨4, [0], [5, 6, 7, 8]⟩ : SkiplistComponentStorage).indecies.length
        then (⟨4, [0], [5, 6, 7, 8]⟩ : SkiplistComponentStorage).indecies[j]?
        else if j < (3 : Entity).val then some SIZE_MAX else none) ∧
      (((⟨4, [0], [5, 6, 7, 8]⟩ : SkiplistComponentStorage).indecies[(3 : Entity).val]?).getD
          SIZE_MAX = SIZE_MAX →
        st1.data = (⟨4, [0], [5, 6, 7, 8]⟩ : SkiplistComponentStorage).data ++ exPosition.init ∧
        off = (⟨4, [0], [5, 6, 7, 8]⟩ : SkiplistComponentStorage).data.length) ∧
      (((⟨4, [0], [5, 6, 7, 8]⟩ : SkiplistComponentStorage).indecies[(3 : Entity).val]?).getD
          SIZE_MAX ≠ SIZE_MAX →
        st1 = ⟨4, [0], [5, 6, 7, 8]⟩ ∧
        (⟨4, [0], [5, 6, 7, 8]⟩ : SkiplistComponentStorage).indecies[(3 : Entity).val]? =
          some off) ∧
      st1.data.take (⟨4, [0], [5, 6, 7, 8]⟩ : SkiplistComponentStorage).data.length =
        (⟨4, [0], [5, 6, 7, 8]⟩ : SkiplistComponentStorage).data :=
  sparse_GetOrAllocate_spec exPosition 3 ⟨4, [0], [5, 6, 7, 8]⟩ (by decide) (by decide)

set_option maxRecDepth 100000 in
/-- Claim C19, counterexample: a sparse storage freshly constructed for `exPosition` has
an empty `indices` table, and `Allocate(3)` stores into `indices[3]`, which it neither grows
nor checks: growing the table is the work of its caller `GetOrAllocate`. Through
`GetOrAllocate` the scenario works: entities 3 and 1 get offsets 0 and 4, `data` holds two
slots and `indices` has length 4. -/
theorem AllocateFor_fresh :
    (ofType exPosition).indecies = [] ∧
    AllocateFor exPosition 3 (ofType exPosition) = .error .undefinedBehaviour ∧
    GetOrAllocate exPosition 3 (ofType exPosition) =
      .ok (⟨4, [SIZE_MAX, SIZE_MAX, SIZE_MAX, 0], [1, 2, 3, 4]⟩, 0) ∧
    GetOrAllocate exPosition 1 ⟨4, [SIZE_MAX, SIZE_MAX, SIZE_MAX, 0], [1, 2, 3, 4]⟩ =
      .ok (⟨4, [SIZE_MAX, 4, SIZE_MAX, 0], [1, 2, 3, 4, 1, 2, 3, 4]⟩, 4) := by
  decide

theorem AllocateFor_eq {T : ComponentType} {e : Entity} {st : SkiplistComponentStorage}
    {n : Nat} (hsz : st.elementSize = T.sizeof) (hlen : st.data.length = n * T.sizeof)
    (he : e.val < st.indecies.length) :
    AllocateFor T e st =
      .ok (⟨T.sizeof, st.indecies.set e.val (n * T.sizeof), st.data ++ T.init⟩,
        n * T.sizeof) := by
  have hidx : subSizeT (st.data.length + T.sizeof) 1 / T.sizeof * T.sizeof = n * T.sizeof := by
    rw [slotIndex_mul (sizeof_pos T) (show st.data.length % T.sizeof = 0 by rw [hlen]; simp),
      hlen]
  unfold AllocateFor
  rw [Allocate_eq hsz]
  dsimp only
  rw [if_pos he, hidx, hlen]

/-- Claim C19, as amended: `Allocate<T>(Entity e)` on a sparse storage sized for `T` whose
`indices` table already covers `e` and whose `data` holds `n` whole slots succeeds, appends
one default-constructed slot, stores its offset `n * sizeof(T)` in `indices[e]`, leaves the
other entries alone and returns a reference to the new slot. So on a storage sized for `T`
with empty `data` and an `indices` table of `k ≥ 4` sentinels, `Allocate(3)` and then
`Allocate(1)` both succeed, `indices[3]` is 0 and `indices[1]` is `sizeof(T)`, `data` holds
exactly two slots and `indices` keeps its length `k`. On the freshly constructed storage,
whose table is empty, the same two slots come from `GetOrAllocate(3)` and `GetOrAllocate(1)`,
which grows the table to length 4 before it allocates. -/
theorem sparse_AllocateFor_spec (T : ComponentType) (e : Entity) (st : SkiplistComponentStorage)
    (n k : Nat) (hsz : st.elementSize = T.sizeof) (hlen : st.data.length = n * T.sizeof)
    (he : e.val < st.indecies.length) (hk : 4 ≤ k) :
    AllocateFor T e st =
      .ok (⟨T.sizeof, st.indecies.set e.val (n * T.sizeof), st.data ++ T.init⟩,
        n * T.sizeof) ∧
    (∃ st1 st2, AllocateFor T 3 ⟨T.sizeof, List.replicate k SIZE_MAX, []⟩ = .ok (st1, 0) ∧
      AllocateFor T 1 st1 = .ok (st2, T.sizeof) ∧
      st2.data = T.init ++ T.init ∧ st2.data.length / T.sizeof = 2 ∧
      st2.indecies[3]? = some 0 ∧ st2.indecies[1]? = some T.sizeof ∧
      st2.indecies.length = k ∧
      ∀ j, j ≠ 3 → j ≠ 1 → j < k → st2.indecies[j]? = some SIZE_MAX) ∧
    (∃ st1 st2, GetOrAllocate T 3 (ofSize T.sizeof) = .ok (st1, 0) ∧
      GetOrAllocate T 1 st1 = .ok (st2, T.sizeof) ∧
      st2.data = T.init ++ T.init ∧ st2.indecies = [SIZE_MAX, T.sizeof, SIZE_MAX, 0]) := by
  have hpos := sizeof_pos T
  refine ⟨AllocateFor_eq hsz hlen he, ?_, ?_⟩
  · have h1 := @AllocateFor_eq T 3 ⟨T.sizeof, List.replicate k SIZE_MAX, []⟩ 0 rfl
      (by simp) (by simp; omega)
    have h2 := @AllocateFor_eq T 1
      ⟨T.sizeof, (List.replicate k SIZE_MAX).set 3 (0 * T.sizeof), [] ++ T.init⟩ 1 rfl
      (by simp [ComponentType.sizeof]) (by simp; omega)
    simp only [Nat.zero_mul, Nat.one_mul, List.nil_append] at h1 h2
    refine ⟨_, _, h1, h2, rfl, ?_, ?_, ?_, ?_, ?_⟩
    · show (T.init ++ T.init).length / T.sizeof = 2
      rw [List.length_append]
      show (T.sizeof + T.sizeof) / T.sizeof = 2
      rw [← Nat.two_mul, Nat.mul_div_cancel _ hpos]
    · show (((List.replicate k SIZE_MAX).set 3 0).set 1 T.sizeof)[3]? = some 0
      rw [List.getElem?_set_ne (by decide), List.getElem?_set_self (by simp; omega)]
    · show (((List.replicate k SIZE_MAX).set 3 0).set 1 T.sizeof)[1]? = some T.sizeof
      rw [List.getElem?_set_self (by simp; omega)]
    · show (((List.replicate k SIZE_MAX).set 3 0).set 1 T.sizeof).length = k
      simp
    · intro j h3 h1' hj
      show (((List.replicate k SIZE_MAX).set 3 0).set 1 T.sizeof)[j]? = some SIZE_MAX
      rw [List.getElem?_set_ne (Ne.symm h1'), List.getElem?_set_ne (Ne.symm h3),
        List.getElem?_replicate, if_pos hj]
  · have hz : subSizeT (0 + T.sizeof) 1 / T.sizeof * T.sizeof = 0 :=
      slotIndex_mul hpos (Nat.zero_mod _)
    have hs : subSizeT (T.sizeof + T.sizeof) 1 / T.sizeof * T.sizeof = T.sizeof :=
      slotIndex_mul hpos (Nat.mod_self _)
    have h1 := @GetOrAllocate_fresh T 3 (ofSize T.sizeof) rfl rfl
    have h2 := @GetOrAllocate_fresh T 1
      ⟨T.sizeof, [SIZE_MAX, SIZE_MAX, SIZE_MAX, 0], T.init⟩ rfl rfl
    have hg1 : (grown (ofSize T.sizeof).indecies (3 : Entity).val).set (3 : Entity).val
        (subSizeT ((ofSize T.sizeof).data.length + T.sizeof) 1 / T.sizeof * T.sizeof) =
          [SIZE_MAX, SIZE_MAX, SIZE_MAX, 0] := by
      show (grown [] 3).set 3 (subSizeT (0 + T.sizeof) 1 / T.sizeof * T.sizeof) = _
      rw [hz]
      rfl
    have hg2 : (grown [SIZE_MAX, SIZE_MAX, SIZE_MAX, 0] (1 : Entity).val).set (1 : Entity).val
        (subSizeT (T.init.length + T.sizeof) 1 / T.sizeof * T.sizeof) =
          [SIZE_MAX, T.sizeof, SIZE_MAX, 0] := by
      show (grown [SIZE_MAX, SIZE_MAX, SIZE_MAX, 0] 1).set 1
        (subSizeT (T.sizeof + T.sizeof) 1 / T.sizeof * T.sizeof) = _
      rw [hs]
      rfl
    rw [hg1] at h1
    dsimp only at h2
    rw [hg2] at h2
    exact ⟨_, _, h1, h2, rfl, rfl⟩

set_option maxRecDepth 100000 in
/-- Witness for C19 as amended: `exPosition`, with an `indices` table of four sentinels. -/
theorem sparse_AllocateFor_spec_witness :
    AllocateFor exPosition 3 ⟨4, [SIZE_MAX, SIZE_MAX, SIZE_MAX, SIZE_MAX], []⟩ =
      .ok (⟨exPosition.sizeof,
        ([SIZE_MAX, SIZE_MAX, SIZE_MAX, SIZE_MAX] : List Nat).set (3 : Entity).val
          (0 * exPosition.sizeof), [] ++ exPosition.init⟩, 0 * exPosition.sizeof) ∧
    AllocateFor exPosition 1 ⟨4, [SIZE_MAX, SIZE_MAX, SIZE_MAX, 0], [1, 2, 3, 4]⟩ =
      .ok (⟨4, [SIZE_MAX, 4, SIZE_MAX, 0], [1, 2, 3, 4, 1, 2, 3, 4]⟩, 4) ∧
    (∃ st1 st2, GetOrAllocate exPosition 3 (ofSize exPosition.sizeof) = .ok (st1, 0) ∧
      GetOrAllocate exPosition 1 st1 = .ok (st2, exPosition.sizeof) ∧
      st2.data = exPosition.init ++ exPosition.init ∧
      st2.indecies = [SIZE_MAX, exPosition.sizeof, SIZE_MAX, 0]) :=
  ⟨(sparse_AllocateFor_spec exPosition 3 ⟨4, [SIZE_MAX, SIZE_MAX, SIZE_MAX, SIZE_MAX], []⟩
      0 4 (by decide) (by decide) (by decide) (by decide)).1,
    (sparse_AllocateFor_spec exPosition 1 ⟨4, [SIZE_MAX, SIZE_MAX, SIZE_MAX, 0], [1, 2, 3, 4]⟩
      1 4 (by decide) (by decide) (by decide) (by decide)).1,
    (sparse_AllocateFor_spec exPosition 3 ⟨4, [SIZE_MAX, SIZE_MAX, SIZE_MAX, SIZE_MAX], []⟩
      0 4 (by decide) (by decide) (by decide) (by decide)).2.2⟩

/-- Claim C20: for every sparse storage with element size `s = sizeof(T)` whose data blob
holds `n` slots (length `n * s`), the no-argument `Allocate<T>()` appends exactly the `s`
bytes of one default-constructed `T` behind the unchanged old data, leaves `indices` alone,
returns a reference to the new slot at byte offset `n * s`, and returns the slot index
`n = ((n + 1) * s - 1) / s`. -/
theorem sparse_Allocate_spec (T : ComponentType) (st : SkiplistComponentStorage) (n : Nat)
    (hsz : st.elementSize = T.sizeof) (hn : st.data.length = n * T.sizeof) :
    Allocate T st = .ok (⟨T.sizeof, st.indecies, st.data ++ T.init⟩, n * T.sizeof, n) ∧
    (st.data ++ T.init).length = st.data.length + T.sizeof ∧
    n = ((n + 1) * T.sizeof - 1) / T.sizeof := by
  have hpos := sizeof_pos T
  have hidx : subSizeT (st.data.length + T.sizeof) 1 / T.sizeof = n := by
    have h := slotIndex_mul hpos (show st.data.length % T.sizeof = 0 by rw [hn]; simp)
    rw [hn] at h ⊢
    exact Nat.eq_of_mul_eq_mul_right hpos h
  refine ⟨?_, by simp [ComponentType.sizeof], ?_⟩
  · rw [Allocate_eq hsz, hidx, hn]
  · have h2 : (n + 1) * T.sizeof - 1 = subSizeT (st.data.length + T.sizeof) 1 := by
      unfold subSizeT
      rw [if_pos (by omega), hn]
      congr 1
      ring
    rw [h2, hidx]

set_option maxRecDepth 100000 in
/-- Witness for C20: a second slot allocated in a sparse storage for `exPosition` that
holds one slot. -/
theorem sparse_Allocate_spec_witness :
    Allocate exPosition ⟨4, [0], [5, 6, 7, 8]⟩ =
      .ok (⟨exPosition.sizeof, [0], [5, 6, 7, 8] ++ exPosition.init⟩, 1 * exPosition.sizeof, 1) ∧
    (([5, 6, 7, 8] : List Byte) ++ exPosition.init).length =
      ([5, 6, 7, 8] : List Byte).length + exPosition.sizeof ∧
    1 = ((1 + 1) * exPosition.sizeof - 1) / exPosition.sizeof :=
  sparse_Allocate_spec exPosition ⟨4, [0], [5, 6, 7, 8]⟩ 1 (by decide) (by decide)

end SkiplistComponentStorage

/-! ## Claims C21 to C30 -/

/-- Claim C21: typed access with the wrong element size is rejected before anything is
touched. For every dense or sparse storage and every component type `T` with
`sizeof(T) ≠ elementSize`, `Get<T>`, `Allocate<T>` (dense: any count; sparse: with and
without an entity) and `GetOrAllocate<T>` all stop at their first statement, the assertion
`sizeof(Tcomponent) == elementSize`; no new storage state is produced, so `data` and
`indices` are as before. A default-constructed storage, whose `elementSize` is the unset
marker, rejects every component type. -/
theorem typeMismatch_rejected (T : ComponentType) :
    (∀ (st : ComponentStorage) (e : Entity) (count : Nat), T.sizeof ≠ st.elementSize →
      ComponentStorage.Get T e st = .error .typeMismatch ∧
      ComponentStorage.Allocate T count st = .error .typeMismatch ∧
      ComponentStorage.GetOrAllocate T e st = .error .typeMismatch) ∧
    (∀ (st : SkiplistComponentStorage) (e : Entity), T.sizeof ≠ st.elementSize →
      SkiplistComponentStorage.Get T e st = .error .typeMismatch ∧
      SkiplistComponentStorage.Allocate T st = .error .typeMismatch ∧
      SkiplistComponentStorage.AllocateFor T e st = .error .typeMismatch ∧
      SkiplistComponentStorage.GetOrAllocate T e st = .error .typeMismatch) ∧
    T.sizeof ≠ ComponentStorage.default.elementSize ∧
    T.sizeof ≠ SkiplistComponentStorage.default.elementSize := by
  refine ⟨?_, ?_, sizeof_ne_max T, sizeof_ne_max T⟩
  · intro st e count h
    refine ⟨?_, ?_, ?_⟩
    · unfold ComponentStorage.Get; rw [if_pos h]
    · unfold ComponentStorage.Allocate; rw [if_pos h]
    · unfold ComponentStorage.GetOrAllocate; rw [if_pos h]
  · intro st e h
    have ha : SkiplistComponentStorage.Allocate T st = .error .typeMismatch := by
      unfold SkiplistComponentStorage.Allocate; rw [if_pos h]
    refine ⟨?_, ha, ?_, ?_⟩
    · unfold SkiplistComponentStorage.Get; rw [if_pos h]
    · unfold SkiplistComponentStorage.AllocateFor; rw [ha]
    · unfold SkiplistComponentStorage.GetOrAllocate; rw [if_pos h]

/-- Witness for C21: an eight-byte type used on storages sized for the four-byte
`exPosition`. -/
theorem typeMismatch_rejected_witness :
    (ComponentStorage.Get exEight 0 ⟨4, [5, 6, 7, 8]⟩ = .error .typeMismatch ∧
      ComponentStorage.Allocate exEight 1 ⟨4, [5, 6, 7, 8]⟩ = .error .typeMismatch ∧
      ComponentStorage.GetOrAllocate exEight 0 ⟨4, [5, 6, 7, 8]⟩ = .error .typeMismatch) ∧
    (SkiplistComponentStorage.Get exEight 0 ⟨4, [0], [5, 6, 7, 8]⟩ = .error .typeMismatch ∧
      SkiplistComponentStorage.Allocate exEight ⟨4, [0], [5, 6, 7, 8]⟩ = .error .typeMismatch ∧
      SkiplistComponentStorage.AllocateFor exEight 0 ⟨4, [0], [5, 6, 7, 8]⟩ =
        .error .typeMismatch ∧
      SkiplistComponentStorage.GetOrAllocate exEight 0 ⟨4, [0], [5, 6, 7, 8]⟩ =
        .error .typeMismatch) :=
  ⟨(typeMismatch_rejected exEight).1 ⟨4, [5, 6, 7, 8]⟩ 0 1 (by decide),
    (typeMismatch_rejected exEight).2.1 ⟨4, [0], [5, 6, 7, 8]⟩ 0 (by decide)⟩

namespace Scene

variable {σ : Type}

/-- Claim C22: for every existing entity `e` and type `T`, `RemoveComponent<T>(e)` returns
and leaves every storage as it was, the entity count as it was, the mask of every other
entity as it was, and the mask of `e` with the same length and the same value at every
position other than the id of `T`. -/
theorem RemoveComponent_frame (T : ComponentType) (e : Entity) (r : Registry) (s : Scene σ)
    (he : e.val < s.entityMasks.length) :
    ∃ s1, RemoveComponent T e r s = .ok ((GetComponentID T r).2, s1) ∧
      s1.storages = s.storages ∧
      s1.entityMasks.length = s.entityMasks.length ∧
      (∀ j, j ≠ e.val → s1.entityMasks[j]? = s.entityMasks[j]?) ∧
      ∃ m m1, s.entityMasks[e.val]? = some m ∧ s1.entityMasks[e.val]? = some m1 ∧
        m1.length = m.length ∧ ∀ k, k ≠ (GetComponentID T r).1 → m1[k]? = m[k]? := by
  have hmask : s.entityMasks[e.val]? = some s.entityMasks[e.val] := List.getElem?_eq_getElem he
  obtain ⟨s1, hrm, hst, hmasks⟩ := @RemoveComponent_ok σ T e r s _ hmask
  refine ⟨s1, hrm, hst, ?_, ?_, s.entityMasks[e.val], ?_⟩
  · rw [hmasks]; split <;> simp
  · intro j hj
    rw [hmasks]
    split
    · rw [List.getElem?_set_ne (Ne.symm hj)]
    · rfl
  · by_cases hlen : s.entityMasks[e.val].length > (GetComponentID T r).1
    · refine ⟨_, hmask, by rw [hmasks, if_pos hlen, List.getElem?_set_self he], by simp, ?_⟩
      intro k hk
      rw [List.getElem?_set_ne (Ne.symm hk)]
    · exact ⟨_, hmask, by rw [hmasks, if_neg hlen]; exact hmask, rfl, fun _ _ => rfl⟩

/-- Witness for C22: `exPosition` removed from entity 2 of `exDense`. -/
theorem RemoveComponent_frame_witness :
    ∃ s1, RemoveComponent exPosition 2 exRegistry1 exDense =
        .ok ((GetComponentID exPosition exRegistry1).2, s1) ∧
      s1.storages = exDense.storages ∧
      s1.entityMasks.length = exDense.entityMasks.length ∧
      (∀ j, j ≠ (2 : Entity).val → s1.entityMasks[j]? = exDense.entityMasks[j]?) ∧
      ∃ m m1, exDense.entityMasks[(2 : Entity).val]? = some m ∧
        s1.entityMasks[(2 : Entity).val]? = some m1 ∧
        m1.length = m.length ∧
        ∀ k, k ≠ (GetComponentID exPosition exRegistry1).1 → m1[k]? = m[k]? :=
  RemoveComponent_frame exPosition 2 exRegistry1 exDense (by decide)

/-- Claim C23: `HasComponent<T>(e)` is a query. Its result is computed from the mask of `e`
alone: the scene is no output of it, so masks and storages (their number included) stay as
they are, and the result does not depend on the storages collection at all. Only the
registry may record the id of `T`. Asked again with the same arguments on the same scene,
it returns the same truth value and leaves the registry as the first call left it. -/
theorem HasComponent_pure (T : ComponentType) (e : Entity) (r : Registry) (s : Scene σ)
    (he : e.val < s.entityMasks.length) :
    ∃ b, HasComponent T e r s = .ok (b, (GetComponentID T r).2) ∧
      HasComponent T e (GetComponentID T r).2 s = .ok (b, (GetComponentID T r).2) ∧
      ∀ (τ : Type) (storages : List τ),
        HasComponent T e r (⟨s.entityMasks, storages⟩ : Scene τ) =
          .ok (b, (GetComponentID T r).2) := by
  have hmask : s.entityMasks[e.val]? = some s.entityMasks[e.val] := List.getElem?_eq_getElem he
  refine ⟨_, HasComponent_of_mask hmask, ?_, ?_⟩
  · rw [HasComponent_of_mask hmask, GetComponentID_again]
  · intro τ storages
    exact @HasComponent_of_mask τ T e r ⟨s.entityMasks, storages⟩ _ hmask

/-- Witness for C23: `exVelocity`, a type the registry has not seen, queried on entity 2 of
`exDense`. -/
theorem HasComponent_pure_witness :
    ∃ b, HasComponent exVelocity 2 exRegistry1 exDense =
        .ok (b, (GetComponentID exVelocity exRegistry1).2) ∧
      HasComponent exVelocity 2 (GetComponentID exVelocity exRegistry1).2 exDense =
        .ok (b, (GetComponentID exVelocity exRegistry1).2) ∧
      ∀ (τ : Type) (storages : List τ),
        HasComponent exVelocity 2 exRegistry1 (⟨exDense.entityMasks, storages⟩ : Scene τ) =
          .ok (b, (GetComponentID exVelocity exRegistry1).2) :=
  HasComponent_pure exVelocity 2 exRegistry1 exDense (by decide)

set_option maxRecDepth 100000 in
/-- Claim C24, the failing input: a fresh scene (`storages = {Storage()}`, length 1) and a
component type that receives id 2 because two other types were registered before, here by
`GetComponentID` calls that did not involve this scene. `GetStorage` inserts
`max(2 - 1, 1) = 1` storage, which leaves length 2, and then indexes `storages[2]`. With
id 1 the same scene grows to length 2 and the call succeeds. -/
theorem GetStorage_off_by_one :
    (callSequence [exPosition, exVelocity] ⟨0, []⟩).2 = exRegistry2 ∧
    (GetComponentID exEight exRegistry2).1 = 2 ∧
    (Scene.new : Scene ComponentStorage).storages.length = 1 ∧
    GetStorage exEight exRegistry2 (Scene.new : Scene ComponentStorage) =
      .error .undefinedBehaviour ∧
    GetStorage exEight exRegistry2 (Scene.new : Scene SkiplistComponentStorage) =
      .error .undefinedBehaviour ∧
    GetStorage exVelocity exRegistry1 (Scene.new : Scene ComponentStorage) =
      .ok (1, exRegistry2, ⟨[], [ComponentStorage.default, ⟨2, []⟩]⟩) := by
  decide

end Scene

/-! ### What `AddComponent` leaves alone -/

theorem Registry.Records.ids_ne {r : Registry} {seen : List ComponentType} (hr : r.Records seen)
    {T U : ComponentType} (hne : T ≠ U) :
    (GetComponentID T r).1 ≠ (GetComponentID U (GetComponentID T r).2).1 := by
  obtain ⟨hT1, hT2, -, -⟩ := hr.step T
  obtain ⟨hU1, -, -, -⟩ := hT2.step U
  rw [hT1, hU1]
  have hTmem : T ∈ (if T ∈ seen then seen else seen ++ [T]) := by
    split
    · assumption
    · simp
  by_cases hU : U ∈ (if T ∈ seen then seen else seen ++ [T])
  · rw [if_pos hU]
    exact fun h => hne ((List.indexOf_inj hTmem hU).mp h)
  · rw [if_neg hU, List.indexOf_append_of_not_mem hU]
    have := List.indexOf_lt_length.mpr hTmem
    simp
    omega

theorem readAt_append {data suf : List Byte} {off n : Nat} (h : off + n ≤ data.length) :
    readAt (data ++ suf) off n = readAt data off n := by
  unfold readAt
  rw [if_pos h, if_pos (by rw [List.length_append]; omega)]
  congr 1
  rw [List.drop_append_of_le_length (by omega), List.take_append_of_le_length]
  rw [List.length_drop]; omega

theorem readAt_append_ok {data suf v : List Byte} {off n : Nat} (h : readAt data off n = .ok v) :
    readAt (data ++ suf) off n = .ok v := by
  by_cases hb : off + n ≤ data.length
  · rw [readAt_append hb]; exact h
  · unfold readAt at h
    rw [if_neg hb] at h
    cases h

namespace ComponentStorage

theorem dense_GetOrAllocate_append {T : ComponentType} {e : Entity} {st st1 : ComponentStorage}
    {off : Nat} (h : GetOrAllocate T e st = .ok (st1, off)) :
    st.elementSize = T.sizeof ∧ st1.elementSize = T.sizeof ∧ ∃ suf, st1.data = st.data ++ suf := by
  have hsz : st.elementSize = T.sizeof := by
    unfold GetOrAllocate at h
    split at h
    · cases h
    · rename_i hs; exact (not_not.mp hs).symm
  refine ⟨hsz, (GetOrAllocate_ok h).1, ?_⟩
  by_cases hlt : e.val < st.data.length / T.sizeof
  · rw [(GetOrAllocate_of_lt hsz hlt).1] at h
    cases h
    exact ⟨[], by simp⟩
  · by_cases hlim : e.val - st.data.length / T.sizeof + 1 < 100
    · rw [GetOrAllocate_grow hsz (by omega) hlim] at h
      cases h
      exact ⟨_, rfl⟩
    · rw [GetOrAllocate_limit hsz (by omega) (by omega)] at h
      cases h

end ComponentStorage

namespace SkiplistComponentStorage

theorem sparse_GetOrAllocate_append {T : ComponentType} {e : Entity} {st st1 : SkiplistComponentStorage}
    {off : Nat} (h : GetOrAllocate T e st = .ok (st1, off)) :
    st.elementSize = T.sizeof ∧ st1.elementSize = T.sizeof ∧
      (∃ suf, st1.data = st.data ++ suf) ∧
      ∀ j, j ≠ e.val → j < st.indecies.length → st1.indecies[j]? = st.indecies[j]? := by
  have hsz := GetOrAllocate_sizeof h
  by_cases hidx : (st.indecies[e.val]?).getD SIZE_MAX = SIZE_MAX
  · rw [GetOrAllocate_fresh hsz hidx] at h
    cases h
    refine ⟨hsz, rfl, ⟨_, rfl⟩, ?_⟩
    intro j hj hlt
    show ((grown st.indecies e.val).set _ _)[j]? = _
    rw [List.getElem?_set_ne (Ne.symm hj), grown_getElem?_ne _ hj, if_pos hlt]
  · cases hopt : st.indecies[e.val]? with
    | none => rw [hopt] at hidx; exact absurd rfl hidx
    | some off0 =>
      rw [hopt] at hidx
      rw [(GetOrAllocate_present hsz hopt hidx).1] at h
      cases h
      exact ⟨hsz, hsz, ⟨[], by simp⟩, fun _ _ _ => rfl⟩

end SkiplistComponentStorage

namespace Scene

variable {σ : Type}

theorem bit_eq (m : List Bool) (i : Nat) :
    (decide (m.length > i) && m.getD i false) = (m[i]?).getD false := by
  by_cases h : i < m.length
  · simp [h, List.getD_eq_getElem?_getD]
  · simp [h, List.getElem?_eq_none (Nat.le_of_not_lt h)]

theorem maskWith_getElem?_ne (m : List Bool) {id i : Nat} (h : i ≠ id) :
    ((maskWith m id)[i]?).getD false = (m[i]?).getD false := by
  unfold maskWith
  rw [List.getElem?_set_ne (Ne.symm h)]
  split
  · by_cases hi : i < m.length
    · rw [List.getElem?_append_left hi]
    · rw [List.getElem?_append_right (by omega), List.getElem?_eq_none (Nat.le_of_not_lt hi),
        List.getElem?_replicate]
      split <;> rfl
  · rfl

theorem HasComponent_after_add [Storage σ] {seen : List ComponentType} {r : Registry}
    (hr : r.Records seen) {T U : ComponentType} {e e1 : Entity} {s s2 : Scene σ}
    {b : Bool} {rU r2 : Registry} {ref : Ref}
    (hhas : HasComponent U e1 r s = .ok (b, rU)) (hne : U ≠ T ∨ e1 ≠ e)
    (hadd : AddComponent T e rU s = .ok (ref, r2, s2)) :
    HasComponent U e1 r2 s2 = .ok (b, r2) := by
  obtain ⟨hr2, -, eMask, hmask, hmasks, -⟩ := AddComponent_ok hadd
  have helt : e.val < s.entityMasks.length := (List.getElem?_eq_some_iff.mp hmask).1
  cases hm1 : s.entityMasks[e1.val]? with
  | none =>
    unfold HasComponent at hhas
    rw [hm1] at hhas
    cases hhas
  | some m1 =>
    rw [HasComponent_of_mask hm1] at hhas
    simp only [Except.ok.injEq, Prod.mk.injEq] at hhas
    obtain ⟨hb, hrU⟩ := hhas
    have hlkU : rU.ids.lookup U = some (GetComponentID U r).1 := by
      rw [← hrU]; exact lookup_after U r
    have hlk2 : r2.ids.lookup U = some (GetComponentID U r).1 := by
      rw [hr2]; exact lookup_persist hlkU
    have hidU : GetComponentID U r2 = ((GetComponentID U r).1, r2) :=
      GetComponentID_of_lookup hlk2
    by_cases hee : e1.val = e.val
    · have heq : e1 = e := Fin.ext hee
      have hUT : U ≠ T := by
        rcases hne with h | h
        · exact h
        · exact absurd heq h
      have hm2 : s2.entityMasks[e1.val]? = some (maskWith eMask (GetComponentID T rU).1) := by
        rw [hmasks, hee, List.getElem?_set_self helt]
      have hmm : m1 = eMask := by
        rw [hee, hmask] at hm1
        cases hm1; rfl
      have hids : (GetComponentID U r).1 ≠ (GetComponentID T rU).1 := by
        rw [← hrU]; exact hr.ids_ne hUT
      rw [HasComponent_of_mask hm2, hidU]
      dsimp only
      rw [bit_eq, maskWith_getElem?_ne _ hids, ← hmm, ← bit_eq, hb]
    · have hm2 : s2.entityMasks[e1.val]? = some m1 := by
        rw [hmasks, List.getElem?_set_ne (Ne.symm hee)]; exact hm1
      rw [HasComponent_of_mask hm2, hidU]
      dsimp only
      rw [hb]

end Scene

namespace Scene

variable {σ : Type}

theorem AddComponent_others [Storage σ] {T : ComponentType} {e : Entity} {r r1 : Registry}
    {s s1 : Scene σ} {ref : Ref} (h : AddComponent T e r s = .ok (ref, r1, s1)) :
    s1.entityMasks.length = s.entityMasks.length ∧
    ∀ i, i ≠ (GetComponentID T r).1 → i < s.storages.length →
      s1.storages[i]? = s.storages[i]? := by
  obtain ⟨-, -, eMask, -, hmasks, s2, st, st1, hgs, -, -, hs1⟩ := AddComponent_ok h
  refine ⟨by rw [hmasks, List.length_set], ?_⟩
  intro i hi hlt
  obtain ⟨-, -, -, -, -, -, hother⟩ := GetStorage_ok hgs
  rw [hs1, List.getElem?_set_ne (Ne.symm hi), hother i hi]
  dsimp only
  split
  · rw [List.getElem?_append_left hlt]
  · rfl

theorem dense_AddComponent_keeps {T : ComponentType} {e e1 : Entity} {r r1 : Registry}
    {s s1 : Scene ComponentStorage} {ref : Ref} {st0 : ComponentStorage} {off : Nat}
    (h : AddComponent T e r s = .ok (ref, r1, s1))
    (hst0 : s.storages[(GetComponentID T r).1]? = some st0)
    (hget : ComponentStorage.Get T e1 st0 = .ok off) :
    ∃ st1, s1.storages[(GetComponentID T r).1]? = some st1 ∧
      ComponentStorage.Get T e1 st1 = .ok off ∧ ∃ suf, st1.data = st0.data ++ suf := by
  obtain ⟨-, -, -, st0', st1, -, -, hst0', hgoa, hst1⟩ := AddComponent_result h
  have hlt0 := (List.getElem?_eq_some_iff.mp hst0).1
  have heq : st0' = st0 := by
    rcases hst0' with h0 | ⟨h0, -⟩
    · rw [hst0] at h0; cases h0; rfl
    · omega
  subst heq
  unfold ComponentStorage.Get at hget
  split at hget
  · cases hget
  · rename_i hsz
    have hsz' : st0'.elementSize = T.sizeof := (not_not.mp hsz).symm
    split at hget
    · cases hget
    · rename_i hlt
      have hlt' := not_not.mp hlt
      cases hget
      have hne : ¬ Storage.elementSize st0' = SIZE_MAX := by
        show ¬ st0'.elementSize = SIZE_MAX
        rw [hsz']; exact sizeof_ne_max T
      rw [if_neg hne] at hgoa
      obtain ⟨-, hes1, suf, hsuf⟩ := ComponentStorage.dense_GetOrAllocate_append hgoa
      refine ⟨st1, hst1, ?_, suf, hsuf⟩
      unfold ComponentStorage.Get
      rw [if_neg (by rw [hes1]; exact fun h => h rfl), hes1, ← hsz']
      have hle : st0'.data.length / st0'.elementSize ≤ st1.data.length / st0'.elementSize := by
        apply Nat.div_le_div_right
        rw [hsuf, List.length_append]; omega
      rw [if_neg (by omega)]

theorem sparse_AddComponent_keeps {T : ComponentType} {e e1 : Entity} {r r1 : Registry}
    {s s1 : Scene SkiplistComponentStorage} {ref : Ref} {st0 : SkiplistComponentStorage}
    {off : Nat} (h : AddComponent T e r s = .ok (ref, r1, s1))
    (hst0 : s.storages[(GetComponentID T r).1]? = some st0)
    (hget : SkiplistComponentStorage.Get T e1 st0 = .ok off) :
    ∃ st1, s1.storages[(GetComponentID T r).1]? = some st1 ∧
      SkiplistComponentStorage.Get T e1 st1 = .ok off ∧ ∃ suf, st1.data = st0.data ++ suf := by
  obtain ⟨-, -, -, st0', st1, -, -, hst0', hgoa, hst1⟩ := AddComponent_result h
  have hlt0 := (List.getElem?_eq_some_iff.mp hst0).1
  have heq : st0' = st0 := by
    rcases hst0' with h0 | ⟨h0, -⟩
    · rw [hst0] at h0; cases h0; rfl
    · omega
  subst heq
  unfold SkiplistComponentStorage.Get at hget
  split at hget
  · cases hget
  · rename_i hsz
    have hsz' : st0'.elementSize = T.sizeof := (not_not.mp hsz).symm
    split at hget
    · cases hget
    · rename_i off0 hidx
      split at hget
      · cases hget
      · rename_i hoff
        cases hget
        have hne : ¬ Storage.elementSize st0' = SIZE_MAX := by
          show ¬ st0'.elementSize = SIZE_MAX
          rw [hsz']; exact sizeof_ne_max T
        rw [if_neg hne] at hgoa
        obtain ⟨-, hes1, hsuf, hidxs⟩ := SkiplistComponentStorage.sparse_GetOrAllocate_append hgoa
        refine ⟨st1, hst1, ?_, hsuf⟩
        have hidx1 : st1.indecies[e1.val]? = some off := by
          by_cases hee : e1.val = e.val
          · rw [hee] at hidx
            have hp := (SkiplistComponentStorage.GetOrAllocate_present hsz' hidx hoff).1
            rw [hee]
            have hgoa' : SkiplistComponentStorage.GetOrAllocate T e st0' = .ok (st1, ref.offset) :=
              hgoa
            rw [hp] at hgoa'
            cases hgoa'
            exact hidx
          · rw [hidxs e1.val hee (List.getElem?_eq_some_iff.mp hidx).1]; exact hidx
        unfold SkiplistComponentStorage.Get
        rw [if_neg (by rw [hes1]; exact fun h => h rfl), hidx1]
        dsimp only
        rw [if_neg hoff]

theorem load_append [Storage σ] {s s1 : Scene σ} {i off n : Nat} {st0 st1 : σ} {v suf : List Byte}
    (h0 : s.storages[i]? = some st0) (h1 : s1.storages[i]? = some st1)
    (hsuf : Storage.data st1 = Storage.data st0 ++ suf) (hl : load s ⟨i, off⟩ n = .ok v) :
    load s1 ⟨i, off⟩ n = .ok v := by
  unfold load at hl ⊢
  dsimp only at hl ⊢
  rw [h0] at hl
  rw [h1]
  dsimp only at hl ⊢
  rw [hsuf]
  exact readAt_append_ok hl

end Scene

/-! ### Reachable scenes -/

theorem Registry.Records.lookup_unique {r : Registry} {seen : List ComponentType}
    (hr : r.Records seen) {T U : ComponentType}
    (h : r.ids.lookup U = some (GetComponentID T r).1) : U = T := by
  obtain ⟨hstep, -, -, hnew⟩ := hr.step T
  obtain ⟨hc, -, hl⟩ := hr
  have hU := hl U
  rw [h] at hU
  by_cases hUs : U ∈ seen
  · rw [if_pos hUs] at hU
    have hidx : (GetComponentID T r).1 = seen.indexOf U := Option.some.inj hU
    by_cases hT : T ∈ seen
    · rw [if_pos hT] at hstep
      rw [hstep] at hidx
      exact ((List.indexOf_inj hT hUs).mp hidx).symm
    · have := (hnew hT).1
      have hlt := List.indexOf_lt_length.mpr hUs
      omega
  · rw [if_neg hUs] at hU
    cases hU

theorem getElem?_true_of_getD {m : List Bool} {i : Nat} (h : (m[i]?).getD false = true) :
    m[i]? = some true := by
  cases hm : m[i]? with
  | none => rw [hm] at h; cases h
  | some b => rw [hm] at h; cases b
              · cases h
              · rfl

theorem getElem?_set_false {m : List Bool} {id i : Nat}
    (h : (m.set id false)[i]? = some true) : i ≠ id ∧ m[i]? = some true := by
  by_cases hi : i = id
  · subst hi
    by_cases hlt : i < m.length
    · rw [List.getElem?_set_self hlt] at h; cases h
    · rw [List.getElem?_eq_none (by rw [List.length_set]; omega)] at h; cases h
  · rw [List.getElem?_set_ne (Ne.symm hi)] at h
    exact ⟨hi, h⟩

namespace ComponentStorage

theorem dense_Get_ok {T : ComponentType} {e : Entity} {st : ComponentStorage} {off : Nat}
    (h : Get T e st = .ok off) :
    st.elementSize = T.sizeof ∧ e.val < st.data.length / T.sizeof ∧ off = e.val * T.sizeof := by
  unfold Get at h
  split at h
  · cases h
  · rename_i hsz
    have hsz' : st.elementSize = T.sizeof := (not_not.mp hsz).symm
    split at h
    · cases h
    · rename_i hlt
      cases h
      rw [hsz'] at hlt
      exact ⟨hsz', not_not.mp hlt, by rw [hsz']⟩

end ComponentStorage

namespace SkiplistComponentStorage

theorem sparse_Get_ok {T : ComponentType} {e : Entity} {st : SkiplistComponentStorage}
    {off : Nat} (h : Get T e st = .ok off) :
    st.elementSize = T.sizeof ∧ st.indecies[e.val]? = some off ∧ off ≠ SIZE_MAX := by
  unfold Get at h
  split at h
  · cases h
  · rename_i hsz
    have hsz' : st.elementSize = T.sizeof := (not_not.mp hsz).symm
    split at h
    · cases h
    · rename_i off0 hidx
      split at h
      · cases h
      · rename_i hoff
        cases h
        exact ⟨hsz', hidx, hoff⟩

end SkiplistComponentStorage

namespace Scene

variable {σ : Type}

theorem HasComponent_true [Storage σ] {T : ComponentType} {e : Entity} {r r1 : Registry}
    {s : Scene σ} (h : HasComponent T e r s = .ok (true, r1)) :
    r1 = (GetComponentID T r).2 ∧
      ∃ m, s.entityMasks[e.val]? = some m ∧ m[(GetComponentID T r).1]? = some true := by
  cases hm : s.entityMasks[e.val]? with
  | none =>
    unfold HasComponent at h
    rw [hm] at h
    cases h
  | some m =>
    rw [HasComponent_of_mask hm] at h
    simp only [Except.ok.injEq, Prod.mk.injEq] at h
    obtain ⟨hb, hr⟩ := h
    rw [bit_eq] at hb
    exact ⟨hr.symm, m, rfl, getElem?_true_of_getD hb⟩

theorem Allocated.register [Storage σ] {r : Registry} {s : Scene σ} (h : Allocated r s)
    (U : ComponentType) : Allocated (GetComponentID U r).2 s := by
  intro e i m hm hbit
  obtain ⟨he, T, st, hl, hst, hslot⟩ := h e i m hm hbit
  exact ⟨he, T, st, lookup_persist hl, hst, hslot⟩

theorem Allocated.create [Storage σ] {r : Registry} {s : Scene σ} (h : Allocated r s) :
    Allocated r (CreateEntity s).2 := by
  intro e i m hm hbit
  have hm' : (s.entityMasks ++ [[false]])[e]? = some m := hm
  by_cases hlt : e < s.entityMasks.length
  · rw [List.getElem?_append_left hlt] at hm'
    exact h e i m hm' hbit
  · rw [List.getElem?_append_right (by omega)] at hm'
    have hmem := List.getElem?_mem hm'
    have hmeq : m = [false] := by simpa using hmem
    subst hmeq
    cases i with
    | zero => cases hbit
    | succ k => cases hbit

theorem Allocated.remove [Storage σ] {r r1 : Registry} {s s1 : Scene σ} {T : ComponentType}
    {e : Entity} (h : Allocated r s) (hrm : RemoveComponent T e r s = .ok (r1, s1)) :
    Allocated r1 s1 := by
  cases hm0 : s.entityMasks[e.val]? with
  | none =>
    unfold RemoveComponent at hrm
    rw [hm0] at hrm
    cases hrm
  | some m0 =>
    obtain ⟨s1', hrm', hst, hmasks⟩ := RemoveComponent_ok (T := T) (r := r) hm0
    rw [hrm'] at hrm
    simp only [Except.ok.injEq, Prod.mk.injEq] at hrm
    obtain ⟨hr1, hs1⟩ := hrm
    subst hr1 hs1
    intro e1 i m hm hbit
    have hold : ∃ m', s.entityMasks[e1]? = some m' ∧ m'[i]? = some true := by
      rw [hmasks] at hm
      split at hm
      · by_cases hee : e1 = e.val
        · subst hee
          rw [List.getElem?_set_self (List.getElem?_eq_some_iff.mp hm0).1] at hm
          cases hm
          exact ⟨m0, hm0, (getElem?_set_false hbit).2⟩
        · rw [List.getElem?_set_ne (Ne.symm hee)] at hm
          exact ⟨m, hm, hbit⟩
      · exact ⟨m, hm, hbit⟩
    obtain ⟨m', hm', hbit'⟩ := hold
    obtain ⟨he, U, st, hl, hst', hslot⟩ := h e1 i m' hm' hbit'
    exact ⟨he, U, st, lookup_persist hl, by rw [hst]; exact hst', hslot⟩

theorem maskWith_true_ne {m : List Bool} {id i : Nat} (hi : i ≠ id)
    (h : (maskWith m id)[i]? = some true) : m[i]? = some true := by
  apply getElem?_true_of_getD
  rw [← maskWith_getElem?_ne m hi, h]
  rfl

theorem Allocated.add [Storage σ] {r r1 : Registry} {s s1 : Scene σ} {T : ComponentType}
    {e : Entity} {ref : Ref} {seen : List ComponentType} (hr : r.Records seen)
    (ha : Allocated r s) (h : AddComponent T e r s = .ok (ref, r1, s1))
    (hkeep : ∀ (e1 : Entity) (st0 : σ), s.storages[(GetComponentID T r).1]? = some st0 →
      HasSlot T e1 st0 →
      ∃ st1, s1.storages[(GetComponentID T r).1]? = some st1 ∧ HasSlot T e1 st1)
    (hnew : ∃ st1, s1.storages[(GetComponentID T r).1]? = some st1 ∧ HasSlot T e st1) :
    Allocated r1 s1 := by
  obtain ⟨hr1, -, m0, hm0, hmasks, -⟩ := AddComponent_ok h
  obtain ⟨-, hothers⟩ := AddComponent_others h
  have helt : e.val < s.entityMasks.length := (List.getElem?_eq_some_iff.mp hm0).1
  subst hr1
  have hfromold : ∀ (e1 i : Nat) (m' : List Bool), s.entityMasks[e1]? = some m' →
      m'[i]? = some true →
      e1 < 256 ∧ ∃ U st, (GetComponentID T r).2.ids.lookup U = some i ∧
        s1.storages[i]? = some st ∧ HasSlot U (toEntity e1) st := by
    intro e1 i m' hm' hbit'
    obtain ⟨he, U, st, hl, hst, hslot⟩ := ha e1 i m' hm' hbit'
    refine ⟨he, ?_⟩
    by_cases hi : i = (GetComponentID T r).1
    · subst hi
      have hUT : U = T := hr.lookup_unique hl
      subst hUT
      obtain ⟨st1, hst1, hslot1⟩ := hkeep (toEntity e1) st hst hslot
      exact ⟨U, st1, lookup_persist hl, hst1, hslot1⟩
    · refine ⟨U, st, lookup_persist hl, ?_, hslot⟩
      rw [hothers i hi (List.getElem?_eq_some_iff.mp hst).1]
      exact hst
  intro e1 i m hm hbit
  rw [hmasks] at hm
  by_cases hee : e1 = e.val
  · subst hee
    rw [List.getElem?_set_self helt] at hm
    cases hm
    by_cases hi : i = (GetComponentID T r).1
    · subst hi
      obtain ⟨st1, hst1, hslot1⟩ := hnew
      refine ⟨e.isLt, T, st1, lookup_after T r, hst1, ?_⟩
      rw [SceneView.toEntity_val]
      exact hslot1
    · exact hfromold e.val i m0 hm0 (maskWith_true_ne hi hbit)
  · rw [List.getElem?_set_ne (Ne.symm hee)] at hm
    exact hfromold e1 i m hm hbit

theorem dense_reachable {r : Registry} {s : Scene ComponentStorage} (h : Reachable r s) :
    (∃ seen, r.Records seen) ∧ Allocated r s := by
  induction h with
  | start Ts =>
    refine ⟨⟨_, (callSequence_records
      (show (⟨0, []⟩ : Registry).Records [] from records_start) Ts).2⟩, ?_⟩
    intro e i m hm
    cases hm
  | register T _ ih =>
    obtain ⟨⟨seen, hrec⟩, ha⟩ := ih
    exact ⟨⟨_, (hrec.step T).2.1⟩, ha.register T⟩
  | create _ ih => exact ⟨ih.1, ih.2.create⟩
  | @remove r0 r1 s0 s1 T e _ hrm ih =>
    obtain ⟨⟨seen, hrec⟩, ha⟩ := ih
    refine ⟨?_, ha.remove hrm⟩
    cases hm0 : s0.entityMasks[e.val]? with
    | none =>
      unfold RemoveComponent at hrm
      rw [hm0] at hrm
      cases hrm
    | some m0 =>
      obtain ⟨s1', hrm', -, -⟩ := RemoveComponent_ok (T := T) (r := r0) hm0
      rw [hrm'] at hrm
      simp only [Except.ok.injEq, Prod.mk.injEq] at hrm
      rw [← hrm.1]
      exact ⟨_, (hrec.step T).2.1⟩
  | @add r0 r1 s0 s1 T e ref _ hadd hroom ih =>
    obtain ⟨⟨seen, hrec⟩, ha⟩ := ih
    have hr1 := (AddComponent_ok hadd).1
    refine ⟨⟨_, by rw [hr1]; exact (hrec.step T).2.1⟩, ?_⟩
    refine ha.add hrec hadd ?_ ?_
    · intro e1 st0 hst0 hslot
      obtain ⟨hes, off, hget, hbd⟩ := hslot
      obtain ⟨st1, hst1, hget1, suf, hsuf⟩ := dense_AddComponent_keeps hadd hst0 hget
      refine ⟨st1, hst1, (ComponentStorage.dense_Get_ok hget1).1, off, hget1, ?_⟩
      show off + T.sizeof ≤ st1.data.length
      rw [hsuf, List.length_append]
      have : off + T.sizeof ≤ st0.data.length := hbd
      omega
    · obtain ⟨-, -, _, st0, st1, -, -, -, hgoa, hst1⟩ := AddComponent_result hadd
      obtain ⟨hes, hlt, hoff⟩ := ComponentStorage.GetOrAllocate_ok hgoa
      refine ⟨st1, hst1, hes, e.val * T.sizeof,
        (ComponentStorage.GetOrAllocate_of_lt hes hlt).2, ?_⟩
      exact ComponentStorage.slot_in_bounds hlt

theorem sparse_reachable {r : Registry} {s : Scene SkiplistComponentStorage}
    (h : Reachable r s) : (∃ seen, r.Records seen) ∧ Allocated r s ∧ s.SparseWellFormed := by
  induction h with
  | start Ts =>
    refine ⟨⟨_, (callSequence_records
      (show (⟨0, []⟩ : Registry).Records [] from records_start) Ts).2⟩, ?_, sparseWellFormed_new⟩
    intro e i m hm
    cases hm
  | register T _ ih =>
    obtain ⟨⟨seen, hrec⟩, ha, hwf⟩ := ih
    exact ⟨⟨_, (hrec.step T).2.1⟩, ha.register T, hwf⟩
  | create _ ih => exact ⟨ih.1, ih.2.1.create, sparseWellFormed_CreateEntity ih.2.2⟩
  | @remove r0 r1 s0 s1 T e _ hrm ih =>
    obtain ⟨⟨seen, hrec⟩, ha, hwf⟩ := ih
    refine ⟨?_, ha.remove hrm, sparseWellFormed_RemoveComponent hwf hrm⟩
    cases hm0 : s0.entityMasks[e.val]? with
    | none =>
      unfold RemoveComponent at hrm
      rw [hm0] at hrm
      cases hrm
    | some m0 =>
      obtain ⟨s1', hrm', -, -⟩ := RemoveComponent_ok (T := T) (r := r0) hm0
      rw [hrm'] at hrm
      simp only [Except.ok.injEq, Prod.mk.injEq] at hrm
      rw [← hrm.1]
      exact ⟨_, (hrec.step T).2.1⟩
  | @add r0 r1 s0 s1 T e ref _ hadd hroom ih =>
    obtain ⟨⟨seen, hrec⟩, ha, hwf⟩ := ih
    have hr1 := (AddComponent_ok hadd).1
    have hwf1 := sparseWellFormed_AddComponent hwf hadd hroom
    refine ⟨⟨_, by rw [hr1]; exact (hrec.step T).2.1⟩, ?_, hwf1⟩
    refine ha.add hrec hadd ?_ ?_
    · intro e1 st0 hst0 hslot
      obtain ⟨hes, off, hget, hbd⟩ := hslot
      obtain ⟨st1, hst1, hget1, suf, hsuf⟩ := sparse_AddComponent_keeps hadd hst0 hget
      refine ⟨st1, hst1, (SkiplistComponentStorage.sparse_Get_ok hget1).1, off, hget1, ?_⟩
      show off + T.sizeof ≤ st1.data.length
      rw [hsuf, List.length_append]
      have : off + T.sizeof ≤ st0.data.length := hbd
      omega
    · obtain ⟨-, -, _, st0, st1, -, -, hst0, hgoa, hst1⟩ := AddComponent_result hadd
      have hwf0 : (if Storage.elementSize st0 = SIZE_MAX then Storage.ofType T else st0 :
          SkiplistComponentStorage).WellFormed := by
        split
        · exact SkiplistComponentStorage.wellFormed_ofType T
        · rename_i hne
          rcases hst0 with h0 | ⟨-, h0⟩
          · exact hwf st0 (List.getElem?_mem h0) hne
          · subst h0; exact absurd rfl hne
      obtain ⟨hes, hidx, hoff, hbd, -, -, -⟩ := SkiplistComponentStorage.GetOrAllocate_wf hwf0 hgoa
      exact ⟨st1, hst1, hes, ref.offset,
        (SkiplistComponentStorage.GetOrAllocate_present hes hidx hoff).2, hbd⟩

/-- Claim C25: presence implies an allocated slot. In every state reached from an empty
scene by calls of `CreateEntity`, `AddComponent` and `RemoveComponent` that return (with
every `data` within the capacity of a byte vector, and any `GetComponentID` calls before or
in between), whenever `HasComponent<T>(e)` returns `true` the storage at the id of `T` exists
with `elementSize = sizeof(T)` and holds a slot for `e`, and `GetComponent<T>(e)` returns a
reference to it without changing the scene. Dense: `e` is below the slot count and the
slot is at `e * sizeof(T)`. Sparse: `indecies[e]` is present, is not the sentinel, and
addresses a whole slot inside `data`. -/
theorem HasComponent_allocated :
    (∀ (r r1 : Registry) (s : Scene ComponentStorage) (T : ComponentType) (e : Entity),
      Reachable r s → HasComponent T e r s = .ok (true, r1) →
      ∃ st, s.storages[(GetComponentID T r).1]? = some st ∧ st.elementSize = T.sizeof ∧
        e.val < st.data.length / T.sizeof ∧
        GetComponent T e r s = .ok (⟨(GetComponentID T r).1, e.val * T.sizeof⟩, r1, s)) ∧
    (∀ (r r1 : Registry) (s : Scene SkiplistComponentStorage) (T : ComponentType) (e : Entity),
      Reachable r s → HasComponent T e r s = .ok (true, r1) →
      ∃ st off, s.storages[(GetComponentID T r).1]? = some st ∧ st.elementSize = T.sizeof ∧
        st.indecies[e.val]? = some off ∧ off ≠ SIZE_MAX ∧ off + T.sizeof ≤ st.data.length ∧
        GetComponent T e r s = .ok (⟨(GetComponentID T r).1, off⟩, r1, s)) := by
  constructor
  · intro r r1 s T e hreach hhas
    obtain ⟨⟨seen, hrec⟩, ha⟩ := dense_reachable hreach
    obtain ⟨hr1, m, hm, hbit⟩ := HasComponent_true hhas
    obtain ⟨-, U, st, hl, hst, hslot⟩ := ha e.val _ m hm hbit
    have hUT : U = T := hrec.lookup_unique hl
    subst hUT
    rw [SceneView.toEntity_val] at hslot
    obtain ⟨hes, off, hget, -⟩ := hslot
    obtain ⟨hes', hlt, hoff⟩ := ComponentStorage.dense_Get_ok hget
    subst hoff
    refine ⟨st, hst, hes', hlt, ?_⟩
    rw [hr1]
    exact GetComponent_present hm hbit hst (by rw [hes]; exact sizeof_ne_max U) hget
  · intro r r1 s T e hreach hhas
    obtain ⟨⟨seen, hrec⟩, ha, -⟩ := sparse_reachable hreach
    obtain ⟨hr1, m, hm, hbit⟩ := HasComponent_true hhas
    obtain ⟨-, U, st, hl, hst, hslot⟩ := ha e.val _ m hm hbit
    have hUT : U = T := hrec.lookup_unique hl
    subst hUT
    rw [SceneView.toEntity_val] at hslot
    obtain ⟨hes, off, hget, hbd⟩ := hslot
    obtain ⟨hes', hidx, hoff⟩ := SkiplistComponentStorage.sparse_Get_ok hget
    refine ⟨st, off, hst, hes', hidx, hoff, hbd, ?_⟩
    rw [hr1]
    exact GetComponent_present hm hbit hst (by rw [hes]; exact sizeof_ne_max U) hget

set_option maxRecDepth 100000 in
/-- Witness for C25: three entities, `exPosition` added to entity 2 on dense storage
(`exDense`) and to entities 0 and 2 on sparse storage (`exScenario1`); the bit of entity 2
is set and its slot is there. -/
theorem HasComponent_allocated_witness :
    (∃ st, exDense.storages[(GetComponentID exPosition exRegistry1).1]? = some st ∧
      st.elementSize = exPosition.sizeof ∧ (2 : Entity).val < st.data.length / exPosition.sizeof ∧
      GetComponent exPosition 2 exRegistry1 exDense =
        .ok (⟨(GetComponentID exPosition exRegistry1).1, (2 : Entity).val * exPosition.sizeof⟩,
          exRegistry1, exDense)) ∧
    (∃ st off, exScenario1.storages[(GetComponentID exPosition exRegistry1).1]? = some st ∧
      st.elementSize = exPosition.sizeof ∧ st.indecies[(2 : Entity).val]? = some off ∧
      off ≠ SIZE_MAX ∧ off + exPosition.sizeof ≤ st.data.length ∧
      GetComponent exPosition 2 exRegistry1 exScenario1 =
        .ok (⟨(GetComponentID exPosition exRegistry1).1, off⟩, exRegistry1, exScenario1)) :=
  ⟨HasComponent_allocated.1 exRegistry1 exRegistry1 exDense exPosition 2
      (@Reachable.add ComponentStorage _ ⟨0, []⟩ exRegistry1 (createN 3 Scene.new) exDense
        exPosition 2 ⟨0, 8⟩
        (Reachable.create (Reachable.create (Reachable.create (Reachable.start []))))
        (by decide) (by decide))
      (by decide),
    HasComponent_allocated.2 exRegistry1 exRegistry1 exScenario1 exPosition 2
      (@Reachable.add SkiplistComponentStorage _ exRegistry1 exRegistry1
        ⟨[[true], [false], [false]], [⟨4, [0], [1, 2, 3, 4]⟩]⟩ exScenario1 exPosition 2 ⟨0, 4⟩
        (@Reachable.add SkiplistComponentStorage _ ⟨0, []⟩ exRegistry1 (createN 3 Scene.new)
          ⟨[[true], [false], [false]], [⟨4, [0], [1, 2, 3, 4]⟩]⟩ exPosition 0 ⟨0, 0⟩
          (Reachable.create (Reachable.create (Reachable.create (Reachable.start []))))
          (by decide) (by decide))
        (by decide) (by decide))
      (by decide)⟩

end Scene

/-! ### Reachable sparse storages -/

namespace SkiplistComponentStorage

theorem filter_grown (indecies : List Nat) (e : Nat) :
    (grown indecies e).filter (fun o => decide (o ≠ SIZE_MAX)) =
      indecies.filter (fun o => decide (o ≠ SIZE_MAX)) := by
  unfold grown
  split
  · rw [List.filter_append]
    have : (List.replicate (e - indecies.length + 1) SIZE_MAX).filter
        (fun o => decide (o ≠ SIZE_MAX)) = [] := by
      rw [List.filter_eq_nil_iff]
      intro a ha
      rw [List.eq_of_mem_replicate ha]
      simp
    rw [this, List.append_nil]
  · rfl

theorem filter_set_perm {l : List Nat} {e v : Nat} (hl : l[e]? = some SIZE_MAX)
    (hv : v ≠ SIZE_MAX) :
    ((l.set e v).filter (fun o => decide (o ≠ SIZE_MAX))).Perm
      (v :: l.filter (fun o => decide (o ≠ SIZE_MAX))) := by
  obtain ⟨hlt, hget⟩ := List.getElem?_eq_some_iff.mp hl
  have hsplit : l = l.take e ++ SIZE_MAX :: l.drop (e + 1) := by
    conv_lhs => rw [← List.take_append_drop e l, List.drop_eq_getElem_cons hlt, hget]
  have hset : l.set e v = l.take e ++ v :: l.drop (e + 1) := by
    rw [List.set_eq_take_append_cons_drop, if_pos hlt]
  rw [hset]
  conv_rhs => rw [hsplit]
  simp only [List.filter_append, List.filter_cons, hv, ne_eq, not_false_eq_true, decide_True,
    if_true, not_true_eq_false, decide_False, Bool.false_eq_true, if_false]
  exact List.perm_middle

theorem count_two {l : List Nat} {i j a : Nat} (hij : i < j) (hi : l[i]? = some a)
    (hj : l[j]? = some a) : 2 ≤ l.count a := by
  have h1 : a ∈ l.take j := by
    apply List.getElem?_mem (show (l.take j)[i]? = some a from ?_)
    rw [List.getElem?_take_of_lt hij]; exact hi
  have h2 : a ∈ l.drop j := by
    apply List.getElem?_mem (show (l.drop j)[0]? = some a from ?_)
    rw [List.getElem?_drop]; exact hj
  have := List.count_pos_iff.mpr h1
  have := List.count_pos_iff.mpr h2
  have h3 : l.count a = (l.take j).count a + (l.drop j).count a := by
    rw [← List.count_append, List.take_append_drop]
  omega

theorem offsets_distinct {st : SkiplistComponentStorage} (h : (offsets st).Nodup)
    {i j a : Nat} (hij : i ≠ j) (hi : st.indecies[i]? = some a) (hj : st.indecies[j]? = some a) :
    a = SIZE_MAX := by
  by_contra hne
  have hc : 2 ≤ st.indecies.count a := by
    rcases Nat.lt_or_gt_of_ne hij with hlt | hlt
    · exact count_two hlt hi hj
    · exact count_two hlt hj hi
  have hle := List.nodup_iff_count_le_one.mp h a
  unfold offsets at hle
  rw [List.count_filter (by simpa using hne)] at hle
  omega

theorem Reached.invariant {s : Nat} {st : SkiplistComponentStorage} (h : Reached s st) :
    st.elementSize = s ∧ (offsets st).Nodup ∧
      (∀ o ∈ offsets st, o % s = 0 ∧ o < st.data.length) ∧
      (offsets st).length * s = st.data.length := by
  induction h with
  | fresh => exact ⟨rfl, List.nodup_nil, fun o ho => (by cases ho), (by simp [offsets, ofSize])⟩
  | call hprev hcall hroom ih =>
    rename_i st st1 T e off
    obtain ⟨hes, hnd, hin, hlen⟩ := ih
    have hsz := GetOrAllocate_sizeof hcall
    have hs : s = T.sizeof := by rw [← hes, hsz]
    by_cases hidx : (st.indecies[e.val]?).getD SIZE_MAX = SIZE_MAX
    · rw [GetOrAllocate_fresh hsz hidx] at hcall
      simp only [Except.ok.injEq, Prod.mk.injEq] at hcall
      obtain ⟨h1, -⟩ := hcall
      subst h1
      have hal : st.data.length % T.sizeof = 0 := by
        rw [← hlen, hs]; exact Nat.mul_mod_left _ _
      have hmul := slotIndex_mul (sizeof_pos T) hal
      have hpos := sizeof_pos T
      have hlen1 : (st.data ++ T.init).length = st.data.length + T.sizeof := by
        rw [List.length_append]; rfl
      dsimp only at hroom
      rw [hlen1] at hroom
      have hv : st.data.length ≠ SIZE_MAX := by unfold SIZE_MAX; omega
      have hperm : (offsets (⟨T.sizeof, (grown st.indecies e.val).set e.val
          (subSizeT (st.data.length + T.sizeof) 1 / T.sizeof * T.sizeof),
          st.data ++ T.init⟩ : SkiplistComponentStorage)).Perm
            (st.data.length :: offsets st) := by
        unfold offsets
        dsimp only
        rw [hmul, ← filter_grown st.indecies e.val]
        exact filter_set_perm (by rw [grown_getElem?, hidx]) hv
      refine ⟨hs.symm, ?_, ?_, ?_⟩
      · rw [hperm.nodup_iff, List.nodup_cons]
        exact ⟨fun hmem => absurd (hin _ hmem).2 (Nat.lt_irrefl _), hnd⟩
      · intro o ho
        dsimp only
        rw [hlen1]
        rcases List.mem_cons.mp (hperm.mem_iff.mp ho) with h0 | h0
        · subst h0
          exact ⟨by rw [hs]; exact hal, by omega⟩
        · have := hin o h0
          exact ⟨this.1, by omega⟩
      · rw [hperm.length_eq, List.length_cons]
        dsimp only
        rw [hlen1, Nat.add_mul, hlen, hs, Nat.one_mul]
    · cases hopt : st.indecies[e.val]? with
      | none => rw [hopt] at hidx; exact absurd rfl hidx
      | some off0 =>
        rw [hopt] at hidx
        rw [(GetOrAllocate_present hsz hopt hidx).1] at hcall
        simp only [Except.ok.injEq, Prod.mk.injEq] at hcall
        obtain ⟨h1, -⟩ := hcall
        subst h1
        exact ⟨hes, hnd, hin, hlen⟩

/-- Claim C26: in every sparse storage reached from `SkiplistComponentStorage(s)`, `s ≥ 1`,
by `GetOrAllocate` calls that return (with `data` within the capacity of a byte vector),
the entries of `indecies` other than the sentinel are pairwise distinct, each is a multiple
of `s` strictly below the length of `data`, and their number is the number of slots
`data.size() / s`, `data` being made of whole slots. In particular two different entity
ordinals never hold the same offset: an entry found at two positions is the sentinel. -/
theorem Reached_offsets (s : Nat) (st : SkiplistComponentStorage) (hs : 1 ≤ s)
    (h : Reached s st) :
    st.elementSize = s ∧ (offsets st).Nodup ∧
      (∀ o ∈ offsets st, o % s = 0 ∧ o < st.data.length) ∧
      (offsets st).length = st.data.length / s ∧ st.data.length % s = 0 ∧
      (∀ i j a : Nat, i ≠ j → st.indecies[i]? = some a → st.indecies[j]? = some a →
        a = SIZE_MAX) := by
  obtain ⟨hes, hnd, hin, hlen⟩ := h.invariant
  refine ⟨hes, hnd, hin, ?_, ?_, ?_⟩
  · rw [← hlen, Nat.mul_div_cancel _ (by omega)]
  · rw [← hlen]; exact Nat.mul_mod_left _ _
  · intro i j a hij hi hj
    exact offsets_distinct hnd hij hi hj

set_option maxRecDepth 100000 in
/-- Witness for C26: the storage sized for `exPosition` after `GetOrAllocate` for entities 0
and 2: offsets 0 and 4, two slots. -/
theorem Reached_offsets_witness :
    (⟨4, [0, SIZE_MAX, 4], [1, 2, 3, 4, 1, 2, 3, 4]⟩ : SkiplistComponentStorage).elementSize = 4 ∧
    (offsets ⟨4, [0, SIZE_MAX, 4], [1, 2, 3, 4, 1, 2, 3, 4]⟩).Nodup ∧
    (∀ o ∈ offsets ⟨4, [0, SIZE_MAX, 4], [1, 2, 3, 4, 1, 2, 3, 4]⟩, o % 4 = 0 ∧
      o < (⟨4, [0, SIZE_MAX, 4], [1, 2, 3, 4, 1, 2, 3, 4]⟩ :
        SkiplistComponentStorage).data.length) ∧
    (offsets ⟨4, [0, SIZE_MAX, 4], [1, 2, 3, 4, 1, 2, 3, 4]⟩).length =
      (⟨4, [0, SIZE_MAX, 4], [1, 2, 3, 4, 1, 2, 3, 4]⟩ :
        SkiplistComponentStorage).data.length / 4 ∧
    (⟨4, [0, SIZE_MAX, 4], [1, 2, 3, 4, 1, 2, 3, 4]⟩ :
        SkiplistComponentStorage).data.length % 4 = 0 ∧
    (∀ i j a : Nat, i ≠ j →
      (⟨4, [0, SIZE_MAX, 4], [1, 2, 3, 4, 1, 2, 3, 4]⟩ :
        SkiplistComponentStorage).indecies[i]? = some a →
      (⟨4, [0, SIZE_MAX, 4], [1, 2, 3, 4, 1, 2, 3, 4]⟩ :
        SkiplistComponentStorage).indecies[j]? = some a → a = SIZE_MAX) :=
  Reached_offsets 4 ⟨4, [0, SIZE_MAX, 4], [1, 2, 3, 4, 1, 2, 3, 4]⟩ (by decide)
    (Reached.call
      (Reached.call Reached.fresh
        (show GetOrAllocate exPosition 0 (ofSize 4) = .ok (⟨4, [0], [1, 2, 3, 4]⟩, 0) by decide)
        (by decide))
      (show GetOrAllocate exPosition 2 ⟨4, [0], [1, 2, 3, 4]⟩ =
        .ok (⟨4, [0, SIZE_MAX, 4], [1, 2, 3, 4, 1, 2, 3, 4]⟩, 4) by decide)
      (by decide))

end SkiplistComponentStorage

/-! ### Iterator advance -/

namespace SceneView

theorem qualFrom_split (s : SparseScene) (Ts : List ComponentType) (r : Registry) :
    ∀ (d a : Nat), a + d ≤ s.entityMasks.length →
      qualFrom s Ts r a =
        (List.range' a d).filter (fun n => holdsAll s Ts (toEntity n) r) ++
          qualFrom s Ts r (a + d) := by
  intro d
  induction d with
  | zero => intro a _; simp
  | succ d ih =>
    intro a h
    rw [qualFrom_step s Ts r (show a < s.entityMasks.length by omega), List.range'_succ,
      List.filter_cons, ih (a + 1) (by omega)]
    have : a + 1 + d = a + (d + 1) := by omega
    rw [this]
    split <;> rfl

theorem none_between (s : SparseScene) (Ts : List ComponentType) (r : Registry) {a b : Nat}
    (hab : a ≤ b) (hb : b ≤ s.entityMasks.length)
    (h : qualFrom s Ts r a = qualFrom s Ts r b) :
    ∀ k, a ≤ k → k < b → holdsAll s Ts (toEntity k) r = false := by
  obtain ⟨d, rfl⟩ : ∃ d, b = a + d := ⟨b - a, by omega⟩
  rw [qualFrom_split s Ts r d a hb] at h
  have hnil := List.append_left_eq_self.mp h
  intro k h1 h2
  have hmem : k ∈ List.range' a d := by rw [List.mem_range'_1]; omega
  have := List.filter_eq_nil_iff.mp hnil k hmem
  simpa using this

theorem advance_diverges (s : SparseScene) (Ts : List ComponentType) (r : Registry)
    (hN : 256 ≤ s.entityMasks.length) (hq : ∀ e : Entity, holdsAll s Ts e r = false) :
    ∀ (fuel : Nat) (e : Entity) (r1 : Registry), Ext Ts r r1 →
      advance s Ts fuel e r1 = none := by
  intro fuel
  induction fuel with
  | zero => intro e r1 _; rfl
  | succ fuel ih =>
    intro e r1 hext
    have hlt : (e + 1).val < s.entityMasks.length := by
      have := (e + 1).isLt; omega
    obtain ⟨r2, hv, hx⟩ := valid_ext s hlt Ts r r1 hext
    rw [advance, hv, hq]
    dsimp only
    rw [if_pos (by simp [hlt])]
    exact ih (e + 1) r2 hx

theorem loop_ends (s : SparseScene) (Ts : List ComponentType) (r : Registry)
    (hN : s.entityMasks.length ≤ 255) :
    ∀ (fuel : Nat) (e : Entity) (r1 : Registry), e.val ≤ s.entityMasks.length →
      s.entityMasks.length - e.val + 1 ≤ fuel → Ext Ts r r1 →
      (loop s Ts fuel e r1).2 ≠ none := by
  intro fuel
  induction fuel with
  | zero => intro e r1 he hf; omega
  | succ fuel ih =>
    intro e r1 he hf hext
    rw [loop]
    by_cases hend : s.entityMasks.length ≤ e.val
    · have : atEnd s e = true := by simp [atEnd, hend]
      rw [if_pos this]
      simp
    · have hlt : e.val < s.entityMasks.length := by omega
      have : ¬ (atEnd s e = true) := by simp [atEnd, hlt]
      rw [if_neg this]
      rcases advance_spec s Ts r hN (fuel + 1) e r1 hlt (by omega) hext with
        ⟨f, ha, -⟩ | ⟨e1, r2, ha, hx, h1, h2, -, -⟩
      · rw [ha]; simp
      · rw [ha]
        exact ih e1 r2 h2 (by omega) hx

theorem traverse_ends (s : SparseScene) (Ts : List ComponentType) (r : Registry) (fuel : Nat)
    (hN : s.entityMasks.length ≤ 255) (hf : s.entityMasks.length < fuel) :
    (traverse s Ts fuel r).2 ≠ none := by
  unfold traverse begin
  by_cases h0 : s.entityMasks.length = 0
  · rcases valid_outside s (show s.entityMasks.length ≤ (0 : Entity).val by simp [h0]) Ts r with
      hv | hv
    · rw [hv]; simp
    · rw [hv]
      exact loop_ends s Ts r hN fuel 0 r (by simp) (by simp; omega) (Ext.refl _ _)
  · have hlt : (0 : Entity).val < s.entityMasks.length := by
      show 0 < s.entityMasks.length
      omega
    obtain ⟨r2, hv, hx⟩ := valid_ext s hlt Ts r r (Ext.refl _ _)
    rw [hv]
    cases hq : holdsAll s Ts 0 r
    · dsimp only
      rcases advance_spec s Ts r hN fuel 0 r2 hlt (by simp; omega) hx with
        ⟨f, ha, -⟩ | ⟨e1, r3, ha, hx3, h1, h2, -, -⟩
      · rw [ha]; simp
      · rw [ha]
        exact loop_ends s Ts r hN fuel e1 r3 h2 (by omega) hx3
    · dsimp only
      exact loop_ends s Ts r hN fuel 0 r2 (by simp) (by simp; omega) hx

set_option maxRecDepth 1000000 in
/-- Claim C27, counterexample: with 256 entities the 8-bit ordinal wraps. In `exCrowded`
(`exPosition` on entity 0 only) the advance from entity 255 comes to rest on entity 0, an
ordinal already visited and not the entity count 256; in `exVacant` (256 entities built by
`CreateEntity`, no component anywhere) the advance from entity 0 does not terminate,
whatever the number of loop iterations allowed. -/
theorem advance_counterexample :
    advance exCrowded [exPosition] 300 255 exRegistry1 = some (.ok (0, exRegistry1)) ∧
    atEnd exCrowded 0 = false ∧
    createN 256 Scene.new = exVacant ∧
    ¬ ∃ fuel, advance exVacant [exPosition] fuel 0 exRegistry1 ≠ none := by
  refine ⟨by decide, by decide, by decide, ?_⟩
  rintro ⟨fuel, h⟩
  exact h (advance_diverges exVacant [exPosition] exRegistry1 (by decide) (by decide) fuel 0
    exRegistry1 (Ext.refl _ _))

/-- Claim C27, as amended: for every sparse scene with `N ≤ 255` entities, every list of
component types and every iterator position `e < N`, an advance terminates after at most
`N - e` evaluations of `valid()`. If it returns an iterator, the new ordinal `e1` is greater
than `e` and at most `N`, no ordinal strictly between `e` and `e1` qualifies, and `e1`
qualifies unless it is `N`: the iterator moved to the least qualifying ordinal after `e`, or
to `N` when there is none. If it does not return an iterator, no ordinal between `e` and `N`
qualifies. The 8-bit ordinal never wraps, and a loop from `begin()` ends after running its
body at most `N` times. How the step onto ordinal `N` ends is not part of the statement. -/
theorem advance_least (s : SparseScene) (Ts : List ComponentType) (r : Registry) (fuel : Nat)
    (e : Entity) (hN : s.entityMasks.length ≤ 255) (he : e.val < s.entityMasks.length)
    (hf : s.entityMasks.length - e.val ≤ fuel) :
    advance s Ts fuel e r ≠ none ∧
    (∀ e1 r1, advance s Ts fuel e r = some (.ok (e1, r1)) →
      e.val < e1.val ∧ e1.val ≤ s.entityMasks.length ∧
      (e1.val < s.entityMasks.length → holdsAll s Ts e1 r = true) ∧
      ∀ k, e.val < k → k < e1.val → holdsAll s Ts (toEntity k) r = false) ∧
    (∀ f, advance s Ts fuel e r = some (.error f) →
      ∀ k, e.val < k → k < s.entityMasks.length → holdsAll s Ts (toEntity k) r = false) ∧
    (traverse s Ts (s.entityMasks.length + 1) r).2 ≠ none ∧
    (traverse s Ts (s.entityMasks.length + 1) r).1.length ≤ s.entityMasks.length := by
  have hspec := advance_spec s Ts r hN fuel e r he hf (Ext.refl _ _)
  refine ⟨?_, ?_, ?_, traverse_ends s Ts r _ hN (by omega), ?_⟩
  · rcases hspec with ⟨f, ha, -⟩ | ⟨e1, r2, ha, -⟩ <;> rw [ha] <;> simp
  · intro e1 r1 h
    rcases hspec with ⟨f, ha, -⟩ | ⟨e2, r2, ha, -, h1, h2, h3, h4⟩
    · rw [ha] at h; cases h
    · rw [ha] at h
      cases h
      exact ⟨h1, h2, h4, fun k hk1 hk2 => none_between s Ts r (by omega) h2 h3 k (by omega) hk2⟩
  · intro f h
    rcases hspec with ⟨f1, ha, hq⟩ | ⟨e2, r2, ha, -⟩
    · intro k hk1 hk2
      have hq' : qualFrom s Ts r (e.val + 1) = qualFrom s Ts r s.entityMasks.length := by
        rw [hq, qualFrom_end s Ts r (Nat.le_refl _)]
      exact none_between s Ts r (by omega) (Nat.le_refl _) hq' k (by omega) hk2
    · rw [ha] at h; cases h
  · rw [(traverse_spec s Ts r _ hN (by omega)), qualFrom_zero]
    calc ((List.range s.entityMasks.length).filter _).length
        ≤ (List.range s.entityMasks.length).length := List.length_filter_le _ _
      _ = s.entityMasks.length := List.length_range _

set_option maxRecDepth 100000 in
/-- Witness for C27 as amended: in Scenario 1 the advance from entity 0 skips entity 1 and
rests on entity 2. -/
theorem advance_least_witness :
    advance exScenario1 [exPosition] 3 0 exRegistry1 ≠ none ∧
    ((0 : Entity).val < (2 : Entity).val ∧ (2 : Entity).val ≤ exScenario1.entityMasks.length ∧
      ((2 : Entity).val < exScenario1.entityMasks.length →
        holdsAll exScenario1 [exPosition] 2 exRegistry1 = true) ∧
      ∀ k, (0 : Entity).val < k → k < (2 : Entity).val →
        holdsAll exScenario1 [exPosition] (toEntity k) exRegistry1 = false) ∧
    (traverse exScenario1 [exPosition] (exScenario1.entityMasks.length + 1) exRegistry1).2 ≠
      none ∧
    (traverse exScenario1 [exPosition] (exScenario1.entityMasks.length + 1)
      exRegistry1).1.length ≤ exScenario1.entityMasks.length :=
  ⟨(advance_least exScenario1 [exPosition] exRegistry1 3 0 (by decide) (by decide)
      (by decide)).1,
    (advance_least exScenario1 [exPosition] exRegistry1 3 0 (by decide) (by decide)
      (by decide)).2.1 2 exRegistry1 (by decide),
    (advance_least exScenario1 [exPosition] exRegistry1 3 0 (by decide) (by decide)
      (by decide)).2.2.2⟩

end SceneView

/-! ### The dense count limit and the iterator bounds -/

namespace Scene

variable {σ : Type}

theorem GetStorage_beyond [Storage σ] {T : ComponentType} {r : Registry} {s : Scene σ}
    (h : s.storages.length < (GetComponentID T r).1) :
    GetStorage T r s = .error .undefinedBehaviour := by
  unfold GetStorage
  dsimp only
  rw [if_pos (by omega)]
  have hcount : maxInt64One (subSizeT (GetComponentID T r).1 s.storages.length) =
      (GetComponentID T r).1 - s.storages.length ∨
      maxInt64One (subSizeT (GetComponentID T r).1 s.storages.length) = 1 := by
    have hsub : subSizeT (GetComponentID T r).1 s.storages.length =
        (GetComponentID T r).1 - s.storages.length := by
      unfold subSizeT; rw [if_pos (by omega)]
    rw [hsub]
    unfold maxInt64One
    split
    · exact Or.inl rfl
    · exact Or.inr rfl
  have hnone : (s.storages ++ List.replicate
      (maxInt64One (subSizeT (GetComponentID T r).1 s.storages.length))
      (Storage.default : σ))[(GetComponentID T r).1]? = none := by
    apply List.getElem?_eq_none
    rw [List.length_append, List.length_replicate]
    rcases hcount with h1 | h1 <;> rw [h1] <;> omega
  rw [hnone]

end Scene

namespace ComponentStorage

/-- Claim C28: for every dense storage with element size `s = sizeof(T)` holding
`n = data.size() / s` slots and every entity `e`, `GetOrAllocate<T>(e)` faults if and only
if `e ≥ n` and `e - n + 1 ≥ 100`, and the fault is then the assertion `count < 100` of
`Allocate`; `Allocate<T>(count)` rejects every `count ≥ 100`. On a dense scene whose storage
for `T` holds `n` slots, `AddComponent<T>(e)` for an entity with `e ≥ n` and
`e - n + 1 ≥ 100` does not return. -/
theorem GetOrAllocate_fault_iff (T : ComponentType) (e : Entity) (st : ComponentStorage)
    (hsz : st.elementSize = T.sizeof) :
    ((∃ f, GetOrAllocate T e st = .error f) ↔
      (st.data.length / T.sizeof ≤ e.val ∧ 100 ≤ e.val - st.data.length / T.sizeof + 1)) ∧
    (st.data.length / T.sizeof ≤ e.val → 100 ≤ e.val - st.data.length / T.sizeof + 1 →
      GetOrAllocate T e st = .error .countLimit) ∧
    (∀ count, 100 ≤ count → Allocate T count st = .error .countLimit) ∧
    (∀ (r : Registry) (s : Scene ComponentStorage),
      s.storages[(GetComponentID T r).1]? = some st →
      st.data.length / T.sizeof ≤ e.val → 100 ≤ e.val - st.data.length / T.sizeof + 1 →
      ∃ f, Scene.AddComponent T e r s = .error f) := by
  refine ⟨⟨?_, ?_⟩, fun h1 h2 => GetOrAllocate_limit hsz h1 h2, ?_, ?_⟩
  · rintro ⟨f, hf⟩
    by_cases hlt : e.val < st.data.length / T.sizeof
    · rw [(GetOrAllocate_of_lt hsz hlt).1] at hf; cases hf
    · by_cases hlim : e.val - st.data.length / T.sizeof + 1 < 100
      · rw [GetOrAllocate_grow hsz (by omega) hlim] at hf; cases hf
      · exact ⟨by omega, by omega⟩
  · rintro ⟨h1, h2⟩
    exact ⟨_, GetOrAllocate_limit hsz h1 h2⟩
  · intro count hc
    unfold Allocate
    rw [if_neg (by simp [hsz]), if_pos (by omega)]
  · intro r s hst h1 h2
    have hne : Storage.elementSize st ≠ SIZE_MAX := by
      show st.elementSize ≠ SIZE_MAX
      rw [hsz]; exact sizeof_ne_max T
    unfold Scene.AddComponent
    dsimp only
    cases hm : s.entityMasks[e.val]? with
    | none => exact ⟨_, rfl⟩
    | some eMask =>
      dsimp only
      have hst' : (Scene.mk (s.entityMasks.set e.val (Scene.maskWith eMask (GetComponentID T r).1))
          s.storages).storages[(GetComponentID T (GetComponentID T r).2).1]? = some st := by
        rw [GetComponentID_again]; exact hst
      rw [Scene.GetStorage_present hst' hne]
      dsimp only
      rw [GetComponentID_again]
      dsimp only
      rw [hst]
      dsimp only
      have hg : Storage.GetOrAllocate T e st = .error .countLimit := GetOrAllocate_limit hsz h1 h2
      rw [hg]
      exact ⟨_, rfl⟩

set_option maxRecDepth 100000 in
/-- Witness for C28: a dense storage holding one slot of `exPosition`; entity 100 is 100
ordinals past the slot count, entity 99 is not. -/
theorem GetOrAllocate_fault_iff_witness :
    GetOrAllocate exPosition 100 ⟨4, [5, 6, 7, 8]⟩ = .error .countLimit ∧
    Allocate exPosition 100 ⟨4, [5, 6, 7, 8]⟩ = .error .countLimit ∧
    (∃ f, Scene.AddComponent exPosition 100 exRegistry1
      (⟨List.replicate 101 [false], [⟨4, [5, 6, 7, 8]⟩]⟩ : Scene ComponentStorage) =
        .error f) ∧
    ¬ ∃ f, GetOrAllocate exPosition 99 ⟨4, [5, 6, 7, 8]⟩ = .error f :=
  ⟨(GetOrAllocate_fault_iff exPosition 100 ⟨4, [5, 6, 7, 8]⟩ (by decide)).2.1
      (by decide) (by decide),
    (GetOrAllocate_fault_iff exPosition 100 ⟨4, [5, 6, 7, 8]⟩ (by decide)).2.2.1 100
      (by decide),
    (GetOrAllocate_fault_iff exPosition 100 ⟨4, [5, 6, 7, 8]⟩ (by decide)).2.2.2 exRegistry1
      ⟨List.replicate 101 [false], [⟨4, [5, 6, 7, 8]⟩]⟩ (by decide) (by decide) (by decide),
    fun h => absurd
      ((GetOrAllocate_fault_iff exPosition 99 ⟨4, [5, 6, 7, 8]⟩ (by decide)).1.mp h)
      (by decide)⟩

end ComponentStorage

namespace SceneView

set_option maxRecDepth 100000 in
/-- Claim C29, the failing inputs. In Scenario 1 (three entities) the advance from entity 2
evaluates `valid()` at ordinal 3, the entity count, so `HasComponent` indexes `entityMasks`
out of range before `e < size` is tested; and `begin()` on a scene without entities
evaluates `valid()` at ordinal 0. Neither call returns an iterator. -/
theorem valid_out_of_range :
    exScenario1.entityMasks.length = 3 ∧
    valid exScenario1 [exPosition] 3 exRegistry1 = .error .undefinedBehaviour ∧
    advance exScenario1 [exPosition] 4 2 exRegistry1 = some (.error .undefinedBehaviour) ∧
    (Scene.new : SparseScene).entityMasks.length = 0 ∧
    begin Scene.new [exPosition] 4 exRegistry1 = some (.error .undefinedBehaviour) := by
  decide

end SceneView

/-! ### The frame of `AddComponent` -/

namespace Scene

variable {σ : Type}

/-- Claim C30: `AddComponent<T>(e)` affects only `(e, T)`. Whenever the call returns, on any
storage variant: the entity count is unchanged, and every storage that existed at a position
other than the id of `T` (the storage of every other type) is unchanged. In a registry
reached from counter 0 by `GetComponentID` calls, `HasComponent<U>(e1)` returns the same
before and after the call for every pair `(e1, U)` other than `(e, T)`. On dense and on
sparse storage, every entity `e1` that had a slot in the storage of `T` keeps it at the same
offset, the bytes of the old `data` are a prefix of the new `data` (growth only appends), and
every value that could be read at that offset before reads the same afterwards. -/
theorem AddComponent_frame :
    (∀ (σ : Type) [Storage σ] (T : ComponentType) (e : Entity) (r r1 : Registry)
      (s s1 : Scene σ) (ref : Ref),
      AddComponent T e r s = .ok (ref, r1, s1) →
      s1.entityMasks.length = s.entityMasks.length ∧
      ∀ i, i ≠ (GetComponentID T r).1 → i < s.storages.length →
        s1.storages[i]? = s.storages[i]?) ∧
    (∀ (σ : Type) [Storage σ] (Ts : List ComponentType) (T U : ComponentType) (e e1 : Entity)
      (s s2 : Scene σ) (b : Bool) (rU r2 : Registry) (ref : Ref),
      HasComponent U e1 (callSequence Ts ⟨0, []⟩).2 s = .ok (b, rU) → (U ≠ T ∨ e1 ≠ e) →
      AddComponent T e rU s = .ok (ref, r2, s2) →
      HasComponent U e1 r2 s2 = .ok (b, r2)) ∧
    (∀ (T : ComponentType) (e e1 : Entity) (r r1 : Registry) (s s1 : Scene ComponentStorage)
      (ref : Ref) (st0 : ComponentStorage) (off : Nat),
      AddComponent T e r s = .ok (ref, r1, s1) →
      s.storages[(GetComponentID T r).1]? = some st0 →
      ComponentStorage.Get T e1 st0 = .ok off →
      ∃ st1, s1.storages[(GetComponentID T r).1]? = some st1 ∧
        ComponentStorage.Get T e1 st1 = .ok off ∧ (∃ suf, st1.data = st0.data ++ suf) ∧
        ∀ v, load s ⟨(GetComponentID T r).1, off⟩ T.sizeof = .ok v →
          load s1 ⟨(GetComponentID T r).1, off⟩ T.sizeof = .ok v) ∧
    (∀ (T : ComponentType) (e e1 : Entity) (r r1 : Registry)
      (s s1 : Scene SkiplistComponentStorage) (ref : Ref) (st0 : SkiplistComponentStorage)
      (off : Nat),
      AddComponent T e r s = .ok (ref, r1, s1) →
      s.storages[(GetComponentID T r).1]? = some st0 →
      SkiplistComponentStorage.Get T e1 st0 = .ok off →
      ∃ st1, s1.storages[(GetComponentID T r).1]? = some st1 ∧
        SkiplistComponentStorage.Get T e1 st1 = .ok off ∧
        (∃ suf, st1.data = st0.data ++ suf) ∧
        ∀ v, load s ⟨(GetComponentID T r).1, off⟩ T.sizeof = .ok v →
          load s1 ⟨(GetComponentID T r).1, off⟩ T.sizeof = .ok v) := by
  refine ⟨?_, ?_, ?_, ?_⟩
  · intro σ _ T e r r1 s s1 ref h
    exact AddComponent_others h
  · intro σ _ Ts T U e e1 s s2 b rU r2 ref hhas hne hadd
    obtain ⟨-, hrec⟩ := callSequence_records
      (show (⟨0, []⟩ : Registry).Records [] from records_start) Ts
    exact HasComponent_after_add hrec hhas hne hadd
  · intro T e e1 r r1 s s1 ref st0 off h hst0 hget
    obtain ⟨st1, hst1, hget1, suf, hsuf⟩ := dense_AddComponent_keeps h hst0 hget
    exact ⟨st1, hst1, hget1, ⟨suf, hsuf⟩, fun v hv => load_append hst0 hst1 hsuf hv⟩
  · intro T e e1 r r1 s s1 ref st0 off h hst0 hget
    obtain ⟨st1, hst1, hget1, suf, hsuf⟩ := sparse_AddComponent_keeps h hst0 hget
    exact ⟨st1, hst1, hget1, ⟨suf, hsuf⟩, fun v hv => load_append hst0 hst1 hsuf hv⟩

set_option maxRecDepth 100000 in
/-- Witness for C30: three entities with `exPosition` on entity 0 and `exVelocity` on
entity 1; `exPosition` is added to entity 2. Entity count and the `exVelocity` storage stay,
`HasComponent<exVelocity>(2)` stays `false`, and the `exPosition` of entity 0 keeps its
offset and value, on dense and on sparse storage. -/
theorem AddComponent_frame_witness :
    ((⟨[[true], [false, true], [true]],
        [⟨4, [1, 2, 3, 4, 1, 2, 3, 4, 1, 2, 3, 4]⟩, ⟨2, [9, 9, 9, 9]⟩]⟩ :
          Scene ComponentStorage).entityMasks.length = 3 ∧
      ∀ i, i ≠ (GetComponentID exPosition exRegistry2).1 → i < 2 →
        (⟨[[true], [false, true], [true]],
          [⟨4, [1, 2, 3, 4, 1, 2, 3, 4, 1, 2, 3, 4]⟩, ⟨2, [9, 9, 9, 9]⟩]⟩ :
            Scene ComponentStorage).storages[i]? =
          (⟨[[true], [false, true], [false]],
            [⟨4, [1, 2, 3, 4]⟩, ⟨2, [9, 9, 9, 9]⟩]⟩ : Scene ComponentStorage).storages[i]?) ∧
    HasComponent exVelocity 2 exRegistry2
      (⟨[[true], [false, true], [true]],
        [⟨4, [1, 2, 3, 4, 1, 2, 3, 4, 1, 2, 3, 4]⟩, ⟨2, [9, 9, 9, 9]⟩]⟩ :
          Scene ComponentStorage) = .ok (false, exRegistry2) ∧
    (∃ st1, (⟨[[true], [false, true], [true]],
        [⟨4, [1, 2, 3, 4, 1, 2, 3, 4, 1, 2, 3, 4]⟩, ⟨2, [9, 9, 9, 9]⟩]⟩ :
          Scene ComponentStorage).storages[(GetComponentID exPosition exRegistry2).1]? =
            some st1 ∧
      ComponentStorage.Get exPosition 0 st1 = .ok 0 ∧
      (∃ suf, st1.data = [1, 2, 3, 4] ++ suf) ∧
      ∀ v, load (⟨[[true], [false, true], [false]],
          [⟨4, [1, 2, 3, 4]⟩, ⟨2, [9, 9, 9, 9]⟩]⟩ : Scene ComponentStorage)
            ⟨(GetComponentID exPosition exRegistry2).1, 0⟩ exPosition.sizeof = .ok v →
        load (⟨[[true], [false, true], [true]],
          [⟨4, [1, 2, 3, 4, 1, 2, 3, 4, 1, 2, 3, 4]⟩, ⟨2, [9, 9, 9, 9]⟩]⟩ :
            Scene ComponentStorage)
          ⟨(GetComponentID exPosition exRegistry2).1, 0⟩ exPosition.sizeof = .ok v) ∧
    (∃ st1, (⟨[[true], [false, true], [true]],
        [⟨4, [0, SIZE_MAX, 4], [1, 2, 3, 4, 1, 2, 3, 4]⟩, ⟨2, [SIZE_MAX, 0], [9, 9]⟩]⟩ :
          Scene SkiplistComponentStorage).storages[(GetComponentID exPosition exRegistry2).1]? =
            some st1 ∧
      SkiplistComponentStorage.Get exPosition 0 st1 = .ok 0 ∧
      (∃ suf, st1.data = [1, 2, 3, 4] ++ suf) ∧
      ∀ v, load (⟨[[true], [false, true], [false]],
          [⟨4, [0], [1, 2, 3, 4]⟩, ⟨2, [SIZE_MAX, 0], [9, 9]⟩]⟩ :
            Scene SkiplistComponentStorage)
            ⟨(GetComponentID exPosition exRegistry2).1, 0⟩ exPosition.sizeof = .ok v →
        load (⟨[[true], [false, true], [true]],
          [⟨4, [0, SIZE_MAX, 4], [1, 2, 3, 4, 1, 2, 3, 4]⟩, ⟨2, [SIZE_MAX, 0], [9, 9]⟩]⟩ :
            Scene SkiplistComponentStorage)
          ⟨(GetComponentID exPosition exRegistry2).1, 0⟩ exPosition.sizeof = .ok v) :=
  ⟨AddComponent_frame.1 ComponentStorage exPosition 2 exRegistry2 exRegistry2
      ⟨[[true], [false, true], [false]], [⟨4, [1, 2, 3, 4]⟩, ⟨2, [9, 9, 9, 9]⟩]⟩ _ ⟨0, 8⟩
      (by decide),
    AddComponent_frame.2.1 ComponentStorage [exPosition, exVelocity] exPosition exVelocity 2 2
      ⟨[[true], [false, true], [false]], [⟨4, [1, 2, 3, 4]⟩, ⟨2, [9, 9, 9, 9]⟩]⟩ _ false
      exRegistry2 exRegistry2 ⟨0, 8⟩ (by decide) (Or.inl (by decide)) (by decide),
    AddComponent_frame.2.2.1 exPosition 2 0 exRegistry2 exRegistry2
      ⟨[[true], [false, true], [false]], [⟨4, [1, 2, 3, 4]⟩, ⟨2, [9, 9, 9, 9]⟩]⟩ _ ⟨0, 8⟩
      ⟨4, [1, 2, 3, 4]⟩ 0 (by decide) (by decide) (by decide),
    AddComponent_frame.2.2.2 exPosition 2 0 exRegistry2 exRegistry2
      ⟨[[true], [false, true], [false]], [⟨4, [0], [1, 2, 3, 4]⟩, ⟨2, [SIZE_MAX, 0], [9, 9]⟩]⟩ _
      ⟨0, 4⟩ ⟨4, [0], [1, 2, 3, 4]⟩ 0 (by decide) (by decide) (by decide)⟩

end Scene

end cs381
